import Mathlib

/-!
# Wallet ledger and booking settlement (`src/context/WalletContext.jsx`)

A shallow embedding of the wallet provider: the remote ledger store, the
React state held by the provider, the values one render closes over, and the
asynchronous operations the provider exports.

Conventions of the embedding.

* Money is an integer number of the smallest currency unit (`Int`); the
  JavaScript `Number(x)` of a numeric field is the field itself.  A balance
  read off the `wallets` object is a `Num`: an amount, or `NaN` when the key
  names a property that the object inherits from `Object.prototype`.
* An `async` function is a function from the world before the call to its
  outcome (`Except WalletError Unit`) paired with the world after it.  The
  world after a failed call is kept: what was written before the failure stays
  written.
* Every function of the provider is a closure of one render: it reads the
  `user`, `wallets` and `walletIndex` values of that render (`Render`), while
  `setWallets` / `setWalletIndex` write the state the *next* render will see
  (`World`).
* Calls are not interleaved with other sessions.  A call that its caller does
  not await runs up to its first `await` before the caller goes on, and to its
  end before the next operation starts (`Async.detached`).
-/

namespace BookingTrack

/-! ## Constants -/

/-- `PLATFORM.ALHIND`. -/
def PLATFORM.ALHIND : String := "Alhind"
/-- `PLATFORM.AKBAR`. -/
def PLATFORM.AKBAR : String := "Akbar"
/-- `PLATFORM.DIRECT`. -/
def PLATFORM.DIRECT : String := "Direct"

/-- `WALLET_KEYS.ALHIND`. -/
def WALLET_KEYS.ALHIND : String := "alhind"
/-- `WALLET_KEYS.AKBAR`. -/
def WALLET_KEYS.AKBAR : String := "akbar"
/-- `WALLET_KEYS.OFFICE`. -/
def WALLET_KEYS.OFFICE : String := "office"

/-- `WALLET_NAME_MAP[key]`: internal key to the store's wallet name.  (For an
inherited property name the lookup yields a function or an object, which names
no wallet of the index.) -/
def WALLET_NAME_MAP (key : String) : Option String :=
  if key = WALLET_KEYS.ALHIND then some "AlHind"
  else if key = WALLET_KEYS.AKBAR then some "Akbar"
  else if key = WALLET_KEYS.OFFICE then some "Office-Funds"
  else none

/-- `NAME_TO_KEY[name]`: the store's wallet name to the internal key. -/
def NAME_TO_KEY (name : String) : Option String :=
  if name = "AlHind" then some WALLET_KEYS.ALHIND
  else if name = "Akbar" then some WALLET_KEYS.AKBAR
  else if name = "Office-Funds" then some WALLET_KEYS.OFFICE
  else none

/-! ## Numbers and property reads -/

/-- A JavaScript number as far as the provider reads one: an amount, or `NaN`
(what `Number(...)` makes of a value that is not numeric). -/
inductive Num where
  | finite (n : Int)
  | NaN
deriving DecidableEq, Repr

instance : Coe Int Num := ⟨Num.finite⟩

instance (n : Nat) : OfNat Num n := ⟨Num.finite n⟩

/-- `a < b` on numbers: false as soon as one side is `NaN`. -/
def Num.lt : Num → Num → Prop
  | .finite a, .finite b => a < b
  | _, _ => False

/-- `a <= b` on numbers: false as soon as one side is `NaN`. -/
def Num.le : Num → Num → Prop
  | .finite a, .finite b => a ≤ b
  | _, _ => False

instance : LT Num := ⟨Num.lt⟩

instance : LE Num := ⟨Num.le⟩

instance Num.decLt (a b : Num) : Decidable (a < b) :=
  match a, b with
  | .finite x, .finite y => inferInstanceAs (Decidable (x < y))
  | .finite _, .NaN => isFalse (fun h => h)
  | .NaN, _ => isFalse (fun h => h)

instance Num.decLe (a b : Num) : Decidable (a ≤ b) :=
  match a, b with
  | .finite x, .finite y => inferInstanceAs (Decidable (x ≤ y))
  | .finite _, .NaN => isFalse (fun h => h)
  | .NaN, _ => isFalse (fun h => h)

/-- `a + b` on numbers: `NaN` as soon as one side is `NaN`. -/
def Num.add : Num → Num → Num
  | .finite a, .finite b => .finite (a + b)
  | _, _ => .NaN

/-- `-a` on numbers. -/
def Num.neg : Num → Num
  | .finite a => .finite (-a)
  | .NaN => .NaN

instance : Add Num := ⟨Num.add⟩

instance : Neg Num := ⟨Num.neg⟩

/-- What a property read `wallets[key]` yields: the amount of an own property,
a value inherited from `Object.prototype` (a function, or the prototype object
itself), or `undefined`. -/
inductive Value where
  | number (n : Int)
  | inherited
  | undefined
deriving DecidableEq, Repr

/-- The property names that every object literal inherits from
`Object.prototype`. -/
def Object.prototype : List String :=
  ["constructor", "__proto__", "hasOwnProperty", "isPrototypeOf", "propertyIsEnumerable",
   "toLocaleString", "toString", "valueOf", "__defineGetter__", "__defineSetter__",
   "__lookupGetter__", "__lookupSetter__"]

/-- `v ?? d`: `d` only when `v` is `undefined`. -/
def Value.coalesce (v d : Value) : Value :=
  match v with
  | .undefined => d
  | _ => v

/-- `Number(v)`: a function or an object is not numeric. -/
def Number : Value → Num
  | .number n => .finite n
  | .inherited => .NaN
  | .undefined => .NaN

/-! ## The ledger store -/

/-- A row of the `wallets` table (`id,name,balance`); also the shape of a
`walletIndex` entry.  The id `0` stands for a falsy id. -/
structure WalletRow where
  id : Nat
  name : String
  balance : Int
deriving DecidableEq, Repr

/-- A row of `wallet_transactions` as inserted by `recordTransaction`
(the `payload` object); rows are kept in insertion order. -/
structure Posting where
  wallet_id : Nat
  booking_id : Option Nat
  amount : Int
  description : String
  created_by : Option String
deriving DecidableEq, Repr

/-- The remote store: its two tables, and the outcome of the requests still to
come (`some msg` in `insertErrors` is an insert answered with an error of that
message, `true` in `selectErrors` a failed read of `wallets`; an exhausted list
means the request succeeds). -/
structure Store where
  wallets : List WalletRow
  wallet_transactions : List Posting
  insertErrors : List (Option String)
  selectErrors : List Bool
deriving DecidableEq, Repr

/-- Modelled from the spec: the store-side maintenance of `wallets.balance`,
which is not in the repository sources.  "The stored balance is a cache, the
posting log is the source of truth": a row's cached balance moves by the
amount of every posting that references its id. -/
def Store.creditRow (p : Posting) (row : WalletRow) : WalletRow :=
  if row.id = p.wallet_id then { row with balance := row.balance + p.amount } else row

/-- Modelled from the spec: the accepted insert appends the posting to the
ledger and moves the cached balance of the wallet it references. -/
def Store.append (s : Store) (p : Posting) : Store :=
  { s with
    wallet_transactions := s.wallet_transactions ++ [p]
    wallets := s.wallets.map (Store.creditRow p) }

/-- `supabase.from("wallet_transactions").insert([payload])`: the `error` of
the answer and the store afterwards. -/
def Store.insert (s : Store) (payload : Posting) : Option String × Store :=
  match s.insertErrors with
  | some msg :: rest => (some msg, { s with insertErrors := rest })
  | none :: rest => (none, { (s.append payload) with insertErrors := rest })
  | [] => (none, s.append payload)

/-- `supabase.from("wallets").select("id,name,balance")`: `none` is an answer
with `error`, `some data` the rows in creation order. -/
def Store.selectWallets (s : Store) : Option (List WalletRow) × Store :=
  match s.selectErrors with
  | true :: rest => (none, { s with selectErrors := rest })
  | false :: rest => (some s.wallets, { s with selectErrors := rest })
  | [] => (some s.wallets, s)

/-! ## Provider state -/

/-- The signed-in user (only `id` is read). -/
structure User where
  id : String
deriving DecidableEq, Repr

/-- The `wallets` state: `{ alhind, akbar, office }`. -/
structure Wallets where
  alhind : Int
  akbar : Int
  office : Int
deriving DecidableEq, Repr

/-- The `walletIndex` state: wallet name to `{ id, name, balance }`; the first
binding of a name is the live one. -/
abbrev WalletIndex := List (String × WalletRow)

/-- Text of a toast or of a thrown `Error`, with the numbers kept as data. -/
inductive Message where
  /-- "Failed to load wallets". -/
  | loadWalletsFailed
  /-- "Wallet not found for key: KEY". -/
  | walletNotFound (key : String)
  /-- "Insufficient balance in KEY. Available: CURRENT". -/
  | insufficientBalance (key : String) (available : Num)
  /-- "AMOUNT credited to KEY". -/
  | credited (amount : Int) (key : String)
  /-- "AMOUNT debited from KEY". -/
  | debited (amount : Int) (key : String)
  /-- "Invalid expense for refund". -/
  | invalidExpenseRefund
  /-- "AMOUNT debited from Office Fund". -/
  | officeDebited (amount : Int)
  /-- "AMOUNT refunded to Office Fund". -/
  | officeRefunded (amount : Int)
deriving DecidableEq, Repr

/-- A call of `toast.error` or `toast.success`. -/
inductive Toast where
  | error (msg : Message)
  | success (msg : Message)
deriving DecidableEq, Repr

/-- The errors the provider throws, named after the error kinds of the
specification. -/
inductive WalletError where
  /-- `throw new Error("Wallet not found for key: ...")`. -/
  | WalletNotFound (key : String)
  /-- `throw new Error("Insufficient balance in ...")`. -/
  | InsufficientBalance (key : String) (available : Num)
  /-- `throw new Error(error.message || "Failed to record transaction")`. -/
  | StoreWriteError (message : String)
  /-- `throw new Error("Invalid expense amount")`. -/
  | InvalidExpense
deriving DecidableEq, Repr

/-- Everything an operation can change: the store, the provider state that the
next render will read, and the toasts shown so far. -/
structure World where
  store : Store
  user : Option User
  wallets : Wallets
  walletIndex : WalletIndex
  loading : Bool
  toasts : List Toast
deriving DecidableEq, Repr

/-- The values the functions of one render close over. -/
structure Render where
  user : Option User
  wallets : Wallets
  walletIndex : WalletIndex
deriving DecidableEq, Repr

/-- The render that follows a committed state. -/
def World.render (w : World) : Render :=
  { user := w.user, wallets := w.wallets, walletIndex := w.walletIndex }

/-- An awaited call: outcome and world afterwards. -/
abbrev Async := World → Except WalletError Unit × World

/-- `return;` -/
def Async.done : Async := fun w => (.ok (), w)

/-- `throw new Error(...)`. -/
def Async.throw (e : WalletError) : Async := fun w => (.error e, w)

/-- `toast.error(...)` / `toast.success(...)`. -/
def Async.toast (t : Toast) : Async := fun w => (.ok (), { w with toasts := w.toasts ++ [t] })

/-- `await a; b`: `b` runs only when `a` did not throw. -/
def Async.andThen (a b : Async) : Async := fun w =>
  match a w with
  | (.ok (), w1) => b w1
  | (.error e, w1) => (.error e, w1)

/-! ## Wallet index -/

/-- The own properties of the `wallets` object: `alhind`, `akbar`, `office`. -/
def Wallets.own (ws : Wallets) (key : String) : Option Int :=
  if key = "alhind" then some ws.alhind
  else if key = "akbar" then some ws.akbar
  else if key = "office" then some ws.office
  else none

/-- `wallets[key]`: the own property of that name, else what the object
inherits from `Object.prototype` under that name, else `undefined`. -/
def Wallets.get (ws : Wallets) (key : String) : Value :=
  match ws.own key with
  | some n => .number n
  | none => if key ∈ Object.prototype then .inherited else .undefined

/-- `{ alhind: 0, akbar: 0, office: 0 }`. -/
def Wallets.zero : Wallets := { alhind := 0, akbar := 0, office := 0 }

/-- Body of the `forEach` of `loadWallets`: one store row entered into `index`
and `next`. -/
def loadWallets.row (acc : WalletIndex × Wallets) (w : WalletRow) : WalletIndex × Wallets :=
  let index : WalletIndex := (w.name, { id := w.id, name := w.name, balance := w.balance }) :: acc.1
  match NAME_TO_KEY w.name with
  | some key =>
    let next := acc.2
    let next := if key = WALLET_KEYS.ALHIND then { next with alhind := w.balance } else next
    let next := if key = WALLET_KEYS.AKBAR then { next with akbar := w.balance } else next
    let next := if key = WALLET_KEYS.OFFICE then { next with office := w.balance } else next
    (index, next)
  | none => (index, acc.2)

/-- The `index` and `next` that `loadWallets` builds from the rows `data`. -/
def loadWallets.build (data : List WalletRow) : WalletIndex × Wallets :=
  data.foldl loadWallets.row ([], Wallets.zero)

/-- `loadWallets`: it never throws.  (The refresh of the activity list that
follows it only sets the `transactions` view and is left out.) -/
def loadWallets (r : Render) (w : World) : World :=
  match r.user with
  | none => { w with wallets := Wallets.zero, walletIndex := [], loading := false }
  | some _ =>
    match w.store.selectWallets with
    | (none, s) =>
      { w with store := s, loading := false,
               toasts := w.toasts ++ [Toast.error Message.loadWalletsFailed] }
    | (some data, s) =>
      { w with store := s, walletIndex := (loadWallets.build data).1,
               wallets := (loadWallets.build data).2, loading := false }

/-- `getWallet(key)`: `Number(wallets[key] ?? 0)`. -/
def getWallet (r : Render) (key : String) : Num :=
  Number ((r.wallets.get key).coalesce (.number 0))

/-! ## Transaction recorder -/

/-- The `meta` argument of the wallet calls. -/
structure Meta where
  bookingId : Option Nat := none
  expenseId : Option Nat := none
  action : Option String := none
  description : Option String := none
  type : Option String := none
  category : Option String := none
deriving DecidableEq, Repr

/-- `x || y` on optional strings: the empty string is falsy. -/
def orElse (x y : Option String) : Option String :=
  match x with
  | some s => if s = "" then y else some s
  | none => y

/-- `id || null`: the id `0` is falsy. -/
def orNull (x : Option Nat) : Option Nat :=
  match x with
  | some n => if n = 0 then none else some n
  | none => none

/-- The wallet that `recordTransaction` finds for `key`:
`name ? walletIndex[name] : undefined`, rejected when `!wallet || !wallet.id`. -/
def lookupWallet (r : Render) (key : String) : Option WalletRow :=
  match WALLET_NAME_MAP key with
  | none => none
  | some name =>
    if name = "" then none
    else
      match r.walletIndex.lookup name with
      | none => none
      | some wallet => if wallet.id = 0 then none else some wallet

/-- `recordTransaction(key, delta, meta, actor)`. -/
def recordTransaction (r : Render) (key : String) (delta : Int) (meta : Meta)
    (_actor : String) : Async := fun w =>
  match lookupWallet r key with
  | none =>
    (.error (.WalletNotFound key),
      { w with toasts := w.toasts ++ [Toast.error (Message.walletNotFound key)] })
  | some wallet =>
    let amount := delta
    if amount = 0 then (.ok (), w)
    else
      let payload : Posting :=
        { wallet_id := wallet.id
          booking_id := orNull meta.bookingId
          amount := amount
          description :=
            (orElse (orElse meta.description meta.action) (some "Wallet transaction")).getD ""
          created_by := orElse (r.user.map User.id) none }
      match w.store.insert payload with
      | (some msg, s) =>
        (.error (.StoreWriteError (if msg = "" then "Failed to record transaction" else msg)),
          { w with store := s })
      | (none, s) => (.ok (), loadWallets r { w with store := s })

/-- `Math.abs`. -/
def Math.abs (x : Int) : Int := if x < 0 then -x else x

/-- `addToWallet(key, amount, actor, meta)`. -/
def addToWallet (r : Render) (key : String) (amount : Int) (actor : String)
    (meta : Meta) : Async := fun w =>
  if key = "" ∨ amount ≤ 0 then (.ok (), w)
  else
    Async.andThen (recordTransaction r key (Math.abs amount) meta actor)
      (Async.toast (Toast.success (Message.credited amount key))) w

/-- `deductFromWallet(key, amount, actor, meta)`; `current` is
`Number(wallets[key] ?? 0)`, which is what `getWallet(key)` computes. -/
def deductFromWallet (r : Render) (key : String) (amount : Int) (actor : String)
    (meta : Meta) : Async := fun w =>
  if key = "" ∨ amount ≤ 0 then (.ok (), w)
  else
    let current := getWallet r key
    if current < amount then
      (.error (.InsufficientBalance key current),
        { w with toasts := w.toasts ++ [Toast.error (Message.insufficientBalance key current)] })
    else
      Async.andThen (recordTransaction r key (-(Math.abs amount)) meta actor)
        (Async.toast (Toast.success (Message.debited amount key))) w

/-! ## Calls that are not awaited -/

/-- The toasts `recordTransaction` has shown when it reaches its first `await`
(the insert) or ends before it: the not-found toast, when the key does not
resolve. -/
def recordTransaction.early (r : Render) (key : String) : List Toast :=
  match lookupWallet r key with
  | none => [Toast.error (Message.walletNotFound key)]
  | some _ => []

/-- The toasts `addToWallet` has shown when it reaches its first `await`. -/
def addToWallet.early (r : Render) (key : String) (amount : Int) : List Toast :=
  if key = "" ∨ amount ≤ 0 then []
  else recordTransaction.early r key

/-- The toasts `deductFromWallet` has shown when it reaches its first `await`. -/
def deductFromWallet.early (r : Render) (key : String) (amount : Int) : List Toast :=
  if key = "" ∨ amount ≤ 0 then []
  else
    let current := getWallet r key
    if current < amount then [Toast.error (Message.insufficientBalance key current)]
    else recordTransaction.early r key

/-- `a(...); toast(t)` where the `async` call `a` is not awaited: `a` runs up
to its first `await`, having shown the toasts `early`; the caller shows `t` and
returns; `a` then runs to its end (before the next operation starts) and shows
its remaining toasts.  What `a` throws is never seen by the caller. -/
def Async.detached (a : Async) (early : List Toast) (t : Toast) : Async := fun w =>
  let w1 := (a w).2
  (.ok (), { w1 with
    toasts := w.toasts ++ early ++ [t] ++ w1.toasts.drop (w.toasts.length + early.length) })

/-! ## Booking settlement -/

/-- The booking fields the settlement reads. -/
structure Booking where
  id : Nat
  platform : Option String
  basePay : Int
  markupAmount : Int
  commissionAmount : Int
deriving DecidableEq, Repr

/-- The `platformKey` of a booking that is not direct. -/
def platformKey (booking : Booking) : Option String :=
  if booking.platform = some PLATFORM.ALHIND then some WALLET_KEYS.ALHIND
  else if booking.platform = some PLATFORM.AKBAR then some WALLET_KEYS.AKBAR
  else none

/-- `applyBookingWallet(booking, actor)`. -/
def applyBookingWallet (r : Render) (booking : Option Booking)
    (actor : String := "Confirm Booking") : Async :=
  match booking with
  | none => Async.done
  | some booking =>
    let base := booking.basePay
    let markup := booking.markupAmount
    let officeIncome := base + markup
    if booking.platform = some PLATFORM.DIRECT then
      if officeIncome > 0 then
        addToWallet r WALLET_KEYS.OFFICE officeIncome actor
          { bookingId := some booking.id, action := some "apply_direct",
            description := some "Direct: base + markup → Office" }
      else Async.done
    else
      let meta : Meta := { bookingId := some booking.id, action := some "apply" }
      Async.andThen
        (match platformKey booking with
         | some platformKey =>
           Async.andThen
             (if base > 0 then
                deductFromWallet r platformKey base actor { meta with type := some "base_pay" }
              else Async.done)
             (if booking.commissionAmount > 0 then
                addToWallet r platformKey booking.commissionAmount actor
                  { meta with type := some "commission" }
              else Async.done)
         | none => Async.done)
        (if officeIncome > 0 then
           addToWallet r WALLET_KEYS.OFFICE officeIncome actor
             { meta with description := some "Office profit: base + markup" }
         else Async.done)

/-- `refundBookingWallet(booking, actor)`: refund on un-confirm. -/
def refundBookingWallet (r : Render) (booking : Option Booking)
    (actor : String := "Unconfirm") : Async :=
  match booking with
  | none => Async.done
  | some booking =>
    let base := booking.basePay
    let markup := booking.markupAmount
    let officeRefund := base + markup
    if booking.platform = some PLATFORM.DIRECT then
      if officeRefund > 0 then
        deductFromWallet r WALLET_KEYS.OFFICE officeRefund actor
          { bookingId := some booking.id, action := some "refund_direct",
            description := some "Refund: base + markup → Office" }
      else Async.done
    else
      let meta : Meta := { bookingId := some booking.id, action := some "refund_unconfirm" }
      Async.andThen
        (match platformKey booking with
         | some platformKey =>
           Async.andThen
             (if base > 0 then
                addToWallet r platformKey base actor { meta with type := some "base_refund" }
              else Async.done)
             (if booking.commissionAmount > 0 then
                deductFromWallet r platformKey booking.commissionAmount actor
                  { meta with type := some "commission_refund" }
              else Async.done)
         | none => Async.done)
        (if officeRefund > 0 then
           deductFromWallet r WALLET_KEYS.OFFICE officeRefund actor
             { meta with description := some "Refund: base + markup → Office" }
         else Async.done)

/-- `refundBookingOnDelete(booking, actor)`: full refund on delete. -/
def refundBookingOnDelete (r : Render) (booking : Option Booking)
    (actor : String := "Delete Booking") : Async :=
  match booking with
  | none => Async.done
  | some booking =>
    let base := booking.basePay
    let markup := booking.markupAmount
    let officeRefund := base + markup
    if booking.platform = some PLATFORM.DIRECT then
      if officeRefund > 0 then
        deductFromWallet r WALLET_KEYS.OFFICE officeRefund actor
          { bookingId := some booking.id, action := some "refund_delete_direct",
            description := some "Delete refund: base + markup" }
      else Async.done
    else
      let meta : Meta := { bookingId := some booking.id, action := some "refund_on_delete" }
      Async.andThen
        (match platformKey booking with
         | some platformKey =>
           Async.andThen
             (if base > 0 then
                addToWallet r platformKey base actor { meta with type := some "base_refund" }
              else Async.done)
             (if booking.commissionAmount > 0 then
                deductFromWallet r platformKey booking.commissionAmount actor
                  { meta with type := some "commission_refund" }
              else Async.done)
         | none => Async.done)
        (if officeRefund > 0 then
           deductFromWallet r WALLET_KEYS.OFFICE officeRefund actor
             { meta with description := some "Delete refund: base + markup" }
         else Async.done)

/-! ## Expense settlement -/

/-- The expense fields the settlement reads; `amount` may be missing. -/
structure Expense where
  id : Nat
  amount : Option Int
  description : String
  category : String
deriving DecidableEq, Repr

/-- The amount of an expense that passes
`!expenseData || !expenseData.amount || expenseData.amount <= 0`. -/
def validExpenseAmount (expenseData : Option Expense) : Option Int :=
  match expenseData with
  | none => none
  | some e =>
    match e.amount with
    | none => none
    | some amount => if amount = 0 ∨ amount ≤ 0 then none else some amount

/-- `debitOfficeForExpense(expenseData, user)`.  The call of `deductFromWallet`
is not awaited: what it throws is never seen here, and the success toast is
shown whatever it does, as soon as the call has reached its first `await`. -/
def debitOfficeForExpense (r : Render) (expenseData : Option Expense)
    (user : String := "Expense Logger") : Async := fun w =>
  match validExpenseAmount expenseData, expenseData with
  | some amount, some e =>
    Async.detached
      (deductFromWallet r WALLET_KEYS.OFFICE amount user
        { expenseId := some e.id, description := some e.description,
          category := some e.category, action := some "expense_debit" })
      (deductFromWallet.early r WALLET_KEYS.OFFICE amount)
      (Toast.success (Message.officeDebited amount)) w
  | _, _ => (.error .InvalidExpense, w)

/-- `refundExpenseToOffice(expenseData, user)`.  As in `debitOfficeForExpense`
the call of `addToWallet` is not awaited. -/
def refundExpenseToOffice (r : Render) (expenseData : Option Expense)
    (user : String := "Expense Deleted") : Async := fun w =>
  match validExpenseAmount expenseData, expenseData with
  | some amount, some e =>
    Async.detached
      (addToWallet r WALLET_KEYS.OFFICE amount user
        { expenseId := some e.id, description := some ("Refund: " ++ e.description),
          category := some e.category, action := some "expense_refund_on_delete" })
      (addToWallet.early r WALLET_KEYS.OFFICE amount)
      (Toast.success (Message.officeRefunded amount)) w
  | _, _ =>
    (.ok (), { w with toasts := w.toasts ++ [Toast.error Message.invalidExpenseRefund] })

/-! ## Vocabulary of the statements -/

/-- The three wallet keys of the provider. -/
def walletKeys : List String := [WALLET_KEYS.ALHIND, WALLET_KEYS.AKBAR, WALLET_KEYS.OFFICE]

/-- The amount the `wallets` object of the render holds under `key` as an own
property, zero when it has none. -/
def held (r : Render) (key : String) : Int :=
  (r.wallets.own key).getD 0

/-- The wallet id that `recordTransaction` puts on a posting for `key`, when
`key` resolves through the wallet index of the render. -/
def walletIdOf (r : Render) (key : String) : Option Nat :=
  (lookupWallet r key).map WalletRow.id

/-- The postings written between two worlds: the ledger of the later one
without the rows the earlier one already had. -/
def issued (w w' : World) : List Posting :=
  w'.store.wallet_transactions.drop w.store.wallet_transactions.length

/-- A posting seen as (wallet id, signed amount). -/
def Posting.entry (p : Posting) : Option Nat × Int := (some p.wallet_id, p.amount)

/-- A (wallet key, signed amount) pair seen as (wallet id, signed amount)
through the wallet index of the render. -/
def keyEntry (r : Render) (ka : String × Int) : Option Nat × Int := (walletIdOf r ka.1, ka.2)

/-- The cached balances after the postings `ps` were accepted one by one. -/
def creditAll (ps : List Posting) (rows : List WalletRow) : List WalletRow :=
  ps.foldl (fun rows p => rows.map (Store.creditRow p)) rows

/-- The row of the `wallets` table that a reload binds to `name`: the last one
of that name. -/
def liveRow (rows : List WalletRow) (name : String) : Option WalletRow :=
  rows.reverse.find? (fun w => name == w.name)

/-- Sum of the signed amounts of the postings that reference wallet `id`. -/
def ledgerSum (ledger : List Posting) (id : Nat) : Int :=
  ((ledger.filter (fun p => p.wallet_id = id)).map Posting.amount).sum

/-- Every cached balance of the store equals the sum of the postings that
reference the row's id. -/
def LedgerBalanced (s : Store) : Prop :=
  ∀ row ∈ s.wallets, row.balance = ledgerSum s.wallet_transactions row.id

/-- The provider state is what the last reload left: empty when nobody is
signed in, built from the rows of the store otherwise. -/
def Synced (w : World) : Prop :=
  (w.user = none → w.walletIndex = [] ∧ w.wallets = Wallets.zero) ∧
  (w.user ≠ none →
    w.walletIndex = (loadWallets.build w.store.wallets).1 ∧
    w.wallets = (loadWallets.build w.store.wallets).2)

instance (w : World) : Decidable (Synced w) := by
  unfold Synced
  infer_instance

instance (s : Store) : Decidable (LedgerBalanced s) := by
  unfold LedgerBalanced
  infer_instance

/-- No read of `wallets` still to come fails. -/
def Store.Reads (s : Store) : Prop :=
  ∀ b ∈ s.selectErrors, b = false

instance (s : Store) : Decidable s.Reads := by
  unfold Store.Reads
  infer_instance

/-- The closure values `r` belong to an earlier render of the session whose
state is `w`: same user, an index binding the same wallet ids, and `w` itself
freshly reloaded with no failing read ahead. -/
def Tracks (r : Render) (w : World) : Prop :=
  r.user = w.user ∧
  (∀ name, (r.walletIndex.lookup name).map WalletRow.id
    = (w.walletIndex.lookup name).map WalletRow.id) ∧
  Synced w ∧ w.store.Reads

/-- Between `w` and `w'` the postings of `plan` were written, in that order and
nothing else: the ledger grew by them, each on the wallet id its key resolves
to in `r`, and the cached balances moved accordingly. -/
def Posted (r : Render) (w w' : World) (plan : List (String × Int)) : Prop :=
  ∃ ps : List Posting,
    w'.store.wallet_transactions = w.store.wallet_transactions ++ ps ∧
    w'.store.wallets = creditAll ps w.store.wallets ∧
    ps.map Posting.entry = plan.map (keyEntry r)

/-- Every successful call of `a` writes the postings of `plan`. -/
def Async.Posts (r : Render) (a : Async) (plan : List (String × Int)) : Prop :=
  ∀ w w', a w = (.ok (), w') → Posted r w w' plan

/-- The call `a` keeps `P`, however it ends. -/
def Async.Preserves (P : World → Prop) (a : Async) : Prop :=
  ∀ w, P w → P (a w).2

/-- The (wallet key, signed amount) pairs that `applyBookingWallet` is shown to
post when it succeeds (`applyBookingWallet_posts`). -/
def applyPlan (b : Booking) : List (String × Int) :=
  if b.platform = some PLATFORM.DIRECT then
    (if b.basePay + b.markupAmount > 0 then
      [(WALLET_KEYS.OFFICE, b.basePay + b.markupAmount)] else [])
  else
    (match platformKey b with
     | some pk =>
       (if b.basePay > 0 then [(pk, -b.basePay)] else []) ++
       (if b.commissionAmount > 0 then [(pk, b.commissionAmount)] else [])
     | none => []) ++
    (if b.basePay + b.markupAmount > 0 then
      [(WALLET_KEYS.OFFICE, b.basePay + b.markupAmount)] else [])

/-- The (wallet key, signed amount) pairs that `refundBookingWallet` and
`refundBookingOnDelete` are shown to post when they succeed
(`refundBookingWallet_posts`, `refundBookingOnDelete_posts`). -/
def refundPlan (b : Booking) : List (String × Int) :=
  if b.platform = some PLATFORM.DIRECT then
    (if b.basePay + b.markupAmount > 0 then
      [(WALLET_KEYS.OFFICE, -(b.basePay + b.markupAmount))] else [])
  else
    (match platformKey b with
     | some pk =>
       (if b.basePay > 0 then [(pk, b.basePay)] else []) ++
       (if b.commissionAmount > 0 then [(pk, -b.commissionAmount)] else [])
     | none => []) ++
    (if b.basePay + b.markupAmount > 0 then
      [(WALLET_KEYS.OFFICE, -(b.basePay + b.markupAmount))] else [])

/-- The property `P` of the state survives every call of `recordTransaction`
made from the render `r`, and does not depend on the toasts shown. -/
def Stable (r : Render) (P : World → Prop) : Prop :=
  (∀ key delta meta actor, Async.Preserves P (recordTransaction r key delta meta actor)) ∧
  (∀ w ts, P w → P { w with toasts := ts })

/-- The toast "Wallet not found for key: `key`", which only a post that throws
`WalletNotFound` shows. -/
def notFoundToast (key : String) : Toast := Toast.error (Message.walletNotFound key)

/-- A `WalletNotFound` raised by a post inside the call `a` (seen as its toast,
new in the log) is the outcome of `a`. -/
def Async.SurfacesNotFound (a : Async) : Prop :=
  ∀ w key, notFoundToast key ∉ w.toasts → notFoundToast key ∈ (a w).2.toasts →
    (a w).1 = .error (.WalletNotFound key)

/-- The ledger of the state extends the ledger `ledger`: every row of `ledger`
is still there, unchanged and in place, followed by newer rows only. -/
def Extends (ledger : List Posting) (w : World) : Prop :=
  ∃ ps, w.store.wallet_transactions = ledger ++ ps

/-- The next insert request will be accepted by the store. -/
def Store.Accepting (s : Store) : Prop :=
  s.insertErrors.head?.join = none

instance (s : Store) : Decidable s.Accepting := by
  unfold Store.Accepting
  infer_instance

/-- The next read of `wallets` will fail. -/
def Store.ReadFailing (s : Store) : Prop :=
  s.selectErrors.head? = some true

instance (s : Store) : Decidable s.ReadFailing := by
  unfold Store.ReadFailing
  infer_instance

/-- The next read of `wallets` will succeed. -/
def Store.Readable (s : Store) : Prop :=
  s.selectErrors.head? ≠ some true

instance (s : Store) : Decidable s.Readable := by
  unfold Store.Readable
  infer_instance

/-- The balance that the rows `data` of a load hold for `key`: the balance of
the last row whose name is the wallet name of the key, zero when the key has no
wallet name or the load has no row of that name. -/
def loadedBalance (data : List WalletRow) (key : String) : Int :=
  match WALLET_NAME_MAP key with
  | none => 0
  | some name =>
    match liveRow data name with
    | some row => row.balance
    | none => 0

/-- Two stores that differ at most in the descriptive fields of their
postings: same wallet rows, same (wallet id, signed amount) ledger, same
answers to come. -/
def Store.Similar (s t : Store) : Prop :=
  s.wallets = t.wallets ∧
  s.wallet_transactions.map Posting.entry = t.wallet_transactions.map Posting.entry ∧
  s.insertErrors = t.insertErrors ∧ s.selectErrors = t.selectErrors

/-- Two states that differ at most in the descriptive fields of the postings
of their ledgers. -/
def World.Similar (w v : World) : Prop :=
  w.store.Similar v.store ∧ w.user = v.user ∧ w.wallets = v.wallets ∧
  w.walletIndex = v.walletIndex ∧ w.loading = v.loading ∧ w.toasts = v.toasts

/-- The calls `a` and `b` end alike from similar states: same outcome, and
states that are similar again. -/
def Async.Alike (a b : Async) : Prop :=
  ∀ w v, w.Similar v → (a w).1 = (b v).1 ∧ (a w).2.Similar (b v).2

/-- A call of `a` that throws has written the postings of a proper initial
part of `plan`, in order, and nothing else. -/
def Async.StopsIn (r : Render) (a : Async) (plan : List (String × Int)) : Prop :=
  ∀ w w' e, a w = (.error e, w') → ∃ k, k < plan.length ∧ Posted r w w' (plan.take k)

/-- The sum of the signed amounts that `plan` posts on `key`. -/
def planSum (plan : List (String × Int)) (key : String) : Int :=
  ((plan.filter (fun ka => ka.1 = key)).map Prod.snd).sum

/-- The `created_by` that `recordTransaction` puts on a posting:
`user?.id || null`. -/
def creator (r : Render) : Option String :=
  orElse (r.user.map User.id) none

/-- The `description` that `recordTransaction` puts on a posting:
`meta.description || meta.action || "Wallet transaction"`. -/
def describe (meta : Meta) : String :=
  (orElse (orElse meta.description meta.action) (some "Wallet transaction")).getD ""

/-- The posting is a `payload` of `recordTransaction` called from `r` with the
amount `delta` and the meta `meta`. -/
def Payload (r : Render) (delta : Int) (meta : Meta) (p : Posting) : Prop :=
  p.amount = delta ∧ p.booking_id = orNull meta.bookingId ∧
  p.description = describe meta ∧ p.created_by = creator r

/-- However the call `a` ends, what it has added to the ledger are postings
that satisfy `Q`, after the rows that were there. -/
def Async.WritesOnly (Q : Posting → Prop) (a : Async) : Prop :=
  ∀ w, ∃ ps, (a w).2.store.wallet_transactions = w.store.wallet_transactions ++ ps ∧
    ∀ p ∈ ps, Q p

/-- A posting of a booking settlement: signed in by the user of the render,
correlated to the booking, and described by the action text `tag` on the
platform steps (amounts `baseAmount`, `commissionAmount`) and by `office` or
`direct` on the office step (amount `officeAmount`). -/
def SettlementRecord (r : Render) (b : Booking) (tag office direct : String)
    (baseAmount commissionAmount officeAmount : Int) (p : Posting) : Prop :=
  p.created_by = creator r ∧ p.booking_id = orNull (some b.id) ∧
  ((p.amount = baseAmount ∧ p.description = tag) ∨
   (p.amount = commissionAmount ∧ p.description = tag) ∨
   (p.amount = officeAmount ∧ (p.description = office ∨ p.description = direct)))

/-- The ledger of the state is `ledger` followed by postings that all carry
`by` as their `created_by`. -/
def SignedSince (by_ : Option String) (ledger : List Posting) (w : World) : Prop :=
  ∃ ps, w.store.wallet_transactions = ledger ++ ps ∧ ∀ p ∈ ps, p.created_by = by_

/-- A call of `a` from a state satisfying `P` leaves, however it ends, a state
satisfying `Q`. -/
def Async.Triple (P : World → Prop) (a : Async) (Q : World → Prop) : Prop :=
  ∀ w, P w → Q (a w).2

/-- Every amount the snapshot holds is non-negative. -/
def NonNegative (w : World) : Prop :=
  ∀ key, 0 ≤ held w.render key

/-- The state of a settlement in progress from the render `r`, as far as
overdraft goes: `r` tracks the state, wallet ids are unique, every balance is
non-negative, and for the keys in `K` (those not debited yet) the balance `r`
captured is still a lower bound of the current one. -/
def Safe (r : Render) (K : String → Prop) (w : World) : Prop :=
  Tracks r w ∧ (w.store.wallets.map WalletRow.id).Nodup ∧ NonNegative w ∧
  ∀ key, K key → held r key ≤ held w.render key

/-- The ledger, the cached balances and the balance snapshot of `w'` are those
of `w`. -/
def Untouched (w w' : World) : Prop :=
  w'.store.wallet_transactions = w.store.wallet_transactions ∧
  w'.store.wallets = w.store.wallets ∧
  w'.wallets = w.wallets ∧ w'.walletIndex = w.walletIndex

/-- The validation errors among the errors thrown: `InsufficientBalance` and
`InvalidExpense` (no function of the provider throws for an invalid amount). -/
def WalletError.isValidation : WalletError → Bool
  | .InsufficientBalance _ _ => true
  | .InvalidExpense => true
  | _ => false

/-! ## Sessions

One call of an exported function after another, each made from the render
that follows the state the previous call left. -/

/-- A call of one of the mutating functions of the provider's context value. -/
inductive Op where
  | addToWallet (key : String) (amount : Int) (actor : String) (meta : Meta)
  | deductFromWallet (key : String) (amount : Int) (actor : String) (meta : Meta)
  | applyBookingWallet (booking : Option Booking) (actor : String)
  | refundBookingWallet (booking : Option Booking) (actor : String)
  | refundBookingOnDelete (booking : Option Booking) (actor : String)
  | debitOfficeForExpense (expenseData : Option Expense) (user : String)
  | refundExpenseToOffice (expenseData : Option Expense) (user : String)
deriving DecidableEq, Repr

/-- The call made from the current render. -/
def Op.run (op : Op) (w : World) : Except WalletError Unit × World :=
  match op with
  | .addToWallet key amount actor meta => BookingTrack.addToWallet w.render key amount actor meta w
  | .deductFromWallet key amount actor meta =>
    BookingTrack.deductFromWallet w.render key amount actor meta w
  | .applyBookingWallet booking actor => BookingTrack.applyBookingWallet w.render booking actor w
  | .refundBookingWallet booking actor => BookingTrack.refundBookingWallet w.render booking actor w
  | .refundBookingOnDelete booking actor =>
    BookingTrack.refundBookingOnDelete w.render booking actor w
  | .debitOfficeForExpense expenseData user =>
    BookingTrack.debitOfficeForExpense w.render expenseData user w
  | .refundExpenseToOffice expenseData user =>
    BookingTrack.refundExpenseToOffice w.render expenseData user w

/-- The call made from the closures of the render `r`. -/
def Op.call (r : Render) (op : Op) : Async :=
  match op with
  | .addToWallet key amount actor meta => BookingTrack.addToWallet r key amount actor meta
  | .deductFromWallet key amount actor meta =>
    BookingTrack.deductFromWallet r key amount actor meta
  | .applyBookingWallet booking actor => BookingTrack.applyBookingWallet r booking actor
  | .refundBookingWallet booking actor => BookingTrack.refundBookingWallet r booking actor
  | .refundBookingOnDelete booking actor => BookingTrack.refundBookingOnDelete r booking actor
  | .debitOfficeForExpense expenseData user =>
    BookingTrack.debitOfficeForExpense r expenseData user
  | .refundExpenseToOffice expenseData user =>
    BookingTrack.refundExpenseToOffice r expenseData user

/-- The state after a sequence of calls that all succeed; `none` as soon as one
of them throws. -/
def runAll : List Op → World → Option World
  | [], w => some w
  | op :: ops, w =>
    match op.run w with
    | (.ok (), w1) => runAll ops w1
    | (.error _, _) => none

/-- The state after a sequence of calls, each made from the render that
follows the previous call, whether it succeeded or threw. -/
def runEach (ops : List Op) (w : World) : World :=
  ops.foldl (fun w op => (op.run w).2) w

/-! ## Sample states -/

/-- Three provisioned wallets: platform A holds 5000, platform B 300, the office 30. -/
def Sample.rows : List WalletRow :=
  [{ id := 1, name := "AlHind", balance := 5000 },
   { id := 2, name := "Akbar", balance := 300 },
   { id := 3, name := "Office-Funds", balance := 30 }]

/-- The postings that funded the three wallets. -/
def Sample.opening : List Posting :=
  [{ wallet_id := 1, booking_id := none, amount := 5000, description := "Wallet transaction",
     created_by := some "u1" },
   { wallet_id := 2, booking_id := none, amount := 300, description := "Wallet transaction",
     created_by := some "u1" },
   { wallet_id := 3, booking_id := none, amount := 30, description := "Wallet transaction",
     created_by := some "u1" }]

/-- A signed-in session just after a reload. -/
def Sample.world : World :=
  { store := { wallets := Sample.rows, wallet_transactions := Sample.opening,
               insertErrors := [], selectErrors := [] }
    user := some { id := "u1" }
    wallets := (loadWallets.build Sample.rows).2
    walletIndex := (loadWallets.build Sample.rows).1
    loading := false
    toasts := [] }

/-- A provider whose wallets have not been loaded yet. -/
def Sample.unloaded : World :=
  { Sample.world with wallets := Wallets.zero, walletIndex := [], loading := true }

/-- A session whose office wallet is overdrawn by 10. -/
def Sample.overdrawn : World :=
  { Sample.world with
    store := { Sample.world.store with
      wallets := [{ id := 3, name := "Office-Funds", balance := -10 }] }
    wallets := { alhind := 0, akbar := 0, office := -10 }
    walletIndex := [("Office-Funds", { id := 3, name := "Office-Funds", balance := -10 })] }

/-- Scenario A: platform A, base pay 1000, markup 200, commission 150. -/
def Sample.scenarioA : Booking :=
  { id := 7, platform := some "Alhind", basePay := 1000, markupAmount := 200,
    commissionAmount := 150 }

/-- Scenario B: direct, base pay 500, markup 100, no commission. -/
def Sample.scenarioB : Booking :=
  { id := 8, platform := some "Direct", basePay := 500, markupAmount := 100,
    commissionAmount := 0 }

/-- The sample session after Scenario A was applied. -/
def Sample.afterA : World :=
  (applyBookingWallet Sample.world.render (some Sample.scenarioA) "Confirm Booking"
    Sample.world).2

/-- The sample session after Scenario A was applied and then un-confirmed. -/
def Sample.restoredA : World :=
  (refundBookingWallet Sample.afterA.render (some Sample.scenarioA) "Unconfirm"
    Sample.afterA).2

/-- A short session: Scenario A applied, an expense of 200 logged, Scenario B
applied, Scenario A un-confirmed. -/
def Sample.session : List Op :=
  [.applyBookingWallet (some Sample.scenarioA) "Confirm Booking",
   .debitOfficeForExpense
     (some { id := 4, amount := some 200, description := "Paper", category := "Office" })
     "Expense Logger",
   .applyBookingWallet (some Sample.scenarioB) "Confirm Booking",
   .refundBookingWallet (some Sample.scenarioA) "Unconfirm"]

/-- A platform-B booking whose base pay (1000) exceeds the platform balance (300). -/
def Sample.bigBase : Booking :=
  { id := 5, platform := some "Akbar", basePay := 1000, markupAmount := 200,
    commissionAmount := 150 }

/-- The sample session after the apply of `Sample.bigBase` was refused. -/
def Sample.refused : World :=
  { Sample.world with toasts := [Toast.error (Message.insufficientBalance "akbar" 300)] }

/-- An expense of 20 for paper. -/
def Sample.paper : Expense :=
  { id := 4, amount := some 20, description := "Paper", category := "Office" }

/-- An expense descriptor without an amount. -/
def Sample.blank : Expense :=
  { id := 6, amount := none, description := "Blank", category := "Office" }

/-- A loaded session in which the office wallet was never provisioned. -/
def Sample.noOffice : World :=
  { Sample.world with
    store := { Sample.world.store with
      wallets := Sample.rows.take 2, wallet_transactions := Sample.opening.take 2 }
    wallets := (loadWallets.build (Sample.rows.take 2)).2
    walletIndex := (loadWallets.build (Sample.rows.take 2)).1 }

/-- The sample session facing a store that accepts one insert and answers the
next with the error "down". -/
def Sample.flaky : World :=
  { Sample.world with
    store := { Sample.world.store with insertErrors := [none, some "down"] } }

/-- A loaded session in which platform A holds 100 and the office 5000. -/
def Sample.lowPlatform : World :=
  { Sample.world with
    store := { Sample.world.store with
      wallets :=
        [{ id := 1, name := "AlHind", balance := 100 },
         { id := 2, name := "Akbar", balance := 300 },
         { id := 3, name := "Office-Funds", balance := 5000 }] }
    wallets := { alhind := 100, akbar := 300, office := 5000 }
    walletIndex :=
      [("Office-Funds", { id := 3, name := "Office-Funds", balance := 5000 }),
       ("Akbar", { id := 2, name := "Akbar", balance := 300 }),
       ("AlHind", { id := 1, name := "AlHind", balance := 100 })] }

/-- A confirmed platform-A booking: base pay 1000, no markup, commission 500. -/
def Sample.confirmed : Booking :=
  { id := 11, platform := some "Alhind", basePay := 1000, markupAmount := 0,
    commissionAmount := 500 }

/-- An expense of 50 for a chair. -/
def Sample.chair : Expense :=
  { id := 12, amount := some 50, description := "Chair", category := "Office" }

/-- A booking whose platform is missing: base pay 400, markup 100. -/
def Sample.walkIn : Booking :=
  { id := 13, platform := none, basePay := 400, markupAmount := 100, commissionAmount := 70 }

/-- The sample session after `Sample.walkIn` was applied. -/
def Sample.afterWalkIn : World :=
  (applyBookingWallet Sample.world.render (some Sample.walkIn) "Confirm Booking"
    Sample.world).2

/-- The sample session after Scenario A was applied twice. -/
def Sample.afterAA : World :=
  (applyBookingWallet Sample.afterA.render (some Sample.scenarioA) "Confirm Booking"
    Sample.afterA).2

/-- The sample session after the paper expense of 20 was logged. -/
def Sample.afterPaper : World :=
  (debitOfficeForExpense Sample.world.render (some Sample.paper) "Expense Logger"
    Sample.world).2

/-- The sample session after the paper expense was logged and then deleted. -/
def Sample.paperDeleted : World :=
  (refundExpenseToOffice Sample.afterPaper.render (some Sample.paper) "Expense Deleted"
    Sample.afterPaper).2

/-- The paper expense under another id. -/
def Sample.paperAgain : Expense :=
  { Sample.paper with id := 99 }

/-- The sample session after `Sample.session`. -/
def Sample.afterSession : World :=
  (runAll Sample.session Sample.world).getD Sample.world

/-- A platform-A booking whose commission (6000) exceeds the platform balance. -/
def Sample.bigCommission : Booking :=
  { id := 9, platform := some "Alhind", basePay := 100, markupAmount := 0,
    commissionAmount := 6000 }

/-- The sample session facing a store that answers the reads of `wallets` by
the script `reads` (`true`: the read fails). -/
def Sample.reading (reads : List Bool) : World :=
  { Sample.world with store := { Sample.world.store with selectErrors := reads } }

/-- A session whose snapshot is stale: the sample session after a credit of 5
on the office whose reload failed.  The office is shown at 30 while the store
holds 35, and no further read fails. -/
def Sample.stale : World :=
  runEach [.addToWallet "office" 5 "System" {}] (Sample.reading [true])

/-- The sample session facing a store whose sixth read of `wallets` fails. -/
def Sample.lateFailure : World :=
  Sample.reading [false, false, false, false, false, true]

/-- `Sample.lateFailure` after Scenario A was applied. -/
def Sample.lateApplied : World :=
  (applyBookingWallet Sample.lateFailure.render (some Sample.scenarioA) "Confirm Booking"
    Sample.lateFailure).2

/-- The session with the overdrawn office after Scenario B was applied. -/
def Sample.overdrawnB : World :=
  (applyBookingWallet Sample.overdrawn.render (some Sample.scenarioB) "Confirm Booking"
    Sample.overdrawn).2

/-- A loaded session whose platform-B row has no id and holds 40. -/
def Sample.noId : World :=
  { Sample.world with
    store := { Sample.world.store with
      wallets := [{ id := 0, name := "Akbar", balance := 40 }], wallet_transactions := [] }
    wallets := { alhind := 0, akbar := 40, office := 0 }
    walletIndex := [("Akbar", { id := 0, name := "Akbar", balance := 40 })] }

/-- A session with refused calls in it: an apply beyond the platform-B
balance, a debit beyond the office balance, Scenario A applied, an expense
beyond the office balance, Scenario A un-confirmed, the reversal of a booking
whose commission exceeds the platform balance, and a debit of all of platform
B. -/
def Sample.rough : List Op :=
  [.applyBookingWallet (some Sample.bigBase) "Confirm Booking",
   .deductFromWallet "office" 50 "System" {},
   .applyBookingWallet (some Sample.scenarioA) "Confirm Booking",
   .debitOfficeForExpense
     (some { id := 14, amount := some 5000, description := "Car", category := "Office" })
     "Expense Logger",
   .refundBookingWallet (some Sample.scenarioA) "Unconfirm",
   .refundBookingWallet (some Sample.bigCommission) "Unconfirm",
   .deductFromWallet "akbar" 300 "System" {}]

/-! ## Numbers -/

theorem Num.finite_lt {a b : Int} : Num.finite a < Num.finite b ↔ a < b := Iff.rfl

theorem Num.finite_le {a b : Int} : Num.finite a ≤ Num.finite b ↔ a ≤ b := Iff.rfl

theorem Num.finite_add (a b : Int) : Num.finite a + Num.finite b = Num.finite (a + b) := rfl

theorem Num.not_lt_NaN (a : Num) : ¬ a < Num.NaN := by
  cases a <;> exact fun h => h

theorem Num.not_NaN_lt (a : Num) : ¬ Num.NaN < a := fun h => h

theorem Num.not_le_NaN (a : Num) : ¬ a ≤ Num.NaN := by
  cases a <;> exact fun h => h

theorem Num.not_NaN_le (a : Num) : ¬ Num.NaN ≤ a := fun h => h

/-- A number below an amount is an amount. -/
theorem Num.of_lt_finite {a : Num} {b : Int} (h : a < Num.finite b) :
    ∃ n, a = Num.finite n ∧ n < b := by
  cases a with
  | finite n => exact ⟨n, rfl, h⟩
  | NaN => exact absurd h (Num.not_NaN_lt _)

/-- A number that is at least an amount is an amount. -/
theorem Num.of_finite_le {a : Int} {b : Num} (h : Num.finite a ≤ b) :
    ∃ n, b = Num.finite n ∧ a ≤ n := by
  cases b with
  | finite n => exact ⟨n, rfl, h⟩
  | NaN => exact absurd h (Num.not_le_NaN _)

theorem Num.not_lt_of_le {a b : Num} (h : a ≤ b) : ¬ b < a := by
  cases a with
  | NaN => exact absurd h (Num.not_NaN_le _)
  | finite x =>
    cases b with
    | NaN => exact absurd h (Num.not_le_NaN _)
    | finite y =>
      intro hlt
      have h1 : x ≤ y := h
      have h2 : y < x := hlt
      omega

/-! ## The store -/

theorem Store.insert_accepted {s s' : Store} {p : Posting} (h : s.insert p = (none, s')) :
    s'.wallet_transactions = s.wallet_transactions ++ [p] ∧
    s'.wallets = s.wallets.map (Store.creditRow p) ∧
    s'.selectErrors = s.selectErrors := by
  unfold Store.insert at h
  split at h <;> simp at h <;> subst h <;> simp [Store.append]

theorem Store.insert_refused {s s' : Store} {p : Posting} {msg : String}
    (h : s.insert p = (some msg, s')) :
    s'.wallet_transactions = s.wallet_transactions ∧ s'.wallets = s.wallets ∧
    s'.selectErrors = s.selectErrors := by
  unfold Store.insert at h
  split at h <;> simp at h
  obtain ⟨-, h⟩ := h
  subst h
  simp

theorem Store.selectWallets_tables (s : Store) :
    s.selectWallets.2.wallets = s.wallets ∧
    s.selectWallets.2.wallet_transactions = s.wallet_transactions := by
  unfold Store.selectWallets
  split <;> simp

theorem Store.selectWallets_ready {s : Store} (h : s.Reads) :
    s.selectWallets.1 = some s.wallets ∧ s.selectWallets.2.wallets = s.wallets ∧
    s.selectWallets.2.Reads := by
  unfold Store.Reads at h
  unfold Store.selectWallets Store.Reads
  cases hs : s.selectErrors with
  | nil => simp [hs]
  | cons b rest =>
    rw [hs] at h
    have hb : b = false := h b (List.mem_cons_self b rest)
    subst hb
    simp only [true_and]
    intro c hc
    exact h c (List.mem_cons_of_mem _ hc)

/-! ## Reload -/

theorem loadWallets_tables (r : Render) (w : World) :
    (loadWallets r w).store.wallets = w.store.wallets ∧
    (loadWallets r w).store.wallet_transactions = w.store.wallet_transactions := by
  have h := Store.selectWallets_tables w.store
  unfold loadWallets
  split
  · simp
  · split
    · rename_i s hs
      rw [hs] at h
      simpa using h
    · rename_i data s hs
      rw [hs] at h
      simpa using h

theorem loadWallets_user (r : Render) (w : World) : (loadWallets r w).user = w.user := by
  unfold loadWallets
  split
  · rfl
  · split <;> rfl

theorem loadWallets.row_index (acc : WalletIndex × Wallets) (w : WalletRow) :
    (loadWallets.row acc w).1 = (w.name, w) :: acc.1 := by
  unfold loadWallets.row
  split <;> rfl

theorem loadWallets.foldl_index (rows : List WalletRow) (acc : WalletIndex × Wallets) :
    (rows.foldl loadWallets.row acc).1 = rows.reverse.map (fun w => (w.name, w)) ++ acc.1 := by
  induction rows generalizing acc with
  | nil => simp
  | cons w rest ih => simp [ih, loadWallets.row_index]

theorem lookup_named (l : List WalletRow) (name : String) :
    (l.map (fun w => (w.name, w))).lookup name = l.find? (fun w => name == w.name) := by
  induction l with
  | nil => rfl
  | cons w rest ih =>
    simp only [List.map_cons, List.lookup_cons, List.find?_cons, ih]

/-- The index a reload builds binds every name to the live row of that name. -/
theorem loadWallets.build_index (rows : List WalletRow) (name : String) :
    (loadWallets.build rows).1.lookup name = liveRow rows name := by
  unfold loadWallets.build liveRow
  rw [loadWallets.foldl_index, List.append_nil, lookup_named]

theorem loadWallets.row_alhind (acc : WalletIndex × Wallets) (w : WalletRow) :
    (loadWallets.row acc w).2.alhind
      = if ("AlHind" == w.name) = true then w.balance else acc.2.alhind := by
  unfold loadWallets.row NAME_TO_KEY
  simp only [WALLET_KEYS.ALHIND, WALLET_KEYS.AKBAR, WALLET_KEYS.OFFICE, beq_iff_eq]
  by_cases h1 : w.name = "AlHind"
  · simp [h1]
  · by_cases h2 : w.name = "Akbar"
    · simp [h2]
    · by_cases h3 : w.name = "Office-Funds"
      · simp [h3]
      · simp [h1, h2, h3, Ne.symm h1]

theorem loadWallets.row_akbar (acc : WalletIndex × Wallets) (w : WalletRow) :
    (loadWallets.row acc w).2.akbar
      = if ("Akbar" == w.name) = true then w.balance else acc.2.akbar := by
  unfold loadWallets.row NAME_TO_KEY
  simp only [WALLET_KEYS.ALHIND, WALLET_KEYS.AKBAR, WALLET_KEYS.OFFICE, beq_iff_eq]
  by_cases h1 : w.name = "AlHind"
  · simp [h1]
  · by_cases h2 : w.name = "Akbar"
    · simp [h2]
    · by_cases h3 : w.name = "Office-Funds"
      · simp [h3]
      · simp [h1, h2, h3, Ne.symm h2]

theorem loadWallets.row_office (acc : WalletIndex × Wallets) (w : WalletRow) :
    (loadWallets.row acc w).2.office
      = if ("Office-Funds" == w.name) = true then w.balance else acc.2.office := by
  unfold loadWallets.row NAME_TO_KEY
  simp only [WALLET_KEYS.ALHIND, WALLET_KEYS.AKBAR, WALLET_KEYS.OFFICE, beq_iff_eq]
  by_cases h1 : w.name = "AlHind"
  · simp [h1]
  · by_cases h2 : w.name = "Akbar"
    · simp [h2]
    · by_cases h3 : w.name = "Office-Funds"
      · simp [h3]
      · simp [h1, h2, h3, Ne.symm h3]

/-- A field of `next` that every row of name `name` overwrites with its
balance ends as the balance of the last such row. -/
theorem loadWallets.foldl_field (f : Wallets → Int) (name : String)
    (hstep : ∀ acc w, f (loadWallets.row acc w).2
      = if (name == w.name) = true then w.balance else f acc.2)
    (rows : List WalletRow) (acc : WalletIndex × Wallets) :
    f (rows.foldl loadWallets.row acc).2
      = ((liveRow rows name).map WalletRow.balance).getD (f acc.2) := by
  induction rows generalizing acc with
  | nil => simp [liveRow]
  | cons w rest ih =>
    rw [List.foldl_cons, ih]
    unfold liveRow
    rw [List.reverse_cons, List.find?_append]
    cases hfind : List.find? (fun w => name == w.name) rest.reverse with
    | some found => simp
    | none =>
      simp only [Option.none_or, List.find?_cons, List.find?_nil, Option.map_none',
        Option.getD_none, hstep]
      by_cases hw : (name == w.name) = true
      · simp [hw]
      · simp [hw]

/-- The balance a reload shows for a key is the cached balance of the live row
of the wallet name mapped to the key, and zero when there is no such row. -/
theorem loadWallets.build_own (rows : List WalletRow) (key name : String)
    (h : WALLET_NAME_MAP key = some name) :
    (loadWallets.build rows).2.own key
      = some (((liveRow rows name).map WalletRow.balance).getD 0) := by
  unfold WALLET_NAME_MAP at h
  simp only [WALLET_KEYS.ALHIND, WALLET_KEYS.AKBAR, WALLET_KEYS.OFFICE] at h
  unfold loadWallets.build Wallets.own
  split at h
  · rename_i hk
    simp only [Option.some.injEq] at h
    subst h
    simp only [hk, if_true]
    rw [loadWallets.foldl_field (fun ws => ws.alhind) "AlHind" loadWallets.row_alhind]
    rfl
  · split at h
    · rename_i hk1 hk
      simp only [Option.some.injEq] at h
      subst h
      simp only [hk, if_true]
      rw [loadWallets.foldl_field (fun ws => ws.akbar) "Akbar" loadWallets.row_akbar]
      simp [Wallets.zero]
    · split at h
      · rename_i hk1 hk2 hk
        simp only [Option.some.injEq] at h
        subst h
        simp only [hk, if_true]
        rw [loadWallets.foldl_field (fun ws => ws.office) "Office-Funds" loadWallets.row_office]
        simp [Wallets.zero]
      · simp at h

theorem loadWallets_ready (r : Render) (w : World) (hu : r.user = w.user)
    (hs : w.store.Reads) :
    Synced (loadWallets r w) ∧ (loadWallets r w).store.wallets = w.store.wallets ∧
    (loadWallets r w).store.Reads ∧ (loadWallets r w).toasts = w.toasts := by
  obtain ⟨h1, h2, h3⟩ := Store.selectWallets_ready hs
  unfold loadWallets
  cases hr : r.user with
  | none =>
    rw [hr] at hu
    simp only [Synced, ← hu, true_implies, ne_eq, not_true_eq_false, false_implies, and_true,
      and_self, true_and]
    exact hs
  | some u =>
    rw [hr] at hu
    revert h1 h2 h3
    generalize w.store.selectWallets = x
    obtain ⟨data, s'⟩ := x
    intro h1 h2 h3
    simp only [] at h1 h2 h3
    subst h1
    simp only [Synced, ← hu, h2, and_self, true_and, reduceCtorEq, false_implies, ne_eq,
      not_false_eq_true, true_implies, and_true]
    exact h3

theorem loadWallets_loaded {r : Render} {w : World} (huser : r.user ≠ none)
    (hread : w.store.Readable) :
    (loadWallets r w).wallets = (loadWallets.build w.store.wallets).2 ∧
    (loadWallets r w).walletIndex = (loadWallets.build w.store.wallets).1 := by
  cases hu : r.user with
  | none => exact absurd hu huser
  | some u =>
    unfold Store.Readable at hread
    unfold loadWallets Store.selectWallets
    cases hs : w.store.selectErrors with
    | nil => simp [hu]
    | cons b rest =>
      cases b with
      | true => simp [hs] at hread
      | false => simp [hu]

theorem Store.creditRow_name (p : Posting) (row : WalletRow) :
    (Store.creditRow p row).name = row.name := by
  unfold Store.creditRow
  split <;> rfl

theorem Store.creditRow_id (p : Posting) (row : WalletRow) :
    (Store.creditRow p row).id = row.id := by
  unfold Store.creditRow
  split <;> rfl

theorem Store.creditRow_balance (p : Posting) (row : WalletRow) :
    (Store.creditRow p row).balance
      = row.balance + (if row.id = p.wallet_id then p.amount else 0) := by
  unfold Store.creditRow
  split <;> simp

theorem liveRow_credit (p : Posting) (rows : List WalletRow) (name : String) :
    liveRow (rows.map (Store.creditRow p)) name = (liveRow rows name).map (Store.creditRow p) := by
  unfold liveRow
  rw [← List.map_reverse, List.find?_map]
  have hcomp : ((fun w : WalletRow => name == w.name) ∘ Store.creditRow p)
      = fun w : WalletRow => name == w.name := by
    funext w
    simp [Store.creditRow_name]
  rw [hcomp]

/-! ## Transaction recorder -/

/-- The four ways a call of `recordTransaction` can go. -/
theorem recordTransaction_cases (r : Render) (key : String) (delta : Int) (meta : Meta)
    (actor : String) (w : World) :
    (lookupWallet r key = none ∧
      recordTransaction r key delta meta actor w
        = (.error (.WalletNotFound key),
            { w with toasts := w.toasts ++ [Toast.error (Message.walletNotFound key)] })) ∨
    (lookupWallet r key ≠ none ∧ delta = 0 ∧
      recordTransaction r key delta meta actor w = (.ok (), w)) ∨
    (∃ p msg s, lookupWallet r key ≠ none ∧ delta ≠ 0 ∧ w.store.insert p = (some msg, s) ∧
      recordTransaction r key delta meta actor w
        = (.error (.StoreWriteError (if msg = "" then "Failed to record transaction" else msg)),
            { w with store := s })) ∨
    (∃ p s, walletIdOf r key = some p.wallet_id ∧ delta ≠ 0 ∧ p.amount = delta ∧
      w.store.insert p = (none, s) ∧
      recordTransaction r key delta meta actor w
        = (.ok (), loadWallets r { w with store := s })) := by
  unfold recordTransaction walletIdOf
  cases hl : lookupWallet r key with
  | none => simp
  | some wallet =>
    by_cases hd : delta = 0
    · simp [hd]
    · simp only [hd, if_false]
      split
      · rename_i msg s hins
        right; right; left
        exact ⟨_, msg, s, by simp, hd, hins, rfl⟩
      · rename_i s hins
        right; right; right
        exact ⟨_, s, by simp, hd, rfl, hins, rfl⟩

/-! ## Sequencing -/

theorem Async.andThen_ok {a b : Async} {w w' : World}
    (h : Async.andThen a b w = (.ok (), w')) :
    ∃ w1, a w = (.ok (), w1) ∧ b w1 = (.ok (), w') := by
  unfold Async.andThen at h
  split at h
  · rename_i w1 ha
    exact ⟨w1, ha, h⟩
  · simp at h

theorem Async.andThen_error {a b : Async} {w w' : World} {e : WalletError}
    (h : Async.andThen a b w = (.error e, w')) :
    a w = (.error e, w') ∨ ∃ w1, a w = (.ok (), w1) ∧ b w1 = (.error e, w') := by
  unfold Async.andThen at h
  split at h
  · rename_i w1 ha
    exact Or.inr ⟨w1, ha, h⟩
  · rename_i e1 w1 ha
    simp only [Prod.mk.injEq, Except.error.injEq] at h
    obtain ⟨he, hw⟩ := h
    subst he hw
    exact Or.inl ha

theorem Async.preserves_andThen {P : World → Prop} {a b : Async}
    (ha : Async.Preserves P a) (hb : Async.Preserves P b) :
    Async.Preserves P (Async.andThen a b) := by
  intro w hw
  have h1 := ha w hw
  unfold Async.andThen
  split
  · rename_i w1 hr
    rw [hr] at h1
    exact hb w1 h1
  · rename_i e w1 hr
    rw [hr] at h1
    exact h1

theorem Async.preserves_done {P : World → Prop} : Async.Preserves P Async.done :=
  fun _ hw => hw

theorem Async.preserves_ite {P : World → Prop} {a b : Async} (c : Prop) [Decidable c]
    (ha : Async.Preserves P a) (hb : Async.Preserves P b) :
    Async.Preserves P (if c then a else b) := by
  split
  · exact ha
  · exact hb

theorem creditAll_append (ps qs : List Posting) (rows : List WalletRow) :
    creditAll (ps ++ qs) rows = creditAll qs (creditAll ps rows) := by
  simp [creditAll, List.foldl_append]

theorem posted_refl (r : Render) (w : World) : Posted r w w [] :=
  ⟨[], by simp, by simp [creditAll], by simp⟩

theorem posted_trans {r : Render} {w w1 w2 : World} {p q : List (String × Int)}
    (h1 : Posted r w w1 p) (h2 : Posted r w1 w2 q) : Posted r w w2 (p ++ q) := by
  obtain ⟨ps, hl1, hr1, he1⟩ := h1
  obtain ⟨qs, hl2, hr2, he2⟩ := h2
  refine ⟨ps ++ qs, ?_, ?_, ?_⟩
  · rw [hl2, hl1, List.append_assoc]
  · rw [hr2, hr1, creditAll_append]
  · simp [he1, he2]

theorem posted_issued {r : Render} {w w' : World} {plan : List (String × Int)}
    (h : Posted r w w' plan) : (issued w w').map Posting.entry = plan.map (keyEntry r) := by
  obtain ⟨ps, hl, -, he⟩ := h
  unfold BookingTrack.issued
  rw [hl, List.drop_left, he]

theorem Async.posts_done (r : Render) : Async.Posts r Async.done [] := by
  intro w w' h
  simp only [Async.done, Prod.mk.injEq, true_and] at h
  subst h
  exact posted_refl r w

theorem Async.posts_toast (r : Render) (t : Toast) : Async.Posts r (Async.toast t) [] := by
  intro w w' h
  simp only [Async.toast, Prod.mk.injEq, true_and] at h
  subst h
  exact ⟨[], by simp, by simp [creditAll], by simp⟩

theorem Async.posts_andThen {r : Render} {a b : Async} {p q : List (String × Int)}
    (ha : Async.Posts r a p) (hb : Async.Posts r b q) :
    Async.Posts r (Async.andThen a b) (p ++ q) := by
  intro w w' h
  obtain ⟨w1, h1, h2⟩ := Async.andThen_ok h
  exact posted_trans (ha w w1 h1) (hb w1 w' h2)

theorem Async.posts_ite {r : Render} {a : Async} {p : List (String × Int)} (c : Prop)
    [Decidable c] (ha : Async.Posts r a p) :
    Async.Posts r (if c then a else Async.done) (if c then p else []) := by
  split
  · exact ha
  · exact Async.posts_done r

theorem recordTransaction_posts (r : Render) (key : String) (delta : Int) (meta : Meta)
    (actor : String) :
    Async.Posts r (recordTransaction r key delta meta actor)
      (if delta = 0 then [] else [(key, delta)]) := by
  intro w w' h
  rcases recordTransaction_cases r key delta meta actor w with
    ⟨-, hr⟩ | ⟨-, hd, hr⟩ | ⟨p, msg, s, -, -, -, hr⟩ | ⟨p, s, hid, hd, hamt, hins, hr⟩
  · rw [hr] at h
    simp at h
  · rw [hr] at h
    simp only [Prod.mk.injEq, true_and] at h
    subst h
    simpa [hd] using posted_refl r w
  · rw [hr] at h
    simp at h
  · rw [hr] at h
    simp only [Prod.mk.injEq, true_and] at h
    subst h
    obtain ⟨hl, hw, -⟩ := Store.insert_accepted hins
    have ht := loadWallets_tables r { w with store := s }
    refine ⟨[p], ?_, ?_, ?_⟩
    · rw [ht.2]
      exact hl
    · rw [ht.1]
      simpa [creditAll] using hw
    · simp [hd, Posting.entry, keyEntry, hid, hamt]

theorem Math.abs_of_pos {x : Int} (h : ¬ x ≤ 0) : Math.abs x = x := by
  unfold Math.abs
  split <;> omega

theorem addToWallet_posts (r : Render) (key : String) (amount : Int) (actor : String)
    (meta : Meta) :
    Async.Posts r (addToWallet r key amount actor meta)
      (if key = "" ∨ amount ≤ 0 then [] else [(key, amount)]) := by
  intro w w' h
  unfold addToWallet at h
  by_cases hg : key = "" ∨ amount ≤ 0
  · simp only [hg, if_true, Prod.mk.injEq, true_and] at h
    subst h
    simpa [hg] using posted_refl r w
  · simp only [hg, if_false] at h
    have hpos : ¬ amount ≤ 0 := fun hle => hg (Or.inr hle)
    have hne : ¬ amount = 0 := by omega
    have := Async.posts_andThen (recordTransaction_posts r key (Math.abs amount) meta actor)
      (Async.posts_toast r (Toast.success (Message.credited amount key))) w w' h
    simpa [hg, Math.abs_of_pos hpos, hne] using this

theorem deductFromWallet_posts (r : Render) (key : String) (amount : Int) (actor : String)
    (meta : Meta) :
    Async.Posts r (deductFromWallet r key amount actor meta)
      (if key = "" ∨ amount ≤ 0 then [] else [(key, -amount)]) := by
  intro w w' h
  unfold deductFromWallet at h
  by_cases hg : key = "" ∨ amount ≤ 0
  · simp only [hg, if_true, Prod.mk.injEq, true_and] at h
    subst h
    simpa [hg] using posted_refl r w
  · simp only [hg, if_false] at h
    have hpos : ¬ amount ≤ 0 := fun hle => hg (Or.inr hle)
    have hne : ¬ amount = 0 := by omega
    by_cases hc : getWallet r key < amount
    · simp [hc] at h
    · simp only [hc, if_false] at h
      have := Async.posts_andThen (recordTransaction_posts r key (-(Math.abs amount)) meta actor)
        (Async.posts_toast r (Toast.success (Message.debited amount key))) w w' h
      simpa [hg, Math.abs_of_pos hpos, hne] using this

/-! ## Booking settlement -/

theorem Async.posts_credit (r : Render) (key : String) (amount : Int) (actor : String)
    (meta : Meta) (c : Prop) [Decidable c] (hk : key ≠ "") (hc : c → 0 < amount) :
    Async.Posts r (if c then addToWallet r key amount actor meta else Async.done)
      (if c then [(key, amount)] else []) := by
  have h := Async.posts_ite c (addToWallet_posts r key amount actor meta)
  by_cases hcc : c
  · have : ¬ amount ≤ 0 := by have := hc hcc; omega
    simpa [hcc, hk, this] using h
  · simpa [hcc] using h

theorem Async.posts_debit (r : Render) (key : String) (amount : Int) (actor : String)
    (meta : Meta) (c : Prop) [Decidable c] (hk : key ≠ "") (hc : c → 0 < amount) :
    Async.Posts r (if c then deductFromWallet r key amount actor meta else Async.done)
      (if c then [(key, -amount)] else []) := by
  have h := Async.posts_ite c (deductFromWallet_posts r key amount actor meta)
  by_cases hcc : c
  · have : ¬ amount ≤ 0 := by have := hc hcc; omega
    simpa [hcc, hk, this] using h
  · simpa [hcc] using h

theorem platformKey_some {b : Booking} {pk : String} (h : platformKey b = some pk) :
    pk = WALLET_KEYS.ALHIND ∨ pk = WALLET_KEYS.AKBAR := by
  unfold platformKey at h
  split at h
  · left; simpa using h.symm
  · split at h
    · right; simpa using h.symm
    · simp at h

theorem platformKey_ne_empty {b : Booking} {pk : String} (h : platformKey b = some pk) :
    pk ≠ "" := by
  rcases platformKey_some h with h | h <;> subst h <;> decide

theorem office_ne_empty : WALLET_KEYS.OFFICE ≠ "" := by decide

theorem applyBookingWallet_posts (r : Render) (b : Booking) (actor : String) :
    Async.Posts r (applyBookingWallet r (some b) actor) (applyPlan b) := by
  unfold applyBookingWallet applyPlan
  simp only []
  split
  · exact Async.posts_credit r _ _ actor _ _ office_ne_empty (fun h => h)
  · refine Async.posts_andThen ?_
      (Async.posts_credit r _ _ actor _ _ office_ne_empty (fun h => h))
    cases hpk : platformKey b with
    | none => exact Async.posts_done r
    | some pk =>
      exact Async.posts_andThen
        (Async.posts_debit r pk _ actor _ _ (platformKey_ne_empty hpk) (fun h => h))
        (Async.posts_credit r pk _ actor _ _ (platformKey_ne_empty hpk) (fun h => h))

theorem refundBookingWallet_posts (r : Render) (b : Booking) (actor : String) :
    Async.Posts r (refundBookingWallet r (some b) actor) (refundPlan b) := by
  unfold refundBookingWallet refundPlan
  simp only []
  split
  · exact Async.posts_debit r _ _ actor _ _ office_ne_empty (fun h => h)
  · refine Async.posts_andThen ?_
      (Async.posts_debit r _ _ actor _ _ office_ne_empty (fun h => h))
    cases hpk : platformKey b with
    | none => exact Async.posts_done r
    | some pk =>
      exact Async.posts_andThen
        (Async.posts_credit r pk _ actor _ _ (platformKey_ne_empty hpk) (fun h => h))
        (Async.posts_debit r pk _ actor _ _ (platformKey_ne_empty hpk) (fun h => h))

theorem refundBookingOnDelete_posts (r : Render) (b : Booking) (actor : String) :
    Async.Posts r (refundBookingOnDelete r (some b) actor) (refundPlan b) := by
  unfold refundBookingOnDelete refundPlan
  simp only []
  split
  · exact Async.posts_debit r _ _ actor _ _ office_ne_empty (fun h => h)
  · refine Async.posts_andThen ?_
      (Async.posts_debit r _ _ actor _ _ office_ne_empty (fun h => h))
    cases hpk : platformKey b with
    | none => exact Async.posts_done r
    | some pk =>
      exact Async.posts_andThen
        (Async.posts_credit r pk _ actor _ _ (platformKey_ne_empty hpk) (fun h => h))
        (Async.posts_debit r pk _ actor _ _ (platformKey_ne_empty hpk) (fun h => h))

theorem refundPlan_eq (b : Booking) :
    refundPlan b = (applyPlan b).map (fun ka => (ka.1, -ka.2)) := by
  unfold refundPlan applyPlan
  by_cases h1 : b.basePay > 0 <;> by_cases h2 : b.commissionAmount > 0 <;>
    by_cases h3 : b.basePay + b.markupAmount > 0 <;>
    by_cases hd : b.platform = some PLATFORM.DIRECT <;>
    cases platformKey b <;> simp [h1, h2, h3, hd]

/-! ## Properties kept by every operation -/

theorem toast_keeps {r : Render} {P : World → Prop} (h : Stable r P) (t : Toast) :
    Async.Preserves P (Async.toast t) :=
  fun w hw => h.2 w _ hw

theorem addToWallet_keeps {r : Render} {P : World → Prop} (h : Stable r P) (key : String)
    (amount : Int) (actor : String) (meta : Meta) :
    Async.Preserves P (addToWallet r key amount actor meta) := by
  intro w hw
  unfold addToWallet
  split
  · exact hw
  · exact Async.preserves_andThen (h.1 key _ meta actor) (toast_keeps h _) w hw

theorem deductFromWallet_keeps {r : Render} {P : World → Prop} (h : Stable r P) (key : String)
    (amount : Int) (actor : String) (meta : Meta) :
    Async.Preserves P (deductFromWallet r key amount actor meta) := by
  intro w hw
  unfold deductFromWallet
  split
  · exact hw
  · simp only []
    split
    · exact h.2 w _ hw
    · exact Async.preserves_andThen (h.1 key _ meta actor) (toast_keeps h _) w hw

theorem applyBookingWallet_keeps {r : Render} {P : World → Prop} (h : Stable r P)
    (booking : Option Booking) (actor : String) :
    Async.Preserves P (applyBookingWallet r booking actor) := by
  unfold applyBookingWallet
  cases booking with
  | none => exact Async.preserves_done
  | some b =>
    simp only []
    split
    · exact Async.preserves_ite _ (addToWallet_keeps h _ _ _ _) Async.preserves_done
    · refine Async.preserves_andThen ?_
        (Async.preserves_ite _ (addToWallet_keeps h _ _ _ _) Async.preserves_done)
      cases platformKey b with
      | none => exact Async.preserves_done
      | some pk =>
        exact Async.preserves_andThen
          (Async.preserves_ite _ (deductFromWallet_keeps h _ _ _ _) Async.preserves_done)
          (Async.preserves_ite _ (addToWallet_keeps h _ _ _ _) Async.preserves_done)

theorem refundBookingWallet_keeps {r : Render} {P : World → Prop} (h : Stable r P)
    (booking : Option Booking) (actor : String) :
    Async.Preserves P (refundBookingWallet r booking actor) := by
  unfold refundBookingWallet
  cases booking with
  | none => exact Async.preserves_done
  | some b =>
    simp only []
    split
    · exact Async.preserves_ite _ (deductFromWallet_keeps h _ _ _ _) Async.preserves_done
    · refine Async.preserves_andThen ?_
        (Async.preserves_ite _ (deductFromWallet_keeps h _ _ _ _) Async.preserves_done)
      cases platformKey b with
      | none => exact Async.preserves_done
      | some pk =>
        exact Async.preserves_andThen
          (Async.preserves_ite _ (addToWallet_keeps h _ _ _ _) Async.preserves_done)
          (Async.preserves_ite _ (deductFromWallet_keeps h _ _ _ _) Async.preserves_done)

theorem refundBookingOnDelete_keeps {r : Render} {P : World → Prop} (h : Stable r P)
    (booking : Option Booking) (actor : String) :
    Async.Preserves P (refundBookingOnDelete r booking actor) := by
  unfold refundBookingOnDelete
  cases booking with
  | none => exact Async.preserves_done
  | some b =>
    simp only []
    split
    · exact Async.preserves_ite _ (deductFromWallet_keeps h _ _ _ _) Async.preserves_done
    · refine Async.preserves_andThen ?_
        (Async.preserves_ite _ (deductFromWallet_keeps h _ _ _ _) Async.preserves_done)
      cases platformKey b with
      | none => exact Async.preserves_done
      | some pk =>
        exact Async.preserves_andThen
          (Async.preserves_ite _ (addToWallet_keeps h _ _ _ _) Async.preserves_done)
          (Async.preserves_ite _ (deductFromWallet_keeps h _ _ _ _) Async.preserves_done)

theorem debitOfficeForExpense_keeps {r : Render} {P : World → Prop} (h : Stable r P)
    (expenseData : Option Expense) (user : String) :
    Async.Preserves P (debitOfficeForExpense r expenseData user) := by
  intro w hw
  unfold debitOfficeForExpense
  split
  · exact h.2 _ _ (deductFromWallet_keeps h _ _ _ _ w hw)
  · exact hw

theorem refundExpenseToOffice_keeps {r : Render} {P : World → Prop} (h : Stable r P)
    (expenseData : Option Expense) (user : String) :
    Async.Preserves P (refundExpenseToOffice r expenseData user) := by
  intro w hw
  unfold refundExpenseToOffice
  split
  · exact h.2 _ _ (addToWallet_keeps h _ _ _ _ w hw)
  · exact h.2 _ _ hw

/-! ## The ledger and the cached balances -/

theorem ledgerSum_append (ledger : List Posting) (p : Posting) (id : Nat) :
    ledgerSum (ledger ++ [p]) id
      = ledgerSum ledger id + (if id = p.wallet_id then p.amount else 0) := by
  unfold ledgerSum
  rw [List.filter_append, List.map_append, List.sum_append]
  by_cases h : id = p.wallet_id
  · simp [h, List.filter_cons]
  · have h2 : ¬ p.wallet_id = id := fun e => h e.symm
    simp [h, h2, List.filter_cons]

theorem ledgerBalanced_accepted {s s' : Store} {p : Posting} (h : LedgerBalanced s)
    (hl : s'.wallet_transactions = s.wallet_transactions ++ [p])
    (hw : s'.wallets = s.wallets.map (Store.creditRow p)) : LedgerBalanced s' := by
  intro row hrow
  rw [hw, List.mem_map] at hrow
  obtain ⟨row0, hmem, hrow0⟩ := hrow
  subst hrow0
  rw [hl, Store.creditRow_balance, Store.creditRow_id, ledgerSum_append, h row0 hmem]

/-- The agreement of cached balances and ledger is kept by every operation. -/
theorem ledgerBalanced_stable (r : Render) : Stable r (fun w => LedgerBalanced w.store) := by
  refine ⟨?_, fun _ _ h => h⟩
  intro key delta meta actor w h
  rcases recordTransaction_cases r key delta meta actor w with
    ⟨-, hr⟩ | ⟨-, -, hr⟩ | ⟨p, msg, s, -, -, hins, hr⟩ | ⟨p, s, -, -, -, hins, hr⟩
  · rw [hr]
    exact h
  · rw [hr]
    exact h
  · rw [hr]
    obtain ⟨hl, hw, -⟩ := Store.insert_refused hins
    intro row hrow
    simp only [hw, hl] at hrow ⊢
    exact h row hrow
  · rw [hr]
    obtain ⟨hl, hw, -⟩ := Store.insert_accepted hins
    have ht := loadWallets_tables r { w with store := s }
    intro row hrow
    rw [ht.1] at hrow
    rw [ht.2]
    exact ledgerBalanced_accepted h hl hw row hrow

/-! ## The render and the state -/

theorem tracks_refused {r : Render} {w : World} {s : Store} (h : Tracks r w)
    (hw : s.wallets = w.store.wallets) (hs : s.selectErrors = w.store.selectErrors) :
    Tracks r { w with store := s } := by
  obtain ⟨hu, hid, hsync, hsel⟩ := h
  refine ⟨hu, hid, ?_, ?_⟩
  · simpa [Synced, hw] using hsync
  · simpa [Store.Reads, hs] using hsel

theorem tracks_accepted {r : Render} {w : World} {s : Store} {p : Posting} (h : Tracks r w)
    (hins : w.store.insert p = (none, s)) :
    Tracks r (loadWallets r { w with store := s }) := by
  obtain ⟨hu, hid, hsync, hsel⟩ := h
  obtain ⟨hl, hw, hs⟩ := Store.insert_accepted hins
  have hready := loadWallets_ready r { w with store := s } hu
    (by simpa [Store.Reads, hs] using hsel)
  obtain ⟨hsync', hstore, hreads, -⟩ := hready
  have huser := loadWallets_user r { w with store := s }
  generalize loadWallets r { w with store := s } = w' at hsync' hstore hreads huser ⊢
  simp only at hstore huser
  refine ⟨?_, ?_, hsync', ?_⟩
  · rw [huser]
    exact hu
  · intro name
    rw [hid name]
    cases hwu : w.user with
    | none =>
      have h1 := (hsync.1 hwu).1
      have h2 := (hsync'.1 (by rw [huser]; exact hwu)).1
      rw [h1, h2]
    | some u =>
      have hne : w.user ≠ none := by simp [hwu]
      have h1 := (hsync.2 hne).1
      have h2 := (hsync'.2 (by rw [huser]; exact hne)).1
      rw [h1, h2, hstore, loadWallets.build_index, loadWallets.build_index]
      simp only [hw, liveRow_credit, Option.map_map]
      congr 1
      funext row
      simp [Store.creditRow_id]
  · exact hreads

/-- Every operation made from `r` leaves a state that `r` still tracks. -/
theorem tracks_stable (r : Render) : Stable r (Tracks r) := by
  refine ⟨?_, fun _ _ h => h⟩
  intro key delta meta actor w h
  rcases recordTransaction_cases r key delta meta actor w with
    ⟨-, hr⟩ | ⟨-, -, hr⟩ | ⟨p, msg, s, -, -, hins, hr⟩ | ⟨p, s, -, -, -, hins, hr⟩
  · rw [hr]
    exact h
  · rw [hr]
    exact h
  · rw [hr]
    obtain ⟨-, hw, hs⟩ := Store.insert_refused hins
    exact tracks_refused h hw hs
  · rw [hr]
    exact tracks_accepted h hins

theorem tracks_render {w : World} (hsync : Synced w) (hsel : w.store.Reads) :
    Tracks w.render w :=
  ⟨rfl, fun _ => rfl, hsync, hsel⟩

theorem walletIdOf_of_lookup {r r' : Render}
    (h : ∀ name, (r'.walletIndex.lookup name).map WalletRow.id
      = (r.walletIndex.lookup name).map WalletRow.id) (key : String) :
    walletIdOf r' key = walletIdOf r key := by
  unfold walletIdOf lookupWallet
  cases WALLET_NAME_MAP key with
  | none => rfl
  | some name =>
    simp only []
    split
    · rfl
    · have hn := h name
      cases h1 : List.lookup name r'.walletIndex with
      | none =>
        rw [h1] at hn
        cases h2 : List.lookup name r.walletIndex with
        | none => rfl
        | some b => rw [h2] at hn; simp at hn
      | some a =>
        rw [h1] at hn
        cases h2 : List.lookup name r.walletIndex with
        | none => rw [h2] at hn; simp at hn
        | some b =>
          rw [h2] at hn
          simp only [Option.map_some', Option.some.injEq] at hn
          simp only []
          by_cases ha : a.id = 0
          · have hb : b.id = 0 := by rw [← hn]; exact ha
            simp [ha, hb]
          · have hb : ¬ b.id = 0 := by rw [← hn]; exact ha
            simp [ha, hb, hn]

/-- The render that follows a tracked state resolves every key to the id the
tracking render resolves it to. -/
theorem walletIdOf_of_tracks {r : Render} {w : World} (h : Tracks r w) (key : String) :
    walletIdOf w.render key = walletIdOf r key :=
  walletIdOf_of_lookup (fun name => (h.2.1 name).symm) key

/-! ## Failed steps -/

theorem untouched_refl (w : World) : Untouched w w := ⟨rfl, rfl, rfl, rfl⟩

theorem untouched_issued {w w' : World} (h : Untouched w w') : issued w w' = [] := by
  unfold issued
  rw [h.1]
  simp

/-- A failed `recordTransaction` threw `WalletNotFound` or `StoreWriteError`
and wrote nothing. -/
theorem recordTransaction_error {r : Render} {key : String} {delta : Int} {meta : Meta}
    {actor : String} {w w' : World} {e : WalletError}
    (h : recordTransaction r key delta meta actor w = (.error e, w')) :
    e.isValidation = false ∧ Untouched w w' := by
  rcases recordTransaction_cases r key delta meta actor w with
    ⟨-, hr⟩ | ⟨-, -, hr⟩ | ⟨p, msg, s, -, -, hins, hr⟩ | ⟨p, s, -, -, -, -, hr⟩
  · rw [hr] at h
    simp only [Prod.mk.injEq, Except.error.injEq] at h
    obtain ⟨he, hw⟩ := h
    subst he hw
    exact ⟨rfl, rfl, rfl, rfl, rfl⟩
  · rw [hr] at h
    simp at h
  · rw [hr] at h
    simp only [Prod.mk.injEq, Except.error.injEq] at h
    obtain ⟨he, hw⟩ := h
    subst he hw
    obtain ⟨hl, hw, -⟩ := Store.insert_refused hins
    exact ⟨rfl, hl, hw, rfl, rfl⟩
  · rw [hr] at h
    simp at h

theorem toast_ok (t : Toast) (w w' : World) (e : WalletError) :
    Async.toast t w ≠ (.error e, w') := by
  simp [Async.toast]

/-- A failed `addToWallet` did not fail on validation and wrote nothing. -/
theorem addToWallet_error {r : Render} {key : String} {amount : Int} {actor : String}
    {meta : Meta} {w w' : World} {e : WalletError}
    (h : addToWallet r key amount actor meta w = (.error e, w')) :
    e.isValidation = false ∧ Untouched w w' := by
  unfold addToWallet at h
  split at h
  · simp at h
  · rcases Async.andThen_error h with h1 | ⟨w1, -, h2⟩
    · exact recordTransaction_error h1
    · exact absurd h2 (toast_ok _ _ _ _)

/-- A failed `deductFromWallet` wrote nothing. -/
theorem deductFromWallet_error {r : Render} {key : String} {amount : Int} {actor : String}
    {meta : Meta} {w w' : World} {e : WalletError}
    (h : deductFromWallet r key amount actor meta w = (.error e, w')) :
    Untouched w w' := by
  unfold deductFromWallet at h
  split at h
  · simp at h
  · simp only [] at h
    split at h
    · simp only [Prod.mk.injEq, Except.error.injEq] at h
      obtain ⟨-, hw⟩ := h
      subst hw
      exact ⟨rfl, rfl, rfl, rfl⟩
    · rcases Async.andThen_error h with h1 | ⟨w1, -, h2⟩
      · exact (recordTransaction_error h1).2
      · exact absurd h2 (toast_ok _ _ _ _)

/-! ## Net effect of a list of postings -/

theorem ledgerSum_nil (id : Nat) : ledgerSum [] id = 0 := rfl

theorem ledgerSum_cons (p : Posting) (ps : List Posting) (id : Nat) :
    ledgerSum (p :: ps) id = (if p.wallet_id = id then p.amount else 0) + ledgerSum ps id := by
  unfold ledgerSum
  by_cases h : p.wallet_id = id
  · simp [h, List.filter_cons]
  · simp [h, List.filter_cons]

theorem ledgerSum_concat (ps qs : List Posting) (id : Nat) :
    ledgerSum (ps ++ qs) id = ledgerSum ps id + ledgerSum qs id := by
  unfold ledgerSum
  rw [List.filter_append, List.map_append, List.sum_append]

/-- Postings that mirror `ps` with the opposite sign sum to the opposite. -/
theorem ledgerSum_mirror (ps qs : List Posting) (id : Nat)
    (h : qs.map Posting.entry = (ps.map Posting.entry).map (fun e => (e.1, -e.2))) :
    ledgerSum qs id = -ledgerSum ps id := by
  induction ps generalizing qs with
  | nil =>
    simp only [List.map_nil, List.map_eq_nil_iff] at h
    subst h
    simp [ledgerSum_nil]
  | cons p ps ih =>
    cases qs with
    | nil => simp at h
    | cons q qs =>
      simp only [List.map_cons, List.cons.injEq, Posting.entry, Prod.mk.injEq,
        Option.some.injEq] at h
      obtain ⟨⟨hid, hamt⟩, hrest⟩ := h
      rw [ledgerSum_cons, ledgerSum_cons, ih qs hrest, hid, hamt]
      split <;> omega

/-- The cached balance of every row moves by the sum of the postings that
reference its id. -/
theorem creditAll_balance (ps : List Posting) (rows : List WalletRow) :
    creditAll ps rows
      = rows.map (fun row => { row with balance := row.balance + ledgerSum ps row.id }) := by
  induction ps generalizing rows with
  | nil =>
    simp only [creditAll, List.foldl_nil, ledgerSum_nil, add_zero]
    exact (List.map_id rows).symm
  | cons p ps ih =>
    have hstep : creditAll (p :: ps) rows = creditAll ps (rows.map (Store.creditRow p)) := rfl
    rw [hstep, ih, List.map_map]
    apply List.map_congr_left
    intro row _
    simp only [Function.comp, Store.creditRow_id, Store.creditRow_balance, Store.creditRow_name,
      ledgerSum_cons]
    have hflip : (row.id = p.wallet_id) ↔ (p.wallet_id = row.id) := eq_comm
    simp only [hflip, add_assoc]

theorem creditAll_mirror (ps qs : List Posting) (rows : List WalletRow)
    (h : qs.map Posting.entry = (ps.map Posting.entry).map (fun e => (e.1, -e.2))) :
    creditAll qs (creditAll ps rows) = rows := by
  rw [← creditAll_append, creditAll_balance]
  have hzero : ∀ id, ledgerSum (ps ++ qs) id = 0 := by
    intro id
    rw [ledgerSum_concat, ledgerSum_mirror ps qs id h]
    omega
  simp only [hzero, add_zero]
  exact List.map_id rows

theorem synced_same {w w' : World} (h : Synced w) (h' : Synced w') (hu : w'.user = w.user)
    (hrows : w'.store.wallets = w.store.wallets) :
    w'.wallets = w.wallets ∧ w'.walletIndex = w.walletIndex := by
  cases hwu : w.user with
  | none =>
    have h1 := h.1 hwu
    have h2 := h'.1 (by rw [hu]; exact hwu)
    exact ⟨by rw [h1.2, h2.2], by rw [h1.1, h2.1]⟩
  | some u =>
    have hne : w.user ≠ none := by simp [hwu]
    have h1 := h.2 hne
    have h2 := h'.2 (by rw [hu]; exact hne)
    exact ⟨by rw [h1.2, h2.2, hrows], by rw [h1.1, h2.1, hrows]⟩

theorem tracks_user {r : Render} {w : World} (h : Tracks r w) : w.user = r.user := h.1.symm

/-! ## Wallet not found -/

theorem loadWallets_toasts (r : Render) (w : World) (t : Toast)
    (h : t ∈ (loadWallets r w).toasts) :
    t ∈ w.toasts ∨ t = Toast.error Message.loadWalletsFailed := by
  unfold loadWallets at h
  split at h
  · exact Or.inl h
  · split at h
    · simpa using h
    · exact Or.inl h

/-- The not-found toast is new after `recordTransaction` exactly when the key
did not resolve. -/
theorem recordTransaction_notFoundToast (r : Render) (key : String) (delta : Int) (meta : Meta)
    (actor : String) (w : World) (k : String) (hnew : notFoundToast k ∉ w.toasts) :
    notFoundToast k ∈ (recordTransaction r key delta meta actor w).2.toasts ↔
      (lookupWallet r key = none ∧ k = key) := by
  rcases recordTransaction_cases r key delta meta actor w with
    ⟨hl, hr⟩ | ⟨hl, -, hr⟩ | ⟨p, msg, s, hl, -, -, hr⟩ | ⟨p, s, hid, -, -, -, hr⟩
  · rw [hr]
    simp only [List.mem_append, List.mem_singleton, hnew, false_or, hl, true_and]
    simp [notFoundToast]
  · rw [hr]
    simp [hnew, hl]
  · rw [hr]
    simp [hnew, hl]
  · rw [hr]
    have hl : lookupWallet r key ≠ none := by
      intro h
      simp [walletIdOf, h] at hid
    constructor
    · intro h
      rcases loadWallets_toasts r _ _ h with h1 | h1
      · exact absurd h1 hnew
      · simp [notFoundToast] at h1
    · intro h
      exact absurd h.1 hl

theorem recordTransaction_surfaces (r : Render) (key : String) (delta : Int) (meta : Meta)
    (actor : String) : Async.SurfacesNotFound (recordTransaction r key delta meta actor) := by
  intro w k hnew hmem
  obtain ⟨hl, hk⟩ := (recordTransaction_notFoundToast r key delta meta actor w k hnew).1 hmem
  subst hk
  rcases recordTransaction_cases r k delta meta actor w with
    ⟨-, hr⟩ | ⟨hl', -, -⟩ | ⟨p, msg, s, hl', -, -, -⟩ | ⟨p, s, hid, -, -, -, -⟩
  · rw [hr]
  · exact absurd hl hl'
  · exact absurd hl hl'
  · simp [walletIdOf, hl] at hid

theorem surfaces_done : Async.SurfacesNotFound Async.done := by
  intro w k hnew hmem
  exact absurd hmem hnew

theorem surfaces_toast_success (m : Message) :
    Async.SurfacesNotFound (Async.toast (Toast.success m)) := by
  intro w k hnew hmem
  simp only [Async.toast, List.mem_append, List.mem_singleton] at hmem
  rcases hmem with h | h
  · exact absurd h hnew
  · simp [notFoundToast] at h

theorem surfaces_andThen {a b : Async} (ha : Async.SurfacesNotFound a)
    (hb : Async.SurfacesNotFound b) : Async.SurfacesNotFound (Async.andThen a b) := by
  intro w k hnew hmem
  have h1 := ha w k hnew
  unfold Async.andThen at hmem ⊢
  cases hres : a w with
  | mk res w1 =>
    rw [hres] at h1
    cases res with
    | ok u =>
      simp only [] at hmem ⊢
      have hnew1 : notFoundToast k ∉ w1.toasts := by
        intro hin
        have := h1 hin
        simp at this
      simp only [hres] at hmem ⊢
      exact hb w1 k hnew1 hmem
    | error e =>
      simp only [hres] at hmem ⊢
      exact h1 hmem

theorem surfaces_ite {a b : Async} (c : Prop) [Decidable c] (ha : Async.SurfacesNotFound a)
    (hb : Async.SurfacesNotFound b) : Async.SurfacesNotFound (if c then a else b) := by
  split
  · exact ha
  · exact hb

theorem addToWallet_surfaces (r : Render) (key : String) (amount : Int) (actor : String)
    (meta : Meta) : Async.SurfacesNotFound (addToWallet r key amount actor meta) := by
  intro w k hnew hmem
  unfold addToWallet at hmem ⊢
  split at hmem
  · exact absurd hmem hnew
  · rename_i hg
    simp only [hg, if_false]
    exact surfaces_andThen (recordTransaction_surfaces r key _ meta actor)
      (surfaces_toast_success _) w k hnew hmem

theorem deductFromWallet_surfaces (r : Render) (key : String) (amount : Int) (actor : String)
    (meta : Meta) : Async.SurfacesNotFound (deductFromWallet r key amount actor meta) := by
  intro w k hnew hmem
  unfold deductFromWallet at hmem ⊢
  split at hmem
  · exact absurd hmem hnew
  · rename_i hg
    simp only [hg, if_false] at hmem ⊢
    split at hmem
    · simp only [List.mem_append, List.mem_singleton] at hmem
      rcases hmem with h | h
      · exact absurd h hnew
      · simp [notFoundToast] at h
    · rename_i hc
      simp only [hc, if_false]
      exact surfaces_andThen (recordTransaction_surfaces r key _ meta actor)
        (surfaces_toast_success _) w k hnew hmem

theorem applyBookingWallet_surfaces (r : Render) (booking : Option Booking) (actor : String) :
    Async.SurfacesNotFound (applyBookingWallet r booking actor) := by
  unfold applyBookingWallet
  cases booking with
  | none => exact surfaces_done
  | some b =>
    simp only []
    split
    · exact surfaces_ite _ (addToWallet_surfaces r _ _ _ _) surfaces_done
    · refine surfaces_andThen ?_ (surfaces_ite _ (addToWallet_surfaces r _ _ _ _) surfaces_done)
      cases platformKey b with
      | none => exact surfaces_done
      | some pk =>
        exact surfaces_andThen
          (surfaces_ite _ (deductFromWallet_surfaces r _ _ _ _) surfaces_done)
          (surfaces_ite _ (addToWallet_surfaces r _ _ _ _) surfaces_done)

theorem refundBookingWallet_surfaces (r : Render) (booking : Option Booking) (actor : String) :
    Async.SurfacesNotFound (refundBookingWallet r booking actor) := by
  unfold refundBookingWallet
  cases booking with
  | none => exact surfaces_done
  | some b =>
    simp only []
    split
    · exact surfaces_ite _ (deductFromWallet_surfaces r _ _ _ _) surfaces_done
    · refine surfaces_andThen ?_
        (surfaces_ite _ (deductFromWallet_surfaces r _ _ _ _) surfaces_done)
      cases platformKey b with
      | none => exact surfaces_done
      | some pk =>
        exact surfaces_andThen
          (surfaces_ite _ (addToWallet_surfaces r _ _ _ _) surfaces_done)
          (surfaces_ite _ (deductFromWallet_surfaces r _ _ _ _) surfaces_done)

theorem refundBookingOnDelete_surfaces (r : Render) (booking : Option Booking)
    (actor : String) : Async.SurfacesNotFound (refundBookingOnDelete r booking actor) := by
  unfold refundBookingOnDelete
  cases booking with
  | none => exact surfaces_done
  | some b =>
    simp only []
    split
    · exact surfaces_ite _ (deductFromWallet_surfaces r _ _ _ _) surfaces_done
    · refine surfaces_andThen ?_
        (surfaces_ite _ (deductFromWallet_surfaces r _ _ _ _) surfaces_done)
      cases platformKey b with
      | none => exact surfaces_done
      | some pk =>
        exact surfaces_andThen
          (surfaces_ite _ (addToWallet_surfaces r _ _ _ _) surfaces_done)
          (surfaces_ite _ (deductFromWallet_surfaces r _ _ _ _) surfaces_done)

/-! ## Balances shown after a reload -/

theorem synced_held {w : World} {key name : String} (hsync : Synced w)
    (hu : w.user ≠ none) (hname : WALLET_NAME_MAP key = some name) :
    held w.render key = ((liveRow w.store.wallets name).map WalletRow.balance).getD 0 := by
  unfold held World.render
  simp only []
  rw [(hsync.2 hu).2, loadWallets.build_own _ key name hname]
  rfl

theorem held_unmapped (r : Render) {key : String} (h : WALLET_NAME_MAP key = none) :
    held r key = 0 := by
  unfold WALLET_NAME_MAP at h
  simp only [WALLET_KEYS.ALHIND, WALLET_KEYS.AKBAR, WALLET_KEYS.OFFICE] at h
  unfold held Wallets.own
  split at h
  · simp at h
  · split at h
    · simp at h
    · split at h
      · simp at h
      · rename_i h1 h2 h3
        simp [h1, h2, h3]

/-- The own properties of the `wallets` object are the keys that have a wallet
name. -/
theorem Wallets.own_none_iff (ws : Wallets) (key : String) :
    ws.own key = none ↔ WALLET_NAME_MAP key = none := by
  unfold Wallets.own WALLET_NAME_MAP
  simp only [WALLET_KEYS.ALHIND, WALLET_KEYS.AKBAR, WALLET_KEYS.OFFICE]
  by_cases h1 : key = "alhind"
  · simp [h1]
  · by_cases h2 : key = "akbar"
    · simp [h1, h2]
    · by_cases h3 : key = "office"
      · simp [h1, h2, h3]
      · simp [h1, h2, h3]

/-- For a key that has a wallet name, `getWallet` is the amount the snapshot
holds. -/
theorem getWallet_mapped (r : Render) {key name : String}
    (h : WALLET_NAME_MAP key = some name) : getWallet r key = Num.finite (held r key) := by
  unfold getWallet held Wallets.get
  cases ho : r.wallets.own key with
  | none =>
    rw [(Wallets.own_none_iff _ _).mp ho] at h
    simp at h
  | some n => rfl

/-- No inherited property name is a wallet key. -/
theorem inherited_unmapped {key : String} (h : key ∈ Object.prototype) :
    WALLET_NAME_MAP key = none := by
  simp only [Object.prototype, List.mem_cons, List.mem_singleton, List.not_mem_nil,
    or_false] at h
  rcases h with h | h | h | h | h | h | h | h | h | h | h | h <;> subst h <;> decide

/-- For an inherited property name `getWallet` is `NaN`, whatever the render. -/
theorem getWallet_inherited (r : Render) {key : String} (h : key ∈ Object.prototype) :
    getWallet r key = Num.NaN := by
  unfold getWallet Wallets.get
  rw [(Wallets.own_none_iff _ _).mpr (inherited_unmapped h)]
  simp [h, Value.coalesce, Number]

/-- For every other key without a wallet name `getWallet` is zero, whatever
the render. -/
theorem getWallet_plain (r : Render) {key : String} (h : WALLET_NAME_MAP key = none)
    (hp : key ∉ Object.prototype) : getWallet r key = 0 := by
  unfold getWallet Wallets.get
  rw [(Wallets.own_none_iff _ _).mpr h]
  simp only [hp, if_false, Value.coalesce, Number]
  rfl

/-- For a key without a wallet name `getWallet` does not depend on the render. -/
theorem getWallet_unmapped (r r' : Render) {key : String} (h : WALLET_NAME_MAP key = none) :
    getWallet r key = getWallet r' key := by
  by_cases hp : key ∈ Object.prototype
  · rw [getWallet_inherited r hp, getWallet_inherited r' hp]
  · rw [getWallet_plain r h hp, getWallet_plain r' h hp]

/-- When `getWallet` is an amount, it is the amount the snapshot holds. -/
theorem getWallet_finite {r : Render} {key : String} {n : Int}
    (h : getWallet r key = Num.finite n) : held r key = n := by
  cases hname : WALLET_NAME_MAP key with
  | some name =>
    rw [getWallet_mapped r hname] at h
    exact Num.finite.inj h
  | none =>
    rw [held_unmapped r hname]
    by_cases hp : key ∈ Object.prototype
    · rw [getWallet_inherited r hp] at h
      exact Num.noConfusion h
    · rw [getWallet_plain r hname hp] at h
      exact Num.finite.inj h

/-- The balances shown depend on the snapshot only. -/
theorem getWallet_congr {r r' : Render} (h : r'.wallets = r.wallets) (key : String) :
    getWallet r' key = getWallet r key := by
  unfold getWallet
  rw [h]

theorem WALLET_NAME_MAP_some {key name : String} (h : WALLET_NAME_MAP key = some name) :
    (key = "alhind" ∧ name = "AlHind") ∨ (key = "akbar" ∧ name = "Akbar") ∨
      (key = "office" ∧ name = "Office-Funds") := by
  unfold WALLET_NAME_MAP at h
  simp only [WALLET_KEYS.ALHIND, WALLET_KEYS.AKBAR, WALLET_KEYS.OFFICE] at h
  split at h
  · rename_i hk
    exact Or.inl ⟨hk, by simpa using h.symm⟩
  · split at h
    · rename_i hk
      exact Or.inr (Or.inl ⟨hk, by simpa using h.symm⟩)
    · split at h
      · rename_i hk
        exact Or.inr (Or.inr ⟨hk, by simpa using h.symm⟩)
      · simp at h

theorem WALLET_NAME_MAP_inj {key key' name : String} (h : WALLET_NAME_MAP key = some name)
    (h' : WALLET_NAME_MAP key' = some name) : key = key' := by
  rcases WALLET_NAME_MAP_some h with ⟨hk, hn⟩ | ⟨hk, hn⟩ | ⟨hk, hn⟩ <;>
    rcases WALLET_NAME_MAP_some h' with ⟨hk', hn'⟩ | ⟨hk', hn'⟩ | ⟨hk', hn'⟩ <;>
    subst hk hk' hn <;> first | rfl | (exact absurd hn' (by decide))

theorem liveRow_some {rows : List WalletRow} {name : String} {row : WalletRow}
    (h : liveRow rows name = some row) : row ∈ rows ∧ row.name = name := by
  unfold liveRow at h
  have hmem := List.mem_of_find?_eq_some h
  have hp : (name == row.name) = true :=
    List.find?_some (p := fun w : WalletRow => name == w.name) h
  exact ⟨List.mem_reverse.mp hmem, (beq_iff_eq.mp hp).symm⟩

/-- With unique wallet ids, the live rows of two names share no id. -/
theorem liveRow_distinct {rows : List WalletRow} {n n' : String} {a b : WalletRow}
    (hnd : (rows.map WalletRow.id).Nodup) (ha : liveRow rows n = some a)
    (hb : liveRow rows n' = some b) (hid : a.id = b.id) : n = n' := by
  obtain ⟨hma, hna⟩ := liveRow_some ha
  obtain ⟨hmb, hnb⟩ := liveRow_some hb
  have hab : a = b := List.inj_on_of_nodup_map hnd hma hmb hid
  rw [← hna, ← hnb, hab]

theorem lookupWallet_some {r : Render} {key : String} {wallet : WalletRow}
    (h : lookupWallet r key = some wallet) :
    ∃ name, WALLET_NAME_MAP key = some name ∧ r.walletIndex.lookup name = some wallet := by
  unfold lookupWallet at h
  split at h
  · simp at h
  · rename_i name hname
    split at h
    · simp at h
    · split at h
      · simp at h
      · rename_i found hfound
        split at h
        · simp at h
        · simp only [Option.some.injEq] at h
          subst h
          exact ⟨name, hname, hfound⟩

/-- In a loaded state, the wallet a key resolves to in a render whose index
binds the same ids is, by id, the live row of the store for the wallet name of
the key. -/
theorem synced_liveRow {r : Render} {w : World} {key : String} {wallet : WalletRow}
    (hid : ∀ name, (r.walletIndex.lookup name).map WalletRow.id
      = (w.walletIndex.lookup name).map WalletRow.id)
    (hsync : Synced w) (h : lookupWallet r key = some wallet) :
    w.user ≠ none ∧ ∃ name row, WALLET_NAME_MAP key = some name ∧
      liveRow w.store.wallets name = some row ∧ row.id = wallet.id := by
  obtain ⟨name, hname, hfound⟩ := lookupWallet_some h
  have hidn := hid name
  rw [hfound] at hidn
  have hu : w.user ≠ none := by
    intro hnone
    rw [(hsync.1 hnone).1] at hidn
    simp at hidn
  refine ⟨hu, name, ?_⟩
  rw [(hsync.2 hu).1, loadWallets.build_index] at hidn
  cases hlive : liveRow w.store.wallets name with
  | none =>
    rw [hlive] at hidn
    simp at hidn
  | some row =>
    rw [hlive] at hidn
    simp only [Option.map_some', Option.some.injEq] at hidn
    exact ⟨row, hname, rfl, hidn.symm⟩

/-- In a tracked state, the wallet a key resolves to in the render is, by id,
the live row of the store for the wallet name of the key. -/
theorem tracks_liveRow {r : Render} {w : World} {key : String} {wallet : WalletRow}
    (htr : Tracks r w) (h : lookupWallet r key = some wallet) :
    w.user ≠ none ∧ ∃ name row, WALLET_NAME_MAP key = some name ∧
      liveRow w.store.wallets name = some row ∧ row.id = wallet.id :=
  synced_liveRow htr.2.1 htr.2.2.1 h

/-! ## Sessions -/

theorem stable_and {r : Render} {P Q : World → Prop} (hP : Stable r P) (hQ : Stable r Q) :
    Stable r (fun w => P w ∧ Q w) :=
  ⟨fun key delta meta actor w h =>
      ⟨hP.1 key delta meta actor w h.1, hQ.1 key delta meta actor w h.2⟩,
    fun w ts h => ⟨hP.2 w ts h.1, hQ.2 w ts h.2⟩⟩

/-- Every call made from the current render keeps the snapshot loaded from the
store, the reads succeeding, and the cached balances equal to the ledger
sums. -/
theorem Op.run_keeps (op : Op) (w : World) (hsync : Synced w)
    (hsel : w.store.Reads) (hbal : LedgerBalanced w.store) :
    Synced (op.run w).2 ∧ (op.run w).2.store.Reads ∧
      LedgerBalanced (op.run w).2.store := by
  have hst := stable_and (tracks_stable w.render) (ledgerBalanced_stable w.render)
  have h0 : Tracks w.render w ∧ LedgerBalanced w.store := ⟨tracks_render hsync hsel, hbal⟩
  have key : ∀ a : Async,
      Async.Preserves (fun w' => Tracks w.render w' ∧ LedgerBalanced w'.store) a →
      Synced (a w).2 ∧ (a w).2.store.Reads ∧ LedgerBalanced (a w).2.store := by
    intro a ha
    have := ha w h0
    exact ⟨this.1.2.2.1, this.1.2.2.2, this.2⟩
  cases op with
  | addToWallet k amount actor meta =>
    exact key (BookingTrack.addToWallet w.render k amount actor meta)
      (addToWallet_keeps hst k amount actor meta)
  | deductFromWallet k amount actor meta =>
    exact key (BookingTrack.deductFromWallet w.render k amount actor meta)
      (deductFromWallet_keeps hst k amount actor meta)
  | applyBookingWallet booking actor =>
    exact key (BookingTrack.applyBookingWallet w.render booking actor)
      (applyBookingWallet_keeps hst booking actor)
  | refundBookingWallet booking actor =>
    exact key (BookingTrack.refundBookingWallet w.render booking actor)
      (refundBookingWallet_keeps hst booking actor)
  | refundBookingOnDelete booking actor =>
    exact key (BookingTrack.refundBookingOnDelete w.render booking actor)
      (refundBookingOnDelete_keeps hst booking actor)
  | debitOfficeForExpense expenseData user =>
    exact key (BookingTrack.debitOfficeForExpense w.render expenseData user)
      (debitOfficeForExpense_keeps hst expenseData user)
  | refundExpenseToOffice expenseData user =>
    exact key (BookingTrack.refundExpenseToOffice w.render expenseData user)
      (refundExpenseToOffice_keeps hst expenseData user)

theorem runAll_keeps (ops : List Op) (w w' : World) (hsync : Synced w)
    (hsel : w.store.Reads) (hbal : LedgerBalanced w.store)
    (hrun : runAll ops w = some w') :
    Synced w' ∧ w'.store.Reads ∧ LedgerBalanced w'.store := by
  induction ops generalizing w with
  | nil =>
    simp only [runAll, Option.some.injEq] at hrun
    subst hrun
    exact ⟨hsync, hsel, hbal⟩
  | cons op ops ih =>
    have hk := Op.run_keeps op w hsync hsel hbal
    unfold runAll at hrun
    split at hrun
    · rename_i w1 hres
      rw [hres] at hk
      exact ih w1 hk.1 hk.2.1 hk.2.2 hrun
    · simp at hrun

/-- In a loaded session whose cached balances equal the ledger sums, the
balance shown for a key is the ledger sum of the wallet the key resolves to. -/
theorem synced_balance {w : World} (hsync : Synced w) (hsel : w.store.Reads)
    (hbal : LedgerBalanced w.store) (key : String) (wallet : WalletRow)
    (h : lookupWallet w.render key = some wallet) :
    held w.render key = ledgerSum w.store.wallet_transactions wallet.id := by
  obtain ⟨hu, name, row, hname, hlive, hrow⟩ := tracks_liveRow (tracks_render hsync hsel) h
  rw [synced_held hsync hu hname, hlive, ← hrow, ← hbal row (liveRow_some hlive).1]
  rfl

/-! ## Validation errors -/

theorem ite_done_ok {c : Prop} [Decidable c] {a : Async} {w w1 : World} (hc : ¬ c)
    (h : (if c then a else Async.done) w = (.ok (), w1)) : w1 = w := by
  simp only [hc, if_false, Async.done, Prod.mk.injEq, true_and] at h
  exact h.symm

theorem ite_done_error {c : Prop} [Decidable c] {a : Async} {w w1 : World} {e : WalletError}
    (h : (if c then a else Async.done) w = (.error e, w1)) : a w = (.error e, w1) := by
  split at h
  · exact h
  · simp [Async.done] at h

theorem addToWallet_not_validation {r : Render} {key : String} {amount : Int} {actor : String}
    {meta : Meta} {w w' : World} {e : WalletError} (hval : e.isValidation = true)
    (h : addToWallet r key amount actor meta w = (.error e, w')) : False := by
  have := (addToWallet_error h).1
  rw [hval] at this
  exact Bool.noConfusion this

theorem applyBookingWallet_validation {r : Render} {booking : Option Booking} {actor : String}
    {w w' : World} {e : WalletError} (hval : e.isValidation = true)
    (h : applyBookingWallet r booking actor w = (.error e, w')) : Untouched w w' := by
  unfold applyBookingWallet at h
  cases booking with
  | none => simp [Async.done] at h
  | some b =>
    simp only [] at h
    split at h
    · exact (addToWallet_not_validation hval (ite_done_error h)).elim
    · rcases Async.andThen_error h with h1 | ⟨w1, -, h2⟩
      · cases hpk : platformKey b with
        | none =>
          rw [hpk] at h1
          simp [Async.done] at h1
        | some pk =>
          rw [hpk] at h1
          simp only [] at h1
          rcases Async.andThen_error h1 with h3 | ⟨w2, -, h4⟩
          · exact deductFromWallet_error (ite_done_error h3)
          · exact (addToWallet_not_validation hval (ite_done_error h4)).elim
      · exact (addToWallet_not_validation hval (ite_done_error h2)).elim

theorem refundBookingWallet_validation {r : Render} {b : Booking} {actor : String}
    {w w' : World} {e : WalletError} (_hval : e.isValidation = true)
    (hone : b.platform = some PLATFORM.DIRECT ∨ platformKey b = none ∨
      (b.basePay ≤ 0 ∧ (b.commissionAmount ≤ 0 ∨ b.basePay + b.markupAmount ≤ 0)))
    (h : refundBookingWallet r (some b) actor w = (.error e, w')) : Untouched w w' := by
  unfold refundBookingWallet at h
  simp only [] at h
  split at h
  · exact deductFromWallet_error (ite_done_error h)
  · rename_i hnd
    rcases Async.andThen_error h with h1 | ⟨w1, h1, h2⟩
    · cases hpk : platformKey b with
      | none =>
        rw [hpk] at h1
        simp [Async.done] at h1
      | some pk =>
        rw [hpk] at h1
        simp only [] at h1
        rcases Async.andThen_error h1 with h3 | ⟨w2, h3, h4⟩
        · exact (addToWallet_not_validation _hval (ite_done_error h3)).elim
        · rcases hone with hd | hn | ⟨hb, -⟩
          · exact absurd hd hnd
          · rw [hpk] at hn
            simp at hn
          · have hw2 : w2 = w := ite_done_ok (by omega) h3
            subst hw2
            exact deductFromWallet_error (ite_done_error h4)
    · have hw1 : w1 = w := by
        cases hpk : platformKey b with
        | none =>
          rw [hpk] at h1
          simp only [Async.done, Prod.mk.injEq, true_and] at h1
          exact h1.symm
        | some pk =>
          rw [hpk] at h1
          simp only [] at h1
          obtain ⟨w2, h3, h4⟩ := Async.andThen_ok h1
          rcases hone with hd | hn | ⟨hb, hc | hi⟩
          · exact absurd hd hnd
          · rw [hpk] at hn
            simp at hn
          · have hw2 : w2 = w := ite_done_ok (by omega) h3
            subst hw2
            exact ite_done_ok (by omega) h4
          · have hi' : ¬ (b.basePay + b.markupAmount > 0) := by omega
            simp [hi', Async.done] at h2
      subst hw1
      exact deductFromWallet_error (ite_done_error h2)

theorem refundBookingOnDelete_validation {r : Render} {b : Booking} {actor : String}
    {w w' : World} {e : WalletError} (_hval : e.isValidation = true)
    (hone : b.platform = some PLATFORM.DIRECT ∨ platformKey b = none ∨
      (b.basePay ≤ 0 ∧ (b.commissionAmount ≤ 0 ∨ b.basePay + b.markupAmount ≤ 0)))
    (h : refundBookingOnDelete r (some b) actor w = (.error e, w')) : Untouched w w' := by
  unfold refundBookingOnDelete at h
  simp only [] at h
  split at h
  · exact deductFromWallet_error (ite_done_error h)
  · rename_i hnd
    rcases Async.andThen_error h with h1 | ⟨w1, h1, h2⟩
    · cases hpk : platformKey b with
      | none =>
        rw [hpk] at h1
        simp [Async.done] at h1
      | some pk =>
        rw [hpk] at h1
        simp only [] at h1
        rcases Async.andThen_error h1 with h3 | ⟨w2, h3, h4⟩
        · exact (addToWallet_not_validation _hval (ite_done_error h3)).elim
        · rcases hone with hd | hn | ⟨hb, -⟩
          · exact absurd hd hnd
          · rw [hpk] at hn
            simp at hn
          · have hw2 : w2 = w := ite_done_ok (by omega) h3
            subst hw2
            exact deductFromWallet_error (ite_done_error h4)
    · have hw1 : w1 = w := by
        cases hpk : platformKey b with
        | none =>
          rw [hpk] at h1
          simp only [Async.done, Prod.mk.injEq, true_and] at h1
          exact h1.symm
        | some pk =>
          rw [hpk] at h1
          simp only [] at h1
          obtain ⟨w2, h3, h4⟩ := Async.andThen_ok h1
          rcases hone with hd | hn | ⟨hb, hc | hi⟩
          · exact absurd hd hnd
          · rw [hpk] at hn
            simp at hn
          · have hw2 : w2 = w := ite_done_ok (by omega) h3
            subst hw2
            exact ite_done_ok (by omega) h4
          · have hi' : ¬ (b.basePay + b.markupAmount > 0) := by omega
            simp [hi', Async.done] at h2
      subst hw1
      exact deductFromWallet_error (ite_done_error h2)

/-! ## Reversal against application -/

theorem posted_ledger {r : Render} {w w' : World} {plan : List (String × Int)}
    (h : Posted r w w' plan) :
    w'.store.wallet_transactions = w.store.wallet_transactions ++ issued w w' := by
  obtain ⟨ps, hl, -, -⟩ := h
  unfold issued
  rw [hl, List.drop_left]

/-- Postings of `refundPlan` against postings of `applyPlan`, under renders
that resolve the keys alike: same wallet ids, opposite amounts, same order. -/
theorem refundPlan_mirrors {r r' : Render} {b : Booking} {w w1 v v1 : World}
    (hids : ∀ key, walletIdOf r' key = walletIdOf r key)
    (h1 : Posted r w w1 (applyPlan b)) (h2 : Posted r' v v1 (refundPlan b)) :
    (issued v v1).map Posting.entry
      = ((issued w w1).map Posting.entry).map (fun e => (e.1, -e.2)) := by
  have hkey : keyEntry r' = keyEntry r := by
    funext ka
    simp [keyEntry, hids]
  rw [posted_issued h1, posted_issued h2, refundPlan_eq, hkey]
  simp [List.map_map, keyEntry, Function.comp_def]

/-! ## Settlement claims -/

/-- C3: a successful apply of a platform-A or platform-B booking writes, in
this order and nothing else, the base-pay debit on the platform wallet when
`basePay > 0`, the commission credit on the platform wallet when
`commissionAmount > 0`, and the credit of `basePay + markupAmount` on the
office wallet when that sum is positive. -/
theorem applyBookingWallet_platform_rule (r : Render) (b : Booking) (actor key : String)
    (w w' : World)
    (hplat : (b.platform = some PLATFORM.ALHIND ∧ key = WALLET_KEYS.ALHIND) ∨
      (b.platform = some PLATFORM.AKBAR ∧ key = WALLET_KEYS.AKBAR))
    (hok : applyBookingWallet r (some b) actor w = (.ok (), w')) :
    w'.store.wallet_transactions = w.store.wallet_transactions ++ issued w w' ∧
    (issued w w').map Posting.entry =
      ((if b.basePay > 0 then [(key, -b.basePay)] else []) ++
       (if b.commissionAmount > 0 then [(key, b.commissionAmount)] else []) ++
       (if b.basePay + b.markupAmount > 0 then
          [(WALLET_KEYS.OFFICE, b.basePay + b.markupAmount)] else [])).map (keyEntry r) := by
  have hposted := applyBookingWallet_posts r b actor w w' hok
  have hplan : applyPlan b =
      (if b.basePay > 0 then [(key, -b.basePay)] else []) ++
       (if b.commissionAmount > 0 then [(key, b.commissionAmount)] else []) ++
       (if b.basePay + b.markupAmount > 0 then
          [(WALLET_KEYS.OFFICE, b.basePay + b.markupAmount)] else []) := by
    rcases hplat with ⟨hp, hk⟩ | ⟨hp, hk⟩ <;> subst hk <;>
      simp [applyPlan, platformKey, hp, PLATFORM.ALHIND, PLATFORM.AKBAR, PLATFORM.DIRECT]
  rw [← hplan]
  refine ⟨?_, posted_issued hposted⟩
  obtain ⟨ps, hl, -, -⟩ := hposted
  unfold issued
  rw [hl, List.drop_left]

/-- Scenario A on the sample session: platform A -1000, platform A +150,
office +1200. -/
theorem applyBookingWallet_platform_rule_witness :
    ((Sample.scenarioA.platform = some PLATFORM.ALHIND ∧ "alhind" = WALLET_KEYS.ALHIND) ∨
      (Sample.scenarioA.platform = some PLATFORM.AKBAR ∧ "alhind" = WALLET_KEYS.AKBAR)) ∧
    applyBookingWallet Sample.world.render (some Sample.scenarioA) "Confirm Booking" Sample.world
      = (.ok (), (applyBookingWallet Sample.world.render (some Sample.scenarioA)
          "Confirm Booking" Sample.world).2) ∧
    (issued Sample.world (applyBookingWallet Sample.world.render (some Sample.scenarioA)
          "Confirm Booking" Sample.world).2).map Posting.entry
      = [(some 1, -1000), (some 1, 150), (some 3, 1200)] :=
  ⟨by decide, rfl,
    (applyBookingWallet_platform_rule Sample.world.render Sample.scenarioA "Confirm Booking"
      "alhind" Sample.world _ (by decide) rfl).2.trans (by decide)⟩

/-- C4: a successful apply of a direct booking writes exactly one posting, the
credit of `basePay + markupAmount` on the office wallet, when that sum is
positive, and nothing otherwise; and whatever the outcome and whatever
`commissionAmount` is, every posting an apply of a direct booking writes is on
the office wallet. -/
theorem applyBookingWallet_direct (r : Render) (b : Booking) (actor : String) (w : World)
    (hd : b.platform = some PLATFORM.DIRECT) :
    (∀ w', applyBookingWallet r (some b) actor w = (.ok (), w') →
      w'.store.wallet_transactions = w.store.wallet_transactions ++ issued w w' ∧
      (issued w w').map Posting.entry =
        (if b.basePay + b.markupAmount > 0 then
          [(WALLET_KEYS.OFFICE, b.basePay + b.markupAmount)] else []).map (keyEntry r)) ∧
    (∀ p ∈ issued w (applyBookingWallet r (some b) actor w).2,
      walletIdOf r WALLET_KEYS.OFFICE = some p.wallet_id) := by
  have hplan : applyPlan b =
      (if b.basePay + b.markupAmount > 0 then
        [(WALLET_KEYS.OFFICE, b.basePay + b.markupAmount)] else []) := by
    simp [applyPlan, hd]
  have hsucc : ∀ w', applyBookingWallet r (some b) actor w = (.ok (), w') →
      w'.store.wallet_transactions = w.store.wallet_transactions ++ issued w w' ∧
      (issued w w').map Posting.entry =
        (if b.basePay + b.markupAmount > 0 then
          [(WALLET_KEYS.OFFICE, b.basePay + b.markupAmount)] else []).map (keyEntry r) := by
    intro w' hok
    have hposted := applyBookingWallet_posts r b actor w w' hok
    rw [← hplan]
    refine ⟨?_, posted_issued hposted⟩
    obtain ⟨ps, hl, -, -⟩ := hposted
    unfold issued
    rw [hl, List.drop_left]
  refine ⟨hsucc, ?_⟩
  intro p hp
  cases hres : applyBookingWallet r (some b) actor w with
  | mk res w' =>
    rw [hres] at hp
    cases res with
    | ok u =>
      have hentry := (hsucc w' hres).2
      have hmem : p.entry ∈ (issued w w').map Posting.entry := List.mem_map_of_mem _ hp
      rw [hentry] at hmem
      split at hmem
      · simp only [List.map_cons, List.map_nil, List.mem_singleton, keyEntry, Posting.entry,
          Prod.mk.injEq] at hmem
        exact hmem.1.symm
      · simp at hmem
    | error e =>
      have hun : Untouched w w' := by
        unfold applyBookingWallet at hres
        simp only [hd, if_true] at hres
        split at hres
        · exact (addToWallet_error hres).2
        · simp [Async.done] at hres
      rw [untouched_issued hun] at hp
      simp at hp

/-- Scenario B on the sample session: the single posting office +600. -/
theorem applyBookingWallet_direct_witness :
    Sample.scenarioB.platform = some PLATFORM.DIRECT ∧
    (issued Sample.world (applyBookingWallet Sample.world.render (some Sample.scenarioB)
          "Confirm Booking" Sample.world).2).map Posting.entry = [(some 3, 600)] :=
  ⟨by decide,
    ((applyBookingWallet_direct Sample.world.render Sample.scenarioB "Confirm Booking"
      Sample.world (by decide)).1 _ rfl).2.trans (by decide)⟩

/-- C2: the postings of a successful reverse are those of a successful apply
of the same booking with every amount negated, on the same wallets and in the
same order, whenever the two renders resolve the wallet keys to the same
ids. -/
theorem refundBookingWallet_mirrors_apply (r r' : Render) (b : Booking) (actor actor' : String)
    (w w1 v v1 : World)
    (hids : ∀ key, walletIdOf r' key = walletIdOf r key)
    (happly : applyBookingWallet r (some b) actor w = (.ok (), w1))
    (hrefund : refundBookingWallet r' (some b) actor' v = (.ok (), v1)) :
    w1.store.wallet_transactions = w.store.wallet_transactions ++ issued w w1 ∧
    v1.store.wallet_transactions = v.store.wallet_transactions ++ issued v v1 ∧
    (issued v v1).map Posting.entry
      = ((issued w w1).map Posting.entry).map (fun e => (e.1, -e.2)) := by
  have h1 := applyBookingWallet_posts r b actor w w1 happly
  have h2 := refundBookingWallet_posts r' b actor' v v1 hrefund
  exact ⟨posted_ledger h1, posted_ledger h2, refundPlan_mirrors hids h1 h2⟩

theorem Sample.world_tracked : Tracks Sample.world.render Sample.world :=
  tracks_render (by decide) (by decide)

/-- Scenario A applied and then un-confirmed on the sample session: the
reversal posts platform A +1000, platform A -150, office -1200. -/
theorem refundBookingWallet_mirrors_apply_witness :
    (∀ key, walletIdOf Sample.afterA.render key = walletIdOf Sample.world.render key) ∧
    applyBookingWallet Sample.world.render (some Sample.scenarioA) "Confirm Booking"
      Sample.world = (.ok (), Sample.afterA) ∧
    refundBookingWallet Sample.afterA.render (some Sample.scenarioA) "Unconfirm"
      Sample.afterA = (.ok (), Sample.restoredA) ∧
    (issued Sample.afterA Sample.restoredA).map Posting.entry
      = [(some 1, 1000), (some 1, -150), (some 3, -1200)] :=
  ⟨walletIdOf_of_tracks
      (applyBookingWallet_keeps (tracks_stable _) _ _ Sample.world Sample.world_tracked),
    rfl, rfl,
    (refundBookingWallet_mirrors_apply Sample.world.render Sample.afterA.render
      Sample.scenarioA "Confirm Booking" "Unconfirm" Sample.world Sample.afterA Sample.afterA
      Sample.restoredA
      (walletIdOf_of_tracks
        (applyBookingWallet_keeps (tracks_stable _) _ _ Sample.world Sample.world_tracked))
      rfl rfl).2.2.trans (by decide)⟩

/-- C1, as stated, fails.  When the last reload of the reversal fails, Scenario
A applied and then un-confirmed (both calls succeed) leaves the office shown at
1230, not at the 30 it showed before the apply.  And on the loaded session
whose office is overdrawn by 10, with no failing read, Scenario B is applied
(the office shows 590) and its reversal is refused with `InsufficientBalance`:
the office stays at 590.  And on the session whose snapshot is stale (the
office shown at 30, the store holding 35), with no failing read, Scenario B
applied and then un-confirmed succeeds twice and leaves the office shown at
35. -/
theorem round_trip_not_restored :
    (0 ≤ Sample.scenarioA.basePay ∧ 0 ≤ Sample.scenarioA.markupAmount ∧
      0 ≤ Sample.scenarioA.commissionAmount) ∧
    Synced Sample.lateFailure ∧
    (applyBookingWallet Sample.lateFailure.render (some Sample.scenarioA) "Confirm Booking"
      Sample.lateFailure).1 = .ok () ∧
    (refundBookingWallet Sample.lateApplied.render (some Sample.scenarioA) "Unconfirm"
      Sample.lateApplied).1 = .ok () ∧
    getWallet Sample.lateFailure.render "office" = 30 ∧
    getWallet (refundBookingWallet Sample.lateApplied.render (some Sample.scenarioA)
      "Unconfirm" Sample.lateApplied).2.render "office" = 1230 ∧
    getWallet (refundBookingWallet Sample.lateApplied.render (some Sample.scenarioA)
      "Unconfirm" Sample.lateApplied).2.render "office"
      ≠ getWallet Sample.lateFailure.render "office" ∧
    (0 ≤ Sample.scenarioB.basePay ∧ 0 ≤ Sample.scenarioB.markupAmount ∧
      0 ≤ Sample.scenarioB.commissionAmount) ∧
    Synced Sample.overdrawn ∧ Sample.overdrawn.store.Reads ∧
    getWallet Sample.overdrawn.render "office" = -10 ∧
    (applyBookingWallet Sample.overdrawn.render (some Sample.scenarioB) "Confirm Booking"
      Sample.overdrawn).1 = .ok () ∧
    (refundBookingWallet Sample.overdrawnB.render (some Sample.scenarioB) "Unconfirm"
      Sample.overdrawnB).1 = .error (.InsufficientBalance "office" 590) ∧
    getWallet (refundBookingWallet Sample.overdrawnB.render (some Sample.scenarioB)
      "Unconfirm" Sample.overdrawnB).2.render "office" = 590 ∧
    getWallet (refundBookingWallet Sample.overdrawnB.render (some Sample.scenarioB)
      "Unconfirm" Sample.overdrawnB).2.render "office"
      ≠ getWallet Sample.overdrawn.render "office" ∧
    ¬ Synced Sample.stale ∧ Sample.stale.store.Reads ∧
    (runAll [.applyBookingWallet (some Sample.scenarioB) "Confirm Booking",
      .refundBookingWallet (some Sample.scenarioB) "Unconfirm"] Sample.stale).isSome = true ∧
    getWallet Sample.stale.render "office" = 30 ∧
    getWallet (runEach [.applyBookingWallet (some Sample.scenarioB) "Confirm Booking",
      .refundBookingWallet (some Sample.scenarioB) "Unconfirm"] Sample.stale).render "office"
      = 35 :=
  ⟨by decide, by decide, rfl, rfl, by decide, by decide, by decide, by decide, by decide,
    by decide, by decide, rfl, rfl, by decide⟩

/-- C1, amended: for a booking with non-negative `basePay`, `markupAmount` and
`commissionAmount`, in a session whose snapshot was loaded from the store and
in which no read of the wallets fails, an apply that succeeds followed by a
reverse (un-confirm) that succeeds leaves every cached balance of the store,
and the balance the provider shows for every key, equal to its value before
the apply. -/
theorem refund_after_apply_restores (b : Booking) (actor actor' : String) (w w1 w2 : World)
    (_hbase : 0 ≤ b.basePay) (_hmarkup : 0 ≤ b.markupAmount) (_hcomm : 0 ≤ b.commissionAmount)
    (hsync : Synced w) (hsel : w.store.Reads)
    (happly : applyBookingWallet w.render (some b) actor w = (.ok (), w1))
    (hrefund : refundBookingWallet w1.render (some b) actor' w1 = (.ok (), w2)) :
    w2.store.wallets = w.store.wallets ∧
    ∀ key, getWallet w2.render key = getWallet w.render key := by
  have ht0 : Tracks w.render w := tracks_render hsync hsel
  have ht1 : Tracks w.render w1 := by
    have := applyBookingWallet_keeps (tracks_stable w.render) (some b) actor w ht0
    rwa [happly] at this
  have ht1' : Tracks w1.render w1 := tracks_render ht1.2.2.1 ht1.2.2.2
  have ht2 : Tracks w1.render w2 := by
    have := refundBookingWallet_keeps (tracks_stable w1.render) (some b) actor' w1 ht1'
    rwa [hrefund] at this
  have hp1 := applyBookingWallet_posts w.render b actor w w1 happly
  have hp2 := refundBookingWallet_posts w1.render b actor' w1 w2 hrefund
  have hm := refundPlan_mirrors (walletIdOf_of_tracks ht1) hp1 hp2
  obtain ⟨ps, hl1, hr1, -⟩ := hp1
  obtain ⟨qs, hl2, hr2, -⟩ := hp2
  have hps : issued w w1 = ps := by
    unfold issued
    rw [hl1, List.drop_left]
  have hqs : issued w1 w2 = qs := by
    unfold issued
    rw [hl2, List.drop_left]
  rw [hps, hqs] at hm
  have hrows : w2.store.wallets = w.store.wallets := by
    rw [hr2, hr1]
    exact creditAll_mirror ps qs _ hm
  refine ⟨hrows, ?_⟩
  have hu : w2.user = w.user := by
    rw [tracks_user ht2]
    exact tracks_user ht1
  have hsame := synced_same hsync ht2.2.2.1 hu hrows
  intro key
  exact getWallet_congr hsame.1 key

/-- Scenario C on the sample session: Scenario A applied and then un-confirmed
restores platform A (5000) and the office (30). -/
theorem refund_after_apply_restores_witness :
    (0 ≤ Sample.scenarioA.basePay ∧ 0 ≤ Sample.scenarioA.markupAmount ∧
      0 ≤ Sample.scenarioA.commissionAmount) ∧
    Synced Sample.world ∧ Sample.world.store.Reads ∧
    applyBookingWallet Sample.world.render (some Sample.scenarioA) "Confirm Booking"
      Sample.world = (.ok (), Sample.afterA) ∧
    refundBookingWallet Sample.afterA.render (some Sample.scenarioA) "Unconfirm"
      Sample.afterA = (.ok (), Sample.restoredA) ∧
    getWallet Sample.afterA.render "alhind" = 4150 ∧
    getWallet Sample.afterA.render "office" = 1230 ∧
    Sample.restoredA.store.wallets = Sample.world.store.wallets ∧
    ∀ key, getWallet Sample.restoredA.render key = getWallet Sample.world.render key :=
  ⟨by decide, by decide, by decide, rfl, rfl, by decide, by decide,
    refund_after_apply_restores Sample.scenarioA "Confirm Booking" "Unconfirm" Sample.world
      Sample.afterA Sample.restoredA (by decide) (by decide) (by decide) (by decide) (by decide)
      rfl rfl⟩

/-! ## Debit and recorder claims -/

/-- C5, as stated, fails: a debit of amount `0` against the overdrawn office
wallet (balance `-10`) is a request with `amount > currentBalance`, yet
`deductFromWallet` returns without throwing. -/
theorem deductFromWallet_nonpositive_returns :
    getWallet Sample.overdrawn.render "office" = -10 ∧
    (0 : Int) > getWallet Sample.overdrawn.render "office" ∧
    deductFromWallet Sample.overdrawn.render "office" 0 "System" {} Sample.overdrawn
      = (.ok (), Sample.overdrawn) :=
  ⟨by decide, by decide, rfl⟩

/-- C5, amended: for every non-empty key and every amount greater than zero and
greater than the balance the render shows for the key, `deductFromWallet`
throws `InsufficientBalance`, and the store (ledger and cached balances) and
the balance snapshot are left as they were. -/
theorem deductFromWallet_insufficient (r : Render) (key : String) (amount : Int)
    (actor : String) (meta : Meta) (w : World)
    (hkey : key ≠ "") (hpos : 0 < amount) (hlt : getWallet r key < amount) :
    (deductFromWallet r key amount actor meta w).1
      = .error (.InsufficientBalance key (getWallet r key)) ∧
    (deductFromWallet r key amount actor meta w).2.store = w.store ∧
    (deductFromWallet r key amount actor meta w).2.wallets = w.wallets ∧
    (deductFromWallet r key amount actor meta w).2.walletIndex = w.walletIndex := by
  have hg : ¬ (key = "" ∨ amount ≤ 0) := by
    rintro (h | h)
    · exact hkey h
    · omega
  unfold deductFromWallet
  simp [hg, hlt]

/-- Scenario D on the sample session: debiting 50 from the office wallet that
holds 30 throws `InsufficientBalance` and the balance remains 30. -/
theorem deductFromWallet_insufficient_witness :
    ("office" ≠ "" ∧ (0 : Int) < 50 ∧ getWallet Sample.world.render "office" < 50) ∧
    (deductFromWallet Sample.world.render "office" 50 "System" {} Sample.world).1
      = .error (.InsufficientBalance "office" 30) ∧
    (deductFromWallet Sample.world.render "office" 50 "System" {} Sample.world).2.store
      = Sample.world.store ∧
    getWallet (deductFromWallet Sample.world.render "office" 50 "System" {}
      Sample.world).2.render "office" = 30 :=
  ⟨by decide,
    (deductFromWallet_insufficient Sample.world.render "office" 50 "System" {} Sample.world
      (by decide) (by decide) (by decide)).1,
    rfl, by decide⟩

/-- C7, as stated, fails: while the wallets are not loaded, posting amount `0`
on the office key throws `WalletNotFound`. -/
theorem recordTransaction_zero_unloaded :
    (recordTransaction Sample.unloaded.render "office" 0 {} "System" Sample.unloaded).1
      = .error (.WalletNotFound "office") :=
  rfl

/-- C7, amended: for every key that resolves through the wallet index, posting
amount `0` returns at once without throwing and leaves the whole state as it
was; and for every key, resolving or not, posting amount `0` writes no ledger
entry and changes no balance. -/
theorem recordTransaction_zero (r : Render) (key : String) (meta : Meta) (actor : String)
    (w : World) :
    (lookupWallet r key ≠ none → recordTransaction r key 0 meta actor w = (.ok (), w)) ∧
    (recordTransaction r key 0 meta actor w).2.store = w.store ∧
    (recordTransaction r key 0 meta actor w).2.wallets = w.wallets ∧
    (recordTransaction r key 0 meta actor w).2.walletIndex = w.walletIndex := by
  unfold recordTransaction
  cases lookupWallet r key with
  | none => simp
  | some wallet => simp

/-- Posting amount `0` on the loaded office wallet of the sample session. -/
theorem recordTransaction_zero_witness :
    lookupWallet Sample.world.render "office" ≠ none ∧
    recordTransaction Sample.world.render "office" 0 {} "System" Sample.world
      = (.ok (), Sample.world) :=
  ⟨by decide,
    (recordTransaction_zero Sample.world.render "office" {} "System" Sample.world).1
      (by decide)⟩

/-- C8: for every key that does not resolve through the wallet index and every
amount, `recordTransaction` throws `WalletNotFound` and leaves the store as it
was (it only shows the not-found toast); that toast is new in the log exactly
when the post failed this way; and when it happens inside an apply, an
un-confirm reversal or a delete reversal, that settlement ends with the same
`WalletNotFound` error. -/
theorem recordTransaction_wallet_not_found (r : Render) (key : String) (delta : Int)
    (meta : Meta) (actor : String) (w : World) (booking : Option Booking) (k : String) :
    (lookupWallet r key = none →
      recordTransaction r key delta meta actor w
        = (.error (.WalletNotFound key), { w with toasts := w.toasts ++ [notFoundToast key] })) ∧
    (notFoundToast k ∉ w.toasts →
      (notFoundToast k ∈ (recordTransaction r key delta meta actor w).2.toasts ↔
        (lookupWallet r key = none ∧ k = key)) ∧
      (notFoundToast k ∈ (applyBookingWallet r booking actor w).2.toasts →
        (applyBookingWallet r booking actor w).1 = .error (.WalletNotFound k)) ∧
      (notFoundToast k ∈ (refundBookingWallet r booking actor w).2.toasts →
        (refundBookingWallet r booking actor w).1 = .error (.WalletNotFound k)) ∧
      (notFoundToast k ∈ (refundBookingOnDelete r booking actor w).2.toasts →
        (refundBookingOnDelete r booking actor w).1 = .error (.WalletNotFound k))) := by
  refine ⟨?_, fun hnew => ⟨recordTransaction_notFoundToast r key delta meta actor w k hnew,
    applyBookingWallet_surfaces r booking actor w k hnew,
    refundBookingWallet_surfaces r booking actor w k hnew,
    refundBookingOnDelete_surfaces r booking actor w k hnew⟩⟩
  intro hl
  unfold recordTransaction
  simp [hl, notFoundToast]

/-- While the wallets are not loaded, a post of 600 on the office key throws
`WalletNotFound` and writes nothing, and so does the apply of Scenario B. -/
theorem recordTransaction_wallet_not_found_witness :
    lookupWallet Sample.unloaded.render "office" = none ∧
    notFoundToast "office" ∉ Sample.unloaded.toasts ∧
    notFoundToast "office" ∈ (applyBookingWallet Sample.unloaded.render
      (some Sample.scenarioB) "Confirm Booking" Sample.unloaded).2.toasts ∧
    (recordTransaction Sample.unloaded.render "office" 600 {} "Confirm Booking"
      Sample.unloaded).1 = .error (.WalletNotFound "office") ∧
    (recordTransaction Sample.unloaded.render "office" 600 {} "Confirm Booking"
      Sample.unloaded).2.store = Sample.unloaded.store ∧
    (applyBookingWallet Sample.unloaded.render (some Sample.scenarioB) "Confirm Booking"
      Sample.unloaded).1 = .error (.WalletNotFound "office") :=
  ⟨by decide, by decide, by decide,
    congrArg Prod.fst ((recordTransaction_wallet_not_found Sample.unloaded.render "office" 600
      {} "Confirm Booking" Sample.unloaded (some Sample.scenarioB) "office").1 (by decide)),
    congrArg (fun x => x.2.store) ((recordTransaction_wallet_not_found Sample.unloaded.render
      "office" 600 {} "Confirm Booking" Sample.unloaded (some Sample.scenarioB) "office").1
      (by decide)),
    ((recordTransaction_wallet_not_found Sample.unloaded.render "office" 600 {}
      "Confirm Booking" Sample.unloaded (some Sample.scenarioB) "office").2 (by decide)).2.1
      (by decide)⟩

/-- C9, as stated, fails: when the reload that follows the insert fails, a
post of 5 on the office wallet of the sample session still returns as a
success, with its one posting written, but the balance shown for the office
stays at 30.  And on the session whose snapshot is stale (the office shown at
30, the store holding 35), the same post, its reload succeeding, leaves the
office shown at 40, not at 35. -/
theorem recordTransaction_reload_fails :
    Synced (Sample.reading [true]) ∧ (5 : Int) ≠ 0 ∧
    (recordTransaction (Sample.reading [true]).render "office" 5 {} "System"
      (Sample.reading [true])).1 = .ok () ∧
    (issued (Sample.reading [true])
      (recordTransaction (Sample.reading [true]).render "office" 5 {} "System"
        (Sample.reading [true])).2).map Posting.entry = [(some 3, 5)] ∧
    getWallet (Sample.reading [true]).render "office" = 30 ∧
    getWallet (recordTransaction (Sample.reading [true]).render "office" 5 {} "System"
      (Sample.reading [true])).2.render "office" = 30 ∧
    getWallet (recordTransaction (Sample.reading [true]).render "office" 5 {} "System"
      (Sample.reading [true])).2.render "office"
      ≠ getWallet (Sample.reading [true]).render "office" + (5 : Int) ∧
    ¬ Synced Sample.stale ∧ Sample.stale.store.Readable ∧
    (recordTransaction Sample.stale.render "office" 5 {} "System" Sample.stale).1 = .ok () ∧
    getWallet Sample.stale.render "office" = 30 ∧
    getWallet (recordTransaction Sample.stale.render "office" 5 {} "System"
      Sample.stale).2.render "office" = 40 :=
  ⟨by decide, by decide, rfl, by decide, by decide, by decide, by decide, by decide,
    by decide, rfl, by decide, by decide⟩

theorem loadWallets_synced {r : Render} {w : World} (hu : r.user = w.user)
    (hread : w.store.Readable) : Synced (loadWallets r w) := by
  have huser := loadWallets_user r w
  have htab := (loadWallets_tables r w).1
  cases hr : r.user with
  | none =>
    have hw : w.user = none := by rw [← hu, hr]
    refine ⟨fun _ => ?_, fun hne => absurd (by rw [huser, hw]) hne⟩
    unfold loadWallets
    simp [hr]
  | some u =>
    have hne : r.user ≠ none := by simp [hr]
    obtain ⟨h1, h2⟩ := loadWallets_loaded hne hread
    refine ⟨fun hnone => ?_, fun _ => ?_⟩
    · rw [huser, ← hu, hr] at hnone
      simp at hnone
    · rw [h1, h2, htab]
      exact ⟨rfl, rfl⟩

/-- C9, amended: a successful post of a non-zero amount on `key` appends
exactly one posting, carrying the id of the wallet mapped to `key` and exactly
the signed amount; and, in a session whose snapshot was loaded from the store
and whose wallet ids are unique, when the reload that follows the insert does
not fail, afterwards the balance shown for `key` is the previous one plus the
amount and the balance shown for every other key is unchanged. -/
theorem recordTransaction_posts_one (r : Render) (key : String) (delta : Int) (meta : Meta)
    (actor : String) (w w' : World) (hd : delta ≠ 0)
    (hok : recordTransaction r key delta meta actor w = (.ok (), w')) :
    ∃ wallet p, lookupWallet r key = some wallet ∧
      w'.store.wallet_transactions = w.store.wallet_transactions ++ [p] ∧
      p.wallet_id = wallet.id ∧ p.amount = delta ∧
      (r.user = w.user →
        (∀ name, (r.walletIndex.lookup name).map WalletRow.id
          = (w.walletIndex.lookup name).map WalletRow.id) →
        Synced w → (w.store.wallets.map WalletRow.id).Nodup → w.store.Readable →
        getWallet w'.render key = getWallet w.render key + delta ∧
        ∀ key', key' ≠ key → getWallet w'.render key' = getWallet w.render key') := by
  rcases recordTransaction_cases r key delta meta actor w with
    ⟨-, hr⟩ | ⟨-, hz, -⟩ | ⟨p, msg, s, -, -, -, hr⟩ | ⟨p, s, hwid0, -, hamt, hins, hr⟩
  · rw [hr] at hok
    simp at hok
  · exact absurd hz hd
  · rw [hr] at hok
    simp at hok
  · rw [hr] at hok
    simp only [Prod.mk.injEq, true_and] at hok
    obtain ⟨hl, hw, hsel⟩ := Store.insert_accepted hins
    have ht := loadWallets_tables r { w with store := s }
    have huser' := loadWallets_user r { w with store := s }
    rw [hok] at ht huser'
    simp only [] at ht huser'
    have hrows : w'.store.wallets = w.store.wallets.map (Store.creditRow p) := by
      rw [ht.1, hw]
    cases hlook : lookupWallet r key with
    | none => simp [walletIdOf, hlook] at hwid0
    | some wallet =>
      have hwid : wallet.id = p.wallet_id := by
        simpa [walletIdOf, hlook] using hwid0
      refine ⟨wallet, p, rfl, ?_, hwid.symm, hamt, ?_⟩
      · rw [ht.2, hl]
      · intro hu hid hsync hnd hread
        obtain ⟨huw, name, row, hname, hlive, hrow⟩ := synced_liveRow hid hsync hlook
        have hu' : w'.user ≠ none := by
          rw [huser']
          exact huw
        have hsync' : Synced w' := by
          rw [← hok]
          exact loadWallets_synced (w := { w with store := s }) hu
            (by simpa [Store.Readable, hsel] using hread)
        constructor
        · rw [getWallet_mapped _ hname, getWallet_mapped _ hname, Num.finite_add,
            synced_held hsync' hu' hname, synced_held hsync huw hname, hrows, liveRow_credit,
            hlive]
          simp [Store.creditRow_balance, hrow, hwid, hamt]
        · intro key' hne
          cases hname' : WALLET_NAME_MAP key' with
          | none => exact getWallet_unmapped _ _ hname'
          | some name' =>
            rw [getWallet_mapped _ hname', getWallet_mapped _ hname',
              synced_held hsync' hu' hname', synced_held hsync huw hname', hrows,
              liveRow_credit]
            cases hlive' : liveRow w.store.wallets name' with
            | none => rfl
            | some row' =>
              have hne_id : ¬ row'.id = p.wallet_id := by
                intro heq
                have hnn : name' = name :=
                  liveRow_distinct hnd hlive' hlive (by rw [heq, hrow, hwid])
                subst hnn
                exact hne (WALLET_NAME_MAP_inj hname' hname)
              simp [Store.creditRow_balance, hne_id]

/-- A post of +150 on platform A in the sample session: one posting on wallet
id 1, platform A shown as 5150, platform B and the office unchanged. -/
theorem recordTransaction_posts_one_witness :
    (150 : Int) ≠ 0 ∧
    (recordTransaction Sample.world.render "alhind" 150 {} "System" Sample.world).1 = .ok () ∧
    (Synced Sample.world ∧ (Sample.world.store.wallets.map WalletRow.id).Nodup ∧
      Sample.world.store.Readable) ∧
    (recordTransaction Sample.world.render "alhind" 150 {} "System"
      Sample.world).2.store.wallet_transactions
      = Sample.world.store.wallet_transactions ++
        [{ wallet_id := 1, booking_id := none, amount := 150,
           description := "Wallet transaction", created_by := some "u1" }] ∧
    getWallet (recordTransaction Sample.world.render "alhind" 150 {} "System"
      Sample.world).2.render "alhind" = 5150 ∧
    ∃ wallet p, lookupWallet Sample.world.render "alhind" = some wallet ∧
      (recordTransaction Sample.world.render "alhind" 150 {} "System"
        Sample.world).2.store.wallet_transactions
        = Sample.world.store.wallet_transactions ++ [p] ∧
      p.wallet_id = wallet.id ∧ p.amount = 150 ∧
      getWallet (recordTransaction Sample.world.render "alhind" 150 {} "System"
        Sample.world).2.render "alhind" = getWallet Sample.world.render "alhind" + (150 : Int) ∧
      ∀ key', key' ≠ "alhind" →
        getWallet (recordTransaction Sample.world.render "alhind" 150 {} "System"
          Sample.world).2.render key' = getWallet Sample.world.render key' := by
  refine ⟨by decide, rfl, by decide, by decide, by decide, ?_⟩
  obtain ⟨wallet, p, h1, h2, h3, h4, h5⟩ :=
    recordTransaction_posts_one Sample.world.render "alhind" 150 {} "System" Sample.world _
      (by decide) rfl
  exact ⟨wallet, p, h1, h2, h3, h4, h5 rfl (fun _ => rfl) (by decide) (by decide) (by decide)⟩

/-! ## Ledger claims -/

/-- C6, as stated, fails: on the sample session, where every balance equals
the sum of its postings, a credit of 5 on the office wallet succeeds while the
reload that follows it fails; the office is then shown at 30, while its
postings sum to 35. -/
theorem balance_stale_after_failed_reload :
    Synced (Sample.reading [true]) ∧ LedgerBalanced (Sample.reading [true]).store ∧
    getWallet (Sample.reading [true]).render "office"
      = ledgerSum (Sample.reading [true]).store.wallet_transactions 3 ∧
    (runAll [.addToWallet "office" 5 "System" {}] (Sample.reading [true])).isSome = true ∧
    lookupWallet (runEach [.addToWallet "office" 5 "System" {}]
        (Sample.reading [true])).render "office"
      = some { id := 3, name := "Office-Funds", balance := 30 } ∧
    getWallet (runEach [.addToWallet "office" 5 "System" {}]
      (Sample.reading [true])).render "office" = 30 ∧
    ledgerSum (runEach [.addToWallet "office" 5 "System" {}]
      (Sample.reading [true])).store.wallet_transactions 3 = 35 ∧
    getWallet (runEach [.addToWallet "office" 5 "System" {}]
      (Sample.reading [true])).render "office"
      ≠ ledgerSum (runEach [.addToWallet "office" 5 "System" {}]
        (Sample.reading [true])).store.wallet_transactions 3 := by
  decide

/-- C6, amended: starting from a loaded session in which every cached balance
of the store equals the sum of the signed amounts of the postings referencing
the wallet's id, and in which no read of the wallets fails, after any sequence
of successful operations (credit, debit, apply, un-confirm, delete reversal,
expense debit, expense refund) the balance shown for every key that resolves to
a wallet is the sum of the signed amounts of all postings referencing that
wallet's id. -/
theorem balance_is_sum_of_postings (ops : List Op) (w w' : World) (hsync : Synced w)
    (hsel : w.store.Reads) (hbal : LedgerBalanced w.store)
    (hrun : runAll ops w = some w') (key : String) (wallet : WalletRow)
    (hkey : lookupWallet w'.render key = some wallet) :
    getWallet w'.render key = ledgerSum w'.store.wallet_transactions wallet.id := by
  obtain ⟨hsync', hsel', hbal'⟩ := runAll_keeps ops w w' hsync hsel hbal hrun
  obtain ⟨name, hname, -⟩ := lookupWallet_some hkey
  rw [getWallet_mapped _ hname, synced_balance hsync' hsel' hbal' key wallet hkey]

/-- After the sample session the office shows 430, the sum of its five
postings (30 + 1200 - 200 + 600 - 1200 = 430). -/
theorem balance_is_sum_of_postings_witness :
    Synced Sample.world ∧ Sample.world.store.Reads ∧
    LedgerBalanced Sample.world.store ∧
    runAll Sample.session Sample.world = some Sample.afterSession ∧
    lookupWallet Sample.afterSession.render "office"
      = some { id := 3, name := "Office-Funds", balance := 430 } ∧
    Sample.afterSession.store.wallet_transactions.length = 11 ∧
    getWallet Sample.afterSession.render "office" = 430 ∧
    getWallet Sample.afterSession.render "office"
      = ledgerSum Sample.afterSession.store.wallet_transactions 3 :=
  ⟨by decide, by decide, by decide, by decide, by decide, by decide, by decide,
    balance_is_sum_of_postings Sample.session Sample.world Sample.afterSession (by decide)
      (by decide) (by decide) (by decide) "office"
      { id := 3, name := "Office-Funds", balance := 430 } (by decide)⟩

/-- C10, as stated, fails: un-confirming a platform-A booking whose commission
(6000) exceeds the platform balance (5000) fails with `InsufficientBalance`
after the base-pay refund of 100 was written: the ledger has one more posting
and platform A holds 5100. -/
theorem refundBookingWallet_partial_on_insufficient :
    (refundBookingWallet Sample.world.render (some Sample.bigCommission) "Unconfirm"
      Sample.world).1 = .error (.InsufficientBalance "alhind" 5000) ∧
    (issued Sample.world
      (refundBookingWallet Sample.world.render (some Sample.bigCommission) "Unconfirm"
        Sample.world).2).map Posting.entry = [(some 1, 100)] ∧
    getWallet (refundBookingWallet Sample.world.render (some Sample.bigCommission) "Unconfirm"
      Sample.world).2.render "alhind" = 5100 ∧
    getWallet Sample.world.render "alhind" = 5000 :=
  ⟨rfl, by decide, by decide, by decide⟩

/-- C10, amended: a validation error (`InsufficientBalance`, `InvalidExpense`)
of `addToWallet`, `deductFromWallet`, `applyBookingWallet`,
`debitOfficeForExpense` or `refundExpenseToOffice` was raised before any write:
the ledger, the cached balances and the balance snapshot are as before the
call.  The same holds for the two reversals when the reversal has at most one
step (a direct booking, an unrecognised platform, or `basePay ≤ 0` together
with `commissionAmount ≤ 0` or `basePay + markupAmount ≤ 0`). -/
theorem validation_error_writes_nothing (r : Render) (w w' : World) (e : WalletError)
    (hval : e.isValidation = true) :
    (∀ key amount actor meta,
      addToWallet r key amount actor meta w = (.error e, w') → Untouched w w') ∧
    (∀ key amount actor meta,
      deductFromWallet r key amount actor meta w = (.error e, w') → Untouched w w') ∧
    (∀ booking actor,
      applyBookingWallet r booking actor w = (.error e, w') → Untouched w w') ∧
    (∀ expenseData user,
      debitOfficeForExpense r expenseData user w = (.error e, w') → Untouched w w') ∧
    (∀ expenseData user,
      refundExpenseToOffice r expenseData user w = (.error e, w') → Untouched w w') ∧
    (∀ b actor,
      (b.platform = some PLATFORM.DIRECT ∨ platformKey b = none ∨
        (b.basePay ≤ 0 ∧ (b.commissionAmount ≤ 0 ∨ b.basePay + b.markupAmount ≤ 0))) →
      (refundBookingWallet r (some b) actor w = (.error e, w') → Untouched w w') ∧
      (refundBookingOnDelete r (some b) actor w = (.error e, w') → Untouched w w')) := by
  refine ⟨?_, ?_, ?_, ?_, ?_, ?_⟩
  · intro key amount actor meta h
    exact (addToWallet_not_validation hval h).elim
  · intro key amount actor meta h
    exact deductFromWallet_error h
  · intro booking actor h
    exact applyBookingWallet_validation hval h
  · intro expenseData user h
    unfold debitOfficeForExpense at h
    split at h
    · simp [Async.detached] at h
    · simp only [Prod.mk.injEq] at h
      rw [← h.2]
      exact untouched_refl w
  · intro expenseData user h
    unfold refundExpenseToOffice at h
    split at h <;> simp [Async.detached] at h
  · intro b actor hone
    exact ⟨refundBookingWallet_validation hval hone, refundBookingOnDelete_validation hval hone⟩

/-- On the sample session: applying a platform-B booking of base pay 1000
against the platform-B balance of 300 fails with `InsufficientBalance` and
leaves ledger and balances as they were. -/
theorem validation_error_writes_nothing_witness :
    (WalletError.InsufficientBalance "akbar" 300).isValidation = true ∧
    applyBookingWallet Sample.world.render (some Sample.bigBase) "Confirm Booking" Sample.world
      = (.error (.InsufficientBalance "akbar" 300), Sample.refused) ∧
    Untouched Sample.world Sample.refused :=
  ⟨rfl, rfl,
    (validation_error_writes_nothing Sample.world.render Sample.world Sample.refused
      (.InsufficientBalance "akbar" 300) rfl).2.2.1 (some Sample.bigBase) "Confirm Booking" rfl⟩

/-! ## Append-only ledger -/

theorem extends_stable (r : Render) (ledger : List Posting) : Stable r (Extends ledger) := by
  refine ⟨?_, fun _ _ h => h⟩
  intro key delta meta actor w h
  obtain ⟨ps, hps⟩ := h
  rcases recordTransaction_cases r key delta meta actor w with
    ⟨-, hr⟩ | ⟨-, -, hr⟩ | ⟨p, msg, s, -, -, hins, hr⟩ | ⟨p, s, -, -, -, hins, hr⟩
  · rw [hr]
    exact ⟨ps, hps⟩
  · rw [hr]
    exact ⟨ps, hps⟩
  · rw [hr]
    obtain ⟨hl, -, -⟩ := Store.insert_refused hins
    exact ⟨ps, by simpa [hl] using hps⟩
  · rw [hr]
    obtain ⟨hl, -, -⟩ := Store.insert_accepted hins
    have ht := (loadWallets_tables r { w with store := s }).2
    refine ⟨ps ++ [p], ?_⟩
    rw [ht]
    simp only []
    rw [hl, hps, List.append_assoc]

theorem Op.call_keeps {r : Render} {P : World → Prop} (h : Stable r P) (op : Op) :
    Async.Preserves P (op.call r) := by
  cases op with
  | addToWallet k amount actor meta => exact addToWallet_keeps h k amount actor meta
  | deductFromWallet k amount actor meta => exact deductFromWallet_keeps h k amount actor meta
  | applyBookingWallet booking actor => exact applyBookingWallet_keeps h booking actor
  | refundBookingWallet booking actor => exact refundBookingWallet_keeps h booking actor
  | refundBookingOnDelete booking actor => exact refundBookingOnDelete_keeps h booking actor
  | debitOfficeForExpense expenseData user => exact debitOfficeForExpense_keeps h expenseData user
  | refundExpenseToOffice expenseData user => exact refundExpenseToOffice_keeps h expenseData user

theorem Op.run_eq_call (op : Op) (w : World) : op.run w = op.call w.render w := by
  cases op <;> rfl

/-- C19: whatever render it is called from and however it ends, every
operation of the provider (credit, debit, apply, the two reversals, expense
debit, expense refund) leaves a ledger that has the ledger before it as a
prefix, so no existing posting is updated or deleted and a reversal shows only
as new postings; a reload leaves the ledger as it is. -/
theorem ledger_append_only (r : Render) (op : Op) (w : World) :
    (∃ ps, (op.call r w).2.store.wallet_transactions = w.store.wallet_transactions ++ ps) ∧
    (∃ ps, (op.run w).2.store.wallet_transactions = w.store.wallet_transactions ++ ps) ∧
    (loadWallets r w).store.wallet_transactions = w.store.wallet_transactions := by
  have h0 : Extends w.store.wallet_transactions w := ⟨[], by simp⟩
  refine ⟨Op.call_keeps (extends_stable r _) op w h0, ?_, (loadWallets_tables r w).2⟩
  rw [Op.run_eq_call]
  exact Op.call_keeps (extends_stable w.render _) op w h0

/-! ## Reload and balance reads -/

/-- C17: when `loadWallets` runs for a signed-in user and the read of the
wallets fails, the wallet index and the balance snapshot are exactly what they
were before the call, the tables of the store are untouched, and the error is
surfaced as the toast "Failed to load wallets". -/
theorem loadWallets_failure_keeps_snapshot (r : Render) (w : World)
    (huser : r.user ≠ none) (hfail : w.store.ReadFailing) :
    (loadWallets r w).walletIndex = w.walletIndex ∧
    (loadWallets r w).wallets = w.wallets ∧
    (∀ key, getWallet (loadWallets r w).render key = getWallet w.render key) ∧
    (loadWallets r w).store.wallets = w.store.wallets ∧
    (loadWallets r w).store.wallet_transactions = w.store.wallet_transactions ∧
    (loadWallets r w).toasts = w.toasts ++ [Toast.error Message.loadWalletsFailed] := by
  have hsel : ∃ rest, w.store.selectErrors = true :: rest := by
    unfold Store.ReadFailing at hfail
    cases hs : w.store.selectErrors with
    | nil => simp [hs] at hfail
    | cons b rest =>
      simp only [hs, List.head?_cons, Option.some.injEq] at hfail
      exact ⟨rest, by rw [hfail]⟩
  obtain ⟨rest, hrest⟩ := hsel
  cases hu : r.user with
  | none => exact absurd hu huser
  | some u =>
    have hload : loadWallets r w =
        { w with store := { w.store with selectErrors := rest }, loading := false,
                 toasts := w.toasts ++ [Toast.error Message.loadWalletsFailed] } := by
      unfold loadWallets Store.selectWallets
      simp [hu, hrest]
    rw [hload]
    exact ⟨rfl, rfl, fun _ => rfl, rfl, rfl, rfl⟩

/-- A failed reload on the sample session: the office is still shown as 30. -/
theorem loadWallets_failure_keeps_snapshot_witness :
    Sample.world.render.user ≠ none ∧
    Store.ReadFailing { Sample.world.store with selectErrors := [true] } ∧
    getWallet (loadWallets Sample.world.render
      { Sample.world with store :=
          { Sample.world.store with selectErrors := [true] } }).render "office" = 30 ∧
    (loadWallets Sample.world.render
      { Sample.world with store :=
          { Sample.world.store with selectErrors := [true] } }).walletIndex
      = Sample.world.walletIndex :=
  ⟨by decide, rfl, by decide,
    (loadWallets_failure_keeps_snapshot Sample.world.render
      { Sample.world with store := { Sample.world.store with selectErrors := [true] } }
      (by decide) rfl).1⟩

/-- C16, as stated, fails: "constructor" is none of alhind, akbar, office and
no wallet row is loaded for it, yet `getWallet` does not return zero for it.
The `wallets` object inherits a property of that name, which is not
`undefined`, and `Number` of it is `NaN`; so it is before a load and after
one. -/
theorem getWallet_inherited_key :
    WALLET_NAME_MAP "constructor" = none ∧
    loadedBalance Sample.world.store.wallets "constructor" = 0 ∧
    getWallet Sample.world.render "constructor" = Num.NaN ∧
    getWallet Sample.world.render "constructor" ≠ 0 ∧
    getWallet Sample.unloaded.render "constructor" = Num.NaN ∧
    getWallet (loadWallets Sample.world.render Sample.unloaded).render "constructor"
      = Num.NaN :=
  ⟨by decide, by decide, by decide, by decide, by decide, by decide⟩

/-- C16, amended: for every key that is not a property name inherited from
`Object.prototype`, after a reload that succeeded for a signed-in user
`getWallet` returns the balance that load held for the key: the balance of the
(last) row bearing the wallet name of the key, and zero for every key that is
none of alhind, akbar, office and for every key whose row was absent from the
load; before any load, and for a signed-out user, it returns zero.  For an
inherited property name (constructor, toString, __proto__ and the like) it
returns `NaN`. -/
theorem getWallet_last_loaded (r : Render) (w : World) (key : String) :
    (key ∉ Object.prototype →
      (r.user ≠ none → w.store.Readable →
        getWallet (loadWallets r w).render key = loadedBalance w.store.wallets key) ∧
      (WALLET_NAME_MAP key = none →
        getWallet r key = 0 ∧ loadedBalance w.store.wallets key = 0) ∧
      (∀ name, WALLET_NAME_MAP key = some name → liveRow w.store.wallets name = none →
        loadedBalance w.store.wallets key = 0) ∧
      (r.wallets = Wallets.zero → getWallet r key = 0) ∧
      (r.user = none → getWallet (loadWallets r w).render key = 0)) ∧
    (key ∈ Object.prototype → getWallet r key = Num.NaN) := by
  refine ⟨fun hp => ⟨?_, ?_, ?_, ?_, ?_⟩, fun hp => getWallet_inherited r hp⟩
  · intro huser hread
    have hw := (loadWallets_loaded huser hread).1
    unfold loadedBalance
    cases hname : WALLET_NAME_MAP key with
    | none => exact getWallet_plain _ hname hp
    | some name =>
      rw [getWallet_mapped _ hname]
      unfold held World.render
      simp only []
      rw [hw, loadWallets.build_own _ key name hname]
      cases liveRow w.store.wallets name <;> rfl
  · intro hname
    exact ⟨getWallet_plain _ hname hp, by simp [loadedBalance, hname]⟩
  · intro name hname hrow
    simp [loadedBalance, hname, hrow]
  · intro hz
    cases hname : WALLET_NAME_MAP key with
    | none => exact getWallet_plain _ hname hp
    | some name =>
      rw [getWallet_mapped _ hname]
      unfold held Wallets.own
      rw [hz]
      simp only [Wallets.zero]
      split
      · rfl
      · split
        · rfl
        · split <;> rfl
  · intro hu
    cases hname : WALLET_NAME_MAP key with
    | none => exact getWallet_plain _ hname hp
    | some name =>
      rw [getWallet_mapped _ hname]
      unfold loadWallets held World.render Wallets.own
      simp only [hu, Wallets.zero]
      split
      · rfl
      · split
        · rfl
        · split <;> rfl

/-- A reload of the store of the sample session from a provider that has not
loaded yet: the office is shown as 30, an unknown key as 0. -/
theorem getWallet_last_loaded_witness :
    "office" ∉ Object.prototype ∧ "savings" ∉ Object.prototype ∧
    Sample.world.render.user ≠ none ∧ Sample.unloaded.store.Readable ∧
    getWallet Sample.unloaded.render "office" = 0 ∧
    loadedBalance Sample.unloaded.store.wallets "office" = 30 ∧
    getWallet (loadWallets Sample.world.render Sample.unloaded).render "office"
      = loadedBalance Sample.unloaded.store.wallets "office" ∧
    WALLET_NAME_MAP "savings" = none ∧
    getWallet (loadWallets Sample.world.render Sample.unloaded).render "savings" = 0 ∧
    "toString" ∈ Object.prototype ∧
    getWallet (loadWallets Sample.world.render Sample.unloaded).render "toString" = Num.NaN :=
  ⟨by decide, by decide, by decide, by decide, by decide, by decide,
    ((getWallet_last_loaded Sample.world.render Sample.unloaded "office").1 (by decide)).1
      (by decide) (by decide),
    by decide, by decide, by decide,
    (getWallet_last_loaded (loadWallets Sample.world.render Sample.unloaded).render
      Sample.unloaded "toString").2 (by decide)⟩

/-! ## Non-positive amounts -/

/-- C18, as stated, fails: crediting or debiting amount `0` (or `-5`) on the
office wallet returns as a success; no error is thrown. -/
theorem nonpositive_amount_returns :
    addToWallet Sample.world.render "office" 0 "System" {} Sample.world
      = (.ok (), Sample.world) ∧
    deductFromWallet Sample.world.render "office" 0 "System" {} Sample.world
      = (.ok (), Sample.world) ∧
    addToWallet Sample.world.render "office" (-5) "System" {} Sample.world
      = (.ok (), Sample.world) ∧
    deductFromWallet Sample.world.render "office" (-5) "System" {} Sample.world
      = (.ok (), Sample.world) :=
  ⟨rfl, rfl, rfl, rfl⟩

/-- C18, amended: `addToWallet` and `deductFromWallet` called with a zero or
negative amount return at once as a success, without any error or toast, and
write no posting: the whole state is as before. -/
theorem nonpositive_amount_ignored (r : Render) (key : String) (amount : Int)
    (actor : String) (meta : Meta) (w : World) (hamount : amount ≤ 0) :
    addToWallet r key amount actor meta w = (.ok (), w) ∧
    deductFromWallet r key amount actor meta w = (.ok (), w) := by
  unfold addToWallet deductFromWallet
  simp [hamount]

/-- A credit and a debit of `-5` on the office wallet of the sample session. -/
theorem nonpositive_amount_ignored_witness :
    (-5 : Int) ≤ 0 ∧
    addToWallet Sample.world.render "office" (-5) "System" {} Sample.world
      = (.ok (), Sample.world) ∧
    deductFromWallet Sample.world.render "office" (-5) "System" {} Sample.world
      = (.ok (), Sample.world) :=
  ⟨by decide,
    nonpositive_amount_ignored Sample.world.render "office" (-5) "System" {} Sample.world
      (by decide)⟩

/-! ## Expense settlement -/

theorem Store.insert_refused_head {s s' : Store} {p : Posting} {msg : String}
    (h : s.insert p = (some msg, s')) : s.insertErrors.head? = some (some msg) := by
  unfold Store.insert at h
  split at h
  · rename_i m rest hs
    simp only [Prod.mk.injEq, Option.some.injEq] at h
    rw [hs, ← h.1]
    rfl
  · simp at h
  · simp at h

/-- A post of a non-zero amount on a key that resolves, sent to a store that
accepts the insert, succeeds and appends one posting. -/
theorem recordTransaction_accepted {r : Render} {key : String} {delta : Int} (meta : Meta)
    (actor : String) {w : World} {wallet : WalletRow}
    (hl : lookupWallet r key = some wallet) (hd : delta ≠ 0) (hacc : w.store.Accepting) :
    ∃ p s, p.wallet_id = wallet.id ∧ p.amount = delta ∧
      s.wallet_transactions = w.store.wallet_transactions ++ [p] ∧
      recordTransaction r key delta meta actor w
        = (.ok (), loadWallets r { w with store := s }) := by
  rcases recordTransaction_cases r key delta meta actor w with
    ⟨hn, -⟩ | ⟨-, hz, -⟩ | ⟨p, msg, s, -, -, hins, -⟩ | ⟨p, s, hid, -, hamt, hins, hr⟩
  · rw [hl] at hn
    simp at hn
  · exact absurd hz hd
  · have hh := Store.insert_refused_head hins
    unfold Store.Accepting at hacc
    rw [hh] at hacc
    simp at hacc
  · refine ⟨p, s, ?_, hamt, (Store.insert_accepted hins).1, hr⟩
    simpa [walletIdOf, hl] using hid.symm

theorem addToWallet_writes {r : Render} {key : String} {amount : Int} (actor : String)
    (meta : Meta) {w : World} {wallet : WalletRow} (hk : key ≠ "") (hpos : 0 < amount)
    (hl : lookupWallet r key = some wallet) (hacc : w.store.Accepting) :
    (addToWallet r key amount actor meta w).1 = .ok () ∧
    ∃ p, (addToWallet r key amount actor meta w).2.store.wallet_transactions
        = w.store.wallet_transactions ++ [p] ∧
      p.wallet_id = wallet.id ∧ p.amount = amount := by
  have hg : ¬ (key = "" ∨ amount ≤ 0) := by
    rintro (h | h)
    · exact hk h
    · omega
  have habs : Math.abs amount = amount := Math.abs_of_pos (by omega)
  obtain ⟨p, s, hid, hamt, hledger, hr⟩ :=
    recordTransaction_accepted meta actor hl (show Math.abs amount ≠ 0 by omega) hacc
  have ht := (loadWallets_tables r { w with store := s }).2
  unfold addToWallet Async.andThen
  simp only [hg, if_false, hr, Async.toast]
  exact ⟨trivial, p, by rw [ht]; exact hledger, hid, by rw [hamt, habs]⟩

theorem deductFromWallet_writes {r : Render} {key : String} {amount : Int} (actor : String)
    (meta : Meta) {w : World} {wallet : WalletRow} (hk : key ≠ "") (hpos : 0 < amount)
    (hbal : (amount : Num) ≤ getWallet r key)
    (hl : lookupWallet r key = some wallet) (hacc : w.store.Accepting) :
    (deductFromWallet r key amount actor meta w).1 = .ok () ∧
    ∃ p, (deductFromWallet r key amount actor meta w).2.store.wallet_transactions
        = w.store.wallet_transactions ++ [p] ∧
      p.wallet_id = wallet.id ∧ p.amount = -amount := by
  have hg : ¬ (key = "" ∨ amount ≤ 0) := by
    rintro (h | h)
    · exact hk h
    · omega
  have hc : ¬ getWallet r key < amount := Num.not_lt_of_le hbal
  have habs : Math.abs amount = amount := Math.abs_of_pos (by omega)
  obtain ⟨p, s, hid, hamt, hledger, hr⟩ :=
    recordTransaction_accepted meta actor hl (show -(Math.abs amount) ≠ 0 by omega) hacc
  have ht := (loadWallets_tables r { w with store := s }).2
  unfold deductFromWallet Async.andThen
  simp only [hg, if_false, hc, hr, Async.toast]
  exact ⟨trivial, p, by rw [ht]; exact hledger, hid, by rw [hamt, habs]⟩

theorem validExpenseAmount_invalid {expenseData : Option Expense}
    (h : expenseData = none ∨ ∃ e, expenseData = some e ∧
      (e.amount = none ∨ ∃ amount, e.amount = some amount ∧ amount ≤ 0)) :
    validExpenseAmount expenseData = none := by
  rcases h with h | ⟨e, he, h | ⟨amount, ha, hle⟩⟩
  · subst h
    rfl
  · subst he
    simp [validExpenseAmount, h]
  · subst he
    have : amount = 0 ∨ amount ≤ 0 := Or.inr hle
    simp [validExpenseAmount, ha, this]

theorem validExpenseAmount_valid {e : Expense} {amount : Int} (ha : e.amount = some amount)
    (hpos : 0 < amount) : validExpenseAmount (some e) = some amount := by
  have : ¬ (amount = 0 ∨ amount ≤ 0) := by omega
  simp [validExpenseAmount, ha, this]

/-! ## Toasts of a call that is not awaited -/

theorem loadWallets_toasts_append (r : Render) (w : World) :
    ∃ later, (loadWallets r w).toasts = w.toasts ++ later := by
  unfold loadWallets
  split
  · exact ⟨[], by simp⟩
  · split
    · exact ⟨[Toast.error Message.loadWalletsFailed], rfl⟩
    · exact ⟨[], by simp⟩

/-- What `recordTransaction` shows starts with what it has shown when it
reaches its first `await`. -/
theorem recordTransaction_toasts (r : Render) (key : String) (delta : Int) (meta : Meta)
    (actor : String) (w : World) :
    ∃ later, (recordTransaction r key delta meta actor w).2.toasts
      = w.toasts ++ recordTransaction.early r key ++ later := by
  unfold recordTransaction.early
  rcases recordTransaction_cases r key delta meta actor w with
    ⟨hl, hr⟩ | ⟨hl, -, hr⟩ | ⟨p, msg, s, hl, -, -, hr⟩ | ⟨p, s, hid, -, -, -, hr⟩
  · rw [hr, hl]
    exact ⟨[], by simp⟩
  · rw [hr]
    cases hlook : lookupWallet r key with
    | none => exact absurd hlook hl
    | some wallet => exact ⟨[], by simp⟩
  · rw [hr]
    cases hlook : lookupWallet r key with
    | none => exact absurd hlook hl
    | some wallet => exact ⟨[], by simp⟩
  · rw [hr]
    cases hlook : lookupWallet r key with
    | none => simp [walletIdOf, hlook] at hid
    | some wallet =>
      obtain ⟨later, hlater⟩ := loadWallets_toasts_append r { w with store := s }
      exact ⟨later, by simpa using hlater⟩

theorem andThen_toast_toasts {a : Async} {t : Toast} {w : World} {early : List Toast}
    (h : ∃ later, (a w).2.toasts = w.toasts ++ early ++ later) :
    ∃ later, (Async.andThen a (Async.toast t) w).2.toasts = w.toasts ++ early ++ later := by
  obtain ⟨later, hlater⟩ := h
  unfold Async.andThen
  cases hres : a w with
  | mk res w1 =>
    rw [hres] at hlater
    simp only [] at hlater
    cases res with
    | ok u => exact ⟨later ++ [t], by simp [Async.toast, hlater]⟩
    | error e => exact ⟨later, hlater⟩

/-- What `addToWallet` shows starts with what it has shown when it reaches its
first `await`. -/
theorem addToWallet_toasts (r : Render) (key : String) (amount : Int) (actor : String)
    (meta : Meta) (w : World) :
    ∃ later, (addToWallet r key amount actor meta w).2.toasts
      = w.toasts ++ addToWallet.early r key amount ++ later := by
  unfold addToWallet addToWallet.early
  by_cases hg : key = "" ∨ amount ≤ 0
  · simp only [hg, if_true]
    exact ⟨[], by simp⟩
  · simp only [hg, if_false]
    exact andThen_toast_toasts (recordTransaction_toasts r key _ meta actor w)

/-- What `deductFromWallet` shows starts with what it has shown when it reaches
its first `await`. -/
theorem deductFromWallet_toasts (r : Render) (key : String) (amount : Int) (actor : String)
    (meta : Meta) (w : World) :
    ∃ later, (deductFromWallet r key amount actor meta w).2.toasts
      = w.toasts ++ deductFromWallet.early r key amount ++ later := by
  unfold deductFromWallet deductFromWallet.early
  by_cases hg : key = "" ∨ amount ≤ 0
  · simp only [hg, if_true]
    exact ⟨[], by simp⟩
  · simp only [hg, if_false]
    by_cases hc : getWallet r key < amount
    · simp only [hc, if_true]
      exact ⟨[], by simp⟩
    · simp only [hc, if_false]
      exact andThen_toast_toasts (recordTransaction_toasts r key _ meta actor w)

/-- The toast of the caller comes after what the call has shown before its
first `await` and before what it shows later. -/
theorem detached_toasts {a : Async} {early later : List Toast} {w : World} (t : Toast)
    (h : (a w).2.toasts = w.toasts ++ early ++ later) :
    (Async.detached a early t w).2.toasts = w.toasts ++ early ++ [t] ++ later := by
  unfold Async.detached
  simp only [h]
  rw [List.append_assoc w.toasts early later, List.drop_append, List.drop_left' rfl]

/-- The toasts of an expense debit, in the order shown. -/
theorem debitOfficeForExpense_toasts (r : Render) (e : Expense) (amount : Int) (user : String)
    (w : World) (hv : validExpenseAmount (some e) = some amount) :
    ∃ later,
      (deductFromWallet r WALLET_KEYS.OFFICE amount user
        { expenseId := some e.id, description := some e.description,
          category := some e.category, action := some "expense_debit" } w).2.toasts
        = w.toasts ++ deductFromWallet.early r WALLET_KEYS.OFFICE amount ++ later ∧
      (debitOfficeForExpense r (some e) user w).2.toasts
        = w.toasts ++ deductFromWallet.early r WALLET_KEYS.OFFICE amount
          ++ [Toast.success (Message.officeDebited amount)] ++ later := by
  obtain ⟨later, hlater⟩ := deductFromWallet_toasts r WALLET_KEYS.OFFICE amount user
    { expenseId := some e.id, description := some e.description,
      category := some e.category, action := some "expense_debit" } w
  refine ⟨later, hlater, ?_⟩
  unfold debitOfficeForExpense
  rw [hv]
  exact detached_toasts _ hlater

/-- The toasts of an expense refund, in the order shown. -/
theorem refundExpenseToOffice_toasts (r : Render) (e : Expense) (amount : Int)
    (user : String) (w : World) (hv : validExpenseAmount (some e) = some amount) :
    ∃ later,
      (addToWallet r WALLET_KEYS.OFFICE amount user
        { expenseId := some e.id, description := some ("Refund: " ++ e.description),
          category := some e.category, action := some "expense_refund_on_delete" } w).2.toasts
        = w.toasts ++ addToWallet.early r WALLET_KEYS.OFFICE amount ++ later ∧
      (refundExpenseToOffice r (some e) user w).2.toasts
        = w.toasts ++ addToWallet.early r WALLET_KEYS.OFFICE amount
          ++ [Toast.success (Message.officeRefunded amount)] ++ later := by
  obtain ⟨later, hlater⟩ := addToWallet_toasts r WALLET_KEYS.OFFICE amount user
    { expenseId := some e.id, description := some ("Refund: " ++ e.description),
      category := some e.category, action := some "expense_refund_on_delete" } w
  refine ⟨later, hlater, ?_⟩
  unfold refundExpenseToOffice
  rw [hv]
  exact detached_toasts _ hlater

/-- The paper expense logged and deleted on the sample session: the toast of
the expense function comes first, the toast of the wallet call after it; for
the chair expense, refused at once, the error toast comes first. -/
theorem Sample.expense_toasts :
    Sample.afterPaper.toasts
      = [Toast.success (Message.officeDebited 20), Toast.success (Message.debited 20 "office")] ∧
    (refundExpenseToOffice Sample.world.render (some Sample.paper) "Expense Deleted"
      Sample.world).2.toasts
      = [Toast.success (Message.officeRefunded 20),
         Toast.success (Message.credited 20 "office")] ∧
    (debitOfficeForExpense Sample.world.render (some Sample.chair) "Expense Logger"
      Sample.world).2.toasts
      = [Toast.error (Message.insufficientBalance "office" 30),
         Toast.success (Message.officeDebited 50)] :=
  ⟨rfl, rfl, rfl⟩

/-- C14: for every expense descriptor that is absent or whose amount is
missing, zero or negative, `debitOfficeForExpense` throws `InvalidExpense` and
leaves the state as it was; for every expense with `amount > 0` and an office
balance of at least `amount`, when the office key resolves and the store
accepts the insert, it writes exactly one posting, of `-amount`, on the office
wallet. -/
theorem debitOfficeForExpense_contract (r : Render) (expenseData : Option Expense)
    (user : String) (w : World) :
    ((expenseData = none ∨ ∃ e, expenseData = some e ∧
        (e.amount = none ∨ ∃ amount, e.amount = some amount ∧ amount ≤ 0)) →
      debitOfficeForExpense r expenseData user w = (.error .InvalidExpense, w)) ∧
    (∀ e amount wallet, expenseData = some e → e.amount = some amount → 0 < amount →
      amount ≤ getWallet r WALLET_KEYS.OFFICE →
      lookupWallet r WALLET_KEYS.OFFICE = some wallet → w.store.Accepting →
      (debitOfficeForExpense r expenseData user w).1 = .ok () ∧
      ∃ p, (debitOfficeForExpense r expenseData user w).2.store.wallet_transactions
          = w.store.wallet_transactions ++ [p] ∧
        p.wallet_id = wallet.id ∧ p.amount = -amount) := by
  constructor
  · intro h
    unfold debitOfficeForExpense
    rw [validExpenseAmount_invalid h]
  · intro e amount wallet he ha hpos hbal hl hacc
    subst he
    have hw := deductFromWallet_writes user
      { expenseId := some e.id, description := some e.description,
        category := some e.category, action := some "expense_debit" }
      office_ne_empty hpos hbal hl hacc
    unfold debitOfficeForExpense
    rw [validExpenseAmount_valid ha hpos]
    exact ⟨rfl, hw.2⟩

/-- An expense without amount is refused and nothing is written; the paper
expense of 20 against the office balance of 30 writes the posting office -20. -/
theorem debitOfficeForExpense_contract_witness :
    ((some Sample.blank = none ∨ ∃ e, some Sample.blank = some e ∧
        (e.amount = none ∨ ∃ amount, e.amount = some amount ∧ amount ≤ 0)) ∧
      debitOfficeForExpense Sample.world.render (some Sample.blank) "Expense Logger"
        Sample.world = (.error .InvalidExpense, Sample.world)) ∧
    (Sample.paper.amount = some 20 ∧ (0 : Int) < 20 ∧
      (20 : Int) ≤ getWallet Sample.world.render WALLET_KEYS.OFFICE ∧
      lookupWallet Sample.world.render WALLET_KEYS.OFFICE
        = some { id := 3, name := "Office-Funds", balance := 30 } ∧
      Sample.world.store.Accepting) ∧
    (issued Sample.world (debitOfficeForExpense Sample.world.render (some Sample.paper)
      "Expense Logger" Sample.world).2).map Posting.entry = [(some 3, -20)] ∧
    ∃ p, (debitOfficeForExpense Sample.world.render (some Sample.paper) "Expense Logger"
        Sample.world).2.store.wallet_transactions
          = Sample.world.store.wallet_transactions ++ [p] ∧
      p.wallet_id = 3 ∧ p.amount = -20 :=
  ⟨⟨Or.inr ⟨Sample.blank, rfl, Or.inl rfl⟩,
      (debitOfficeForExpense_contract Sample.world.render (some Sample.blank) "Expense Logger"
        Sample.world).1 (Or.inr ⟨Sample.blank, rfl, Or.inl rfl⟩)⟩,
    ⟨rfl, by decide, by decide, by decide, by decide⟩,
    by decide,
    ((debitOfficeForExpense_contract Sample.world.render (some Sample.paper) "Expense Logger"
      Sample.world).2 Sample.paper 20 { id := 3, name := "Office-Funds", balance := 30 } rfl rfl
      (by decide) (by decide) (by decide) (by decide)).2⟩

/-- C15: for every expense descriptor that is absent or whose amount is
missing, zero or negative, `refundExpenseToOffice` reports the error with a
toast, does not throw and writes nothing; for every expense with `amount > 0`,
when the office key resolves and the store accepts the insert, it writes
exactly one posting, of `+amount`, on the office wallet. -/
theorem refundExpenseToOffice_contract (r : Render) (expenseData : Option Expense)
    (user : String) (w : World) :
    ((expenseData = none ∨ ∃ e, expenseData = some e ∧
        (e.amount = none ∨ ∃ amount, e.amount = some amount ∧ amount ≤ 0)) →
      refundExpenseToOffice r expenseData user w
        = (.ok (), { w with toasts := w.toasts ++ [Toast.error Message.invalidExpenseRefund] })) ∧
    (∀ e amount wallet, expenseData = some e → e.amount = some amount → 0 < amount →
      lookupWallet r WALLET_KEYS.OFFICE = some wallet → w.store.Accepting →
      (refundExpenseToOffice r expenseData user w).1 = .ok () ∧
      ∃ p, (refundExpenseToOffice r expenseData user w).2.store.wallet_transactions
          = w.store.wallet_transactions ++ [p] ∧
        p.wallet_id = wallet.id ∧ p.amount = amount) := by
  constructor
  · intro h
    unfold refundExpenseToOffice
    rw [validExpenseAmount_invalid h]
  · intro e amount wallet he ha hpos hl hacc
    subst he
    have hw := addToWallet_writes user
      { expenseId := some e.id, description := some ("Refund: " ++ e.description),
        category := some e.category, action := some "expense_refund_on_delete" }
      office_ne_empty hpos hl hacc
    unfold refundExpenseToOffice
    rw [validExpenseAmount_valid ha hpos]
    exact ⟨rfl, hw.2⟩

/-- An expense without amount is reported and nothing is written; refunding
the paper expense of 20 writes the posting office +20. -/
theorem refundExpenseToOffice_contract_witness :
    ((some Sample.blank = none ∨ ∃ e, some Sample.blank = some e ∧
        (e.amount = none ∨ ∃ amount, e.amount = some amount ∧ amount ≤ 0)) ∧
      (refundExpenseToOffice Sample.world.render (some Sample.blank) "Expense Deleted"
        Sample.world).1 = .ok () ∧
      (refundExpenseToOffice Sample.world.render (some Sample.blank) "Expense Deleted"
        Sample.world).2.store = Sample.world.store ∧
      (refundExpenseToOffice Sample.world.render (some Sample.blank) "Expense Deleted"
        Sample.world).2.toasts = [Toast.error Message.invalidExpenseRefund]) ∧
    (Sample.paper.amount = some 20 ∧ (0 : Int) < 20 ∧
      lookupWallet Sample.world.render WALLET_KEYS.OFFICE
        = some { id := 3, name := "Office-Funds", balance := 30 } ∧
      Sample.world.store.Accepting) ∧
    (issued Sample.world (refundExpenseToOffice Sample.world.render (some Sample.paper)
      "Expense Deleted" Sample.world).2).map Posting.entry = [(some 3, 20)] ∧
    ∃ p, (refundExpenseToOffice Sample.world.render (some Sample.paper) "Expense Deleted"
        Sample.world).2.store.wallet_transactions
          = Sample.world.store.wallet_transactions ++ [p] ∧
      p.wallet_id = 3 ∧ p.amount = 20 :=
  ⟨⟨Or.inr ⟨Sample.blank, rfl, Or.inl rfl⟩,
      congrArg Prod.fst ((refundExpenseToOffice_contract Sample.world.render
        (some Sample.blank) "Expense Deleted" Sample.world).1
        (Or.inr ⟨Sample.blank, rfl, Or.inl rfl⟩)),
      rfl, rfl⟩,
    ⟨rfl, by decide, by decide, by decide⟩,
    by decide,
    ((refundExpenseToOffice_contract Sample.world.render (some Sample.paper) "Expense Deleted"
      Sample.world).2 Sample.paper 20 { id := 3, name := "Office-Funds", balance := 30 } rfl rfl
      (by decide) (by decide) (by decide)).2⟩

/-! ## The two reversals -/

theorem World.similar_refl (w : World) : w.Similar w :=
  ⟨⟨rfl, rfl, rfl, rfl⟩, rfl, rfl, rfl, rfl, rfl⟩

theorem Store.creditRow_congr {p q : Posting} (hid : p.wallet_id = q.wallet_id)
    (ha : p.amount = q.amount) : Store.creditRow p = Store.creditRow q := by
  funext row
  unfold Store.creditRow
  rw [hid, ha]

theorem Store.insert_similar {s t : Store} {p q : Posting} (h : s.Similar t)
    (hid : p.wallet_id = q.wallet_id) (ha : p.amount = q.amount) :
    (s.insert p).1 = (t.insert q).1 ∧ (s.insert p).2.Similar (t.insert q).2 := by
  obtain ⟨hw, hl, hi, hs⟩ := h
  have hc := Store.creditRow_congr hid ha
  have he : p.entry = q.entry := by simp [Posting.entry, hid, ha]
  unfold Store.insert
  rw [hi]
  cases t.insertErrors with
  | nil => simp [Store.Similar, Store.append, hw, hl, hi, hs, hc, he]
  | cons x rest =>
    cases x with
    | none => simp [Store.Similar, Store.append, hw, hl, hs, hc, he]
    | some msg => simp [Store.Similar, hw, hl, hs]

theorem loadWallets_similar (r : Render) {w v : World} (h : w.Similar v) :
    (loadWallets r w).Similar (loadWallets r v) := by
  obtain ⟨⟨hw, hl, hi, hs⟩, hu, hws, hx, hld, ht⟩ := h
  unfold loadWallets Store.selectWallets
  cases r.user with
  | none => exact ⟨⟨hw, hl, hi, hs⟩, hu, rfl, rfl, rfl, ht⟩
  | some u =>
    simp only []
    rw [hs]
    cases v.store.selectErrors with
    | nil => simp [World.Similar, Store.Similar, hw, hl, hi, hs, hu, ht]
    | cons x rest =>
      cases x with
      | true => simp [World.Similar, Store.Similar, hw, hl, hi, hu, ht, hws, hx]
      | false => simp [World.Similar, Store.Similar, hw, hl, hi, hu, ht]

theorem recordTransaction_alike (r : Render) (key : String) (delta : Int) (meta meta' : Meta)
    (actor actor' : String) :
    Async.Alike (recordTransaction r key delta meta actor)
      (recordTransaction r key delta meta' actor') := by
  intro w v h
  unfold recordTransaction
  cases lookupWallet r key with
  | none =>
    obtain ⟨hs, hu, hws, hx, hld, ht⟩ := h
    exact ⟨rfl, hs, hu, hws, hx, hld, by simp [ht]⟩
  | some wallet =>
    simp only []
    by_cases hd : delta = 0
    · simp only [hd, if_true]
      exact ⟨trivial, h⟩
    · simp only [hd, if_false]
      have hins := Store.insert_similar
        (p := { wallet_id := wallet.id, booking_id := orNull meta.bookingId, amount := delta,
                description := (orElse (orElse meta.description meta.action)
                  (some "Wallet transaction")).getD "",
                created_by := orElse (r.user.map User.id) none })
        (q := { wallet_id := wallet.id, booking_id := orNull meta'.bookingId, amount := delta,
                description := (orElse (orElse meta'.description meta'.action)
                  (some "Wallet transaction")).getD "",
                created_by := orElse (r.user.map User.id) none })
        h.1 rfl rfl
      revert hins
      generalize w.store.insert _ = x
      generalize v.store.insert _ = y
      intro hins
      obtain ⟨e1, s1⟩ := x
      obtain ⟨e2, s2⟩ := y
      simp only [] at hins
      obtain ⟨he, hsim⟩ := hins
      subst he
      obtain ⟨-, hu, hws, hx, hld, ht⟩ := h
      cases e1 with
      | none => exact ⟨rfl, loadWallets_similar r ⟨hsim, hu, hws, hx, hld, ht⟩⟩
      | some msg => exact ⟨rfl, hsim, hu, hws, hx, hld, ht⟩

theorem alike_done : Async.Alike Async.done Async.done :=
  fun _ _ h => ⟨rfl, h⟩

theorem alike_toast (t : Toast) : Async.Alike (Async.toast t) (Async.toast t) := by
  intro w v h
  obtain ⟨hs, hu, hws, hx, hld, ht⟩ := h
  exact ⟨rfl, hs, hu, hws, hx, hld, congrArg (fun ts => ts ++ [t]) ht⟩

theorem alike_andThen {a a' b b' : Async} (ha : Async.Alike a a') (hb : Async.Alike b b') :
    Async.Alike (Async.andThen a b) (Async.andThen a' b') := by
  intro w v h
  have h1 := ha w v h
  unfold Async.andThen
  revert h1
  generalize a w = x
  generalize a' v = y
  intro h1
  obtain ⟨e1, w1⟩ := x
  obtain ⟨e2, v1⟩ := y
  simp only [] at h1
  obtain ⟨he, hsim⟩ := h1
  subst he
  cases e1 with
  | ok u => exact hb w1 v1 hsim
  | error e => exact ⟨rfl, hsim⟩

theorem alike_ite {a a' b b' : Async} (c : Prop) [Decidable c] (ha : Async.Alike a a')
    (hb : Async.Alike b b') : Async.Alike (if c then a else b) (if c then a' else b') := by
  split
  · exact ha
  · exact hb

theorem addToWallet_alike (r : Render) (key : String) (amount : Int) (actor actor' : String)
    (meta meta' : Meta) :
    Async.Alike (addToWallet r key amount actor meta) (addToWallet r key amount actor' meta') := by
  intro w v h
  unfold addToWallet
  split
  · exact ⟨rfl, h⟩
  · exact alike_andThen (recordTransaction_alike r key _ meta meta' actor actor')
      (alike_toast _) w v h

theorem deductFromWallet_alike (r : Render) (key : String) (amount : Int)
    (actor actor' : String) (meta meta' : Meta) :
    Async.Alike (deductFromWallet r key amount actor meta)
      (deductFromWallet r key amount actor' meta') := by
  intro w v h
  unfold deductFromWallet
  split
  · exact ⟨rfl, h⟩
  · simp only []
    split
    · obtain ⟨hs, hu, hws, hx, hld, ht⟩ := h
      exact ⟨rfl, hs, hu, hws, hx, hld, congrArg (fun ts => ts ++ [_]) ht⟩
    · exact alike_andThen (recordTransaction_alike r key _ meta meta' actor actor')
        (alike_toast _) w v h

theorem refund_alike (r : Render) (booking : Option Booking) (actor actor' : String) :
    Async.Alike (refundBookingWallet r booking actor)
      (refundBookingOnDelete r booking actor') := by
  unfold refundBookingWallet refundBookingOnDelete
  cases booking with
  | none => exact alike_done
  | some b =>
    simp only []
    split
    · exact alike_ite _ (deductFromWallet_alike r _ _ _ _ _ _) alike_done
    · refine alike_andThen ?_ (alike_ite _ (deductFromWallet_alike r _ _ _ _ _ _) alike_done)
      cases platformKey b with
      | none => exact alike_done
      | some pk =>
        exact alike_andThen
          (alike_ite _ (addToWallet_alike r _ _ _ _ _ _) alike_done)
          (alike_ite _ (deductFromWallet_alike r _ _ _ _ _ _) alike_done)

/-- C12: from every state and render, for every booking, the un-confirm
reversal and the delete reversal end with the same outcome (both succeed or
both throw the same error), write the same ordered list of (wallet id, signed
amount) postings, and leave the same cached balances in the store, the same
balance snapshot, the same wallet index and the same toasts. -/
theorem refund_variants_agree (r : Render) (booking : Option Booking) (actor actor' : String)
    (w : World) :
    (refundBookingWallet r booking actor w).1 = (refundBookingOnDelete r booking actor' w).1 ∧
    (issued w (refundBookingWallet r booking actor w).2).map Posting.entry
      = (issued w (refundBookingOnDelete r booking actor' w).2).map Posting.entry ∧
    (refundBookingWallet r booking actor w).2.store.wallets
      = (refundBookingOnDelete r booking actor' w).2.store.wallets ∧
    (refundBookingWallet r booking actor w).2.wallets
      = (refundBookingOnDelete r booking actor' w).2.wallets ∧
    (refundBookingWallet r booking actor w).2.walletIndex
      = (refundBookingOnDelete r booking actor' w).2.walletIndex ∧
    (refundBookingWallet r booking actor w).2.toasts
      = (refundBookingOnDelete r booking actor' w).2.toasts := by
  obtain ⟨hres, ⟨hw, hl, -, -⟩, -, hws, hx, -, ht⟩ :=
    refund_alike r booking actor actor' w w (World.similar_refl w)
  refine ⟨hres, ?_, hw, hws, hx, ht⟩
  unfold issued
  rw [List.map_drop, List.map_drop, hl]

/-! ## Failure in the middle of a settlement -/

theorem posted_of_untouched (r : Render) {w w' : World} (h : Untouched w w') :
    Posted r w w' [] :=
  ⟨[], by simpa using h.1, by simpa [creditAll] using h.2.1, by simp⟩

theorem stops_done (r : Render) : Async.StopsIn r Async.done [] := by
  intro w w' e h
  simp [Async.done] at h

theorem stops_andThen {r : Render} {a b : Async} {p q : List (String × Int)}
    (hp : Async.Posts r a p) (ha : Async.StopsIn r a p) (hb : Async.StopsIn r b q) :
    Async.StopsIn r (Async.andThen a b) (p ++ q) := by
  intro w w' e h
  rcases Async.andThen_error h with h1 | ⟨w1, h1, h2⟩
  · obtain ⟨k, hk, hposted⟩ := ha w w' e h1
    refine ⟨k, by rw [List.length_append]; omega, ?_⟩
    rw [List.take_append_of_le_length (by omega)]
    exact hposted
  · obtain ⟨k, hk, hposted⟩ := hb w1 w' e h2
    refine ⟨p.length + k, by rw [List.length_append]; omega, ?_⟩
    rw [List.take_append]
    exact posted_trans (hp w w1 h1) hposted

theorem stops_credit (r : Render) (key : String) (amount : Int) (actor : String)
    (meta : Meta) (c : Prop) [Decidable c] :
    Async.StopsIn r (if c then addToWallet r key amount actor meta else Async.done)
      (if c then [(key, amount)] else []) := by
  intro w w' e h
  by_cases hc : c
  · simp only [hc, if_true] at h ⊢
    exact ⟨0, by simp, posted_of_untouched r (addToWallet_error h).2⟩
  · simp [hc, Async.done] at h

theorem stops_debit (r : Render) (key : String) (amount : Int) (actor : String)
    (meta : Meta) (c : Prop) [Decidable c] :
    Async.StopsIn r (if c then deductFromWallet r key amount actor meta else Async.done)
      (if c then [(key, -amount)] else []) := by
  intro w w' e h
  by_cases hc : c
  · simp only [hc, if_true] at h ⊢
    exact ⟨0, by simp, posted_of_untouched r (deductFromWallet_error h)⟩
  · simp [hc, Async.done] at h

theorem applyBookingWallet_stops (r : Render) (b : Booking) (actor : String) :
    Async.StopsIn r (applyBookingWallet r (some b) actor) (applyPlan b) := by
  unfold applyBookingWallet applyPlan
  simp only []
  split
  · exact stops_credit r _ _ actor _ _
  · cases hpk : platformKey b with
    | none =>
      exact stops_andThen (Async.posts_done r) (stops_done r) (stops_credit r _ _ actor _ _)
    | some pk =>
      have hne := platformKey_ne_empty hpk
      exact stops_andThen
        (Async.posts_andThen
          (Async.posts_debit r pk _ actor _ _ hne (fun h => h))
          (Async.posts_credit r pk _ actor _ _ hne (fun h => h)))
        (stops_andThen (Async.posts_debit r pk _ actor _ _ hne (fun h => h))
          (stops_debit r pk _ actor _ _) (stops_credit r pk _ actor _ _))
        (stops_credit r _ _ actor _ _)

theorem refundBookingWallet_stops (r : Render) (b : Booking) (actor : String) :
    Async.StopsIn r (refundBookingWallet r (some b) actor) (refundPlan b) := by
  unfold refundBookingWallet refundPlan
  simp only []
  split
  · exact stops_debit r _ _ actor _ _
  · cases hpk : platformKey b with
    | none =>
      exact stops_andThen (Async.posts_done r) (stops_done r) (stops_debit r _ _ actor _ _)
    | some pk =>
      have hne := platformKey_ne_empty hpk
      exact stops_andThen
        (Async.posts_andThen
          (Async.posts_credit r pk _ actor _ _ hne (fun h => h))
          (Async.posts_debit r pk _ actor _ _ hne (fun h => h)))
        (stops_andThen (Async.posts_credit r pk _ actor _ _ hne (fun h => h))
          (stops_credit r pk _ actor _ _) (stops_debit r pk _ actor _ _))
        (stops_debit r _ _ actor _ _)

theorem refundBookingOnDelete_stops (r : Render) (b : Booking) (actor : String) :
    Async.StopsIn r (refundBookingOnDelete r (some b) actor) (refundPlan b) := by
  unfold refundBookingOnDelete refundPlan
  simp only []
  split
  · exact stops_debit r _ _ actor _ _
  · cases hpk : platformKey b with
    | none =>
      exact stops_andThen (Async.posts_done r) (stops_done r) (stops_debit r _ _ actor _ _)
    | some pk =>
      have hne := platformKey_ne_empty hpk
      exact stops_andThen
        (Async.posts_andThen
          (Async.posts_credit r pk _ actor _ _ hne (fun h => h))
          (Async.posts_debit r pk _ actor _ _ hne (fun h => h)))
        (stops_andThen (Async.posts_credit r pk _ actor _ _ hne (fun h => h))
          (stops_credit r pk _ actor _ _) (stops_debit r pk _ actor _ _))
        (stops_debit r _ _ actor _ _)

/-- C11: when a booking settlement (apply, un-confirm reversal or delete
reversal) throws at one of its steps, with `WalletNotFound`, a store write
error or any other error, the postings of the steps before it, in order, are
what the settlement has added to the ledger: they are not rolled back, and no
later step has written anything. -/
theorem settlement_stops_at_failure (r : Render) (b : Booking) (actor : String)
    (w w' : World) (e : WalletError) :
    (applyBookingWallet r (some b) actor w = (.error e, w') →
      ∃ k, k < (applyPlan b).length ∧
        w'.store.wallet_transactions = w.store.wallet_transactions ++ issued w w' ∧
        (issued w w').map Posting.entry = ((applyPlan b).take k).map (keyEntry r)) ∧
    (refundBookingWallet r (some b) actor w = (.error e, w') →
      ∃ k, k < (refundPlan b).length ∧
        w'.store.wallet_transactions = w.store.wallet_transactions ++ issued w w' ∧
        (issued w w').map Posting.entry = ((refundPlan b).take k).map (keyEntry r)) ∧
    (refundBookingOnDelete r (some b) actor w = (.error e, w') →
      ∃ k, k < (refundPlan b).length ∧
        w'.store.wallet_transactions = w.store.wallet_transactions ++ issued w w' ∧
        (issued w w').map Posting.entry = ((refundPlan b).take k).map (keyEntry r)) := by
  refine ⟨?_, ?_, ?_⟩
  · intro h
    obtain ⟨k, hk, hp⟩ := applyBookingWallet_stops r b actor w w' e h
    exact ⟨k, hk, posted_ledger hp, posted_issued hp⟩
  · intro h
    obtain ⟨k, hk, hp⟩ := refundBookingWallet_stops r b actor w w' e h
    exact ⟨k, hk, posted_ledger hp, posted_issued hp⟩
  · intro h
    obtain ⟨k, hk, hp⟩ := refundBookingOnDelete_stops r b actor w w' e h
    exact ⟨k, hk, posted_ledger hp, posted_issued hp⟩

/-- Scenario A applied while the office wallet does not resolve: the apply
throws `WalletNotFound` at its third step and the base-pay debit and the
commission credit stay written.  Scenario A applied against a store that
refuses the second insert: the apply throws the store error and the base-pay
debit stays written. -/
theorem settlement_stops_at_failure_witness :
    (applyBookingWallet Sample.noOffice.render (some Sample.scenarioA) "Confirm Booking"
        Sample.noOffice).1 = .error (.WalletNotFound "office") ∧
    applyPlan Sample.scenarioA = [("alhind", -1000), ("alhind", 150), ("office", 1200)] ∧
    (issued Sample.noOffice (applyBookingWallet Sample.noOffice.render (some Sample.scenarioA)
        "Confirm Booking" Sample.noOffice).2).map Posting.entry
      = [(some 1, -1000), (some 1, 150)] ∧
    (applyBookingWallet Sample.flaky.render (some Sample.scenarioA) "Confirm Booking"
        Sample.flaky).1 = .error (.StoreWriteError "down") ∧
    (issued Sample.flaky (applyBookingWallet Sample.flaky.render (some Sample.scenarioA)
        "Confirm Booking" Sample.flaky).2).map Posting.entry = [(some 1, -1000)] ∧
    ∃ k, k < (applyPlan Sample.scenarioA).length ∧
      (applyBookingWallet Sample.noOffice.render (some Sample.scenarioA) "Confirm Booking"
        Sample.noOffice).2.store.wallet_transactions
        = Sample.noOffice.store.wallet_transactions ++
          issued Sample.noOffice (applyBookingWallet Sample.noOffice.render
            (some Sample.scenarioA) "Confirm Booking" Sample.noOffice).2 ∧
      (issued Sample.noOffice (applyBookingWallet Sample.noOffice.render
          (some Sample.scenarioA) "Confirm Booking" Sample.noOffice).2).map Posting.entry
        = ((applyPlan Sample.scenarioA).take k).map (keyEntry Sample.noOffice.render) :=
  ⟨rfl, by decide, by decide, rfl, by decide,
    (settlement_stops_at_failure Sample.noOffice.render Sample.scenarioA "Confirm Booking"
      Sample.noOffice _ (.WalletNotFound "office")).1 rfl⟩

/-! ## Net effect of a settlement -/

theorem liveRow_map (f : WalletRow → WalletRow) (hf : ∀ row, (f row).name = row.name)
    (rows : List WalletRow) (name : String) :
    liveRow (rows.map f) name = (liveRow rows name).map f := by
  unfold liveRow
  rw [← List.map_reverse, List.find?_map]
  have hcomp : ((fun w : WalletRow => name == w.name) ∘ f)
      = fun w : WalletRow => name == w.name := by
    funext w
    simp [hf]
  rw [hcomp]

/-- The ledger sum of postings written for `plan` is the sum of the amounts
of the plan entries whose key resolves to the wallet id. -/
theorem ledgerSum_of_plan (r : Render) (plan : List (String × Int)) (ps : List Posting)
    (id : Nat) (h : ps.map Posting.entry = plan.map (keyEntry r)) :
    ledgerSum ps id
      = ((plan.filter (fun ka => walletIdOf r ka.1 = some id)).map Prod.snd).sum := by
  induction plan generalizing ps with
  | nil =>
    simp only [List.map_nil, List.map_eq_nil_iff] at h
    subst h
    simp [ledgerSum_nil]
  | cons ka plan ih =>
    cases ps with
    | nil => simp at h
    | cons p ps =>
      simp only [List.map_cons, List.cons.injEq, Posting.entry, keyEntry, Prod.mk.injEq] at h
      obtain ⟨⟨hid, hamt⟩, hrest⟩ := h
      rw [ledgerSum_cons, ih ps hrest, List.filter_cons, ← hid]
      by_cases hc : p.wallet_id = id
      · simp [hc, hamt]
      · simp [hc]

theorem plan_resolves {r : Render} {plan : List (String × Int)} {ps : List Posting}
    (h : ps.map Posting.entry = plan.map (keyEntry r)) {ka : String × Int} (hka : ka ∈ plan) :
    ∃ id, walletIdOf r ka.1 = some id := by
  have hmem : keyEntry r ka ∈ ps.map Posting.entry := by
    rw [h]
    exact List.mem_map_of_mem _ hka
  obtain ⟨p, -, hp⟩ := List.mem_map.mp hmem
  simp only [Posting.entry, keyEntry, Prod.mk.injEq] at hp
  exact ⟨p.wallet_id, hp.1.symm⟩

theorem walletIdOf_liveRow {r : Render} {w : World} {key : String} {id : Nat}
    (htr : Tracks r w) (h : walletIdOf r key = some id) :
    w.user ≠ none ∧ ∃ name row, WALLET_NAME_MAP key = some name ∧
      liveRow w.store.wallets name = some row ∧ row.id = id := by
  cases hl : lookupWallet r key with
  | none => simp [walletIdOf, hl] at h
  | some wallet =>
    have hid : wallet.id = id := by simpa [walletIdOf, hl] using h
    obtain ⟨hu, name, row, hname, hlive, hrow⟩ := tracks_liveRow htr hl
    exact ⟨hu, name, row, hname, hlive, by rw [hrow, hid]⟩

/-- In a session with unique wallet ids, the postings of `plan` move the
balance shown for a wallet key by the sum of the amounts `plan` posts on it. -/
theorem posted_net {r : Render} {w w' : World} {plan : List (String × Int)}
    (htr : Tracks r w) (htr' : Tracks r w') (hnd : (w.store.wallets.map WalletRow.id).Nodup)
    (hp : Posted r w w' plan) {key name : String} (hname : WALLET_NAME_MAP key = some name) :
    held w'.render key = held w.render key + planSum plan key := by
  obtain ⟨ps, -, hrows, hent⟩ := hp
  have hu' : w'.user = w.user := by rw [tracks_user htr', ← tracks_user htr]
  cases hwu : w.user with
  | none =>
    have hplan : plan = [] := by
      cases plan with
      | nil => rfl
      | cons ka rest =>
        obtain ⟨id, hid⟩ := plan_resolves hent (List.mem_cons_self ka rest)
        exact absurd hwu (walletIdOf_liveRow htr hid).1
    subst hplan
    have h1 := (htr.2.2.1.1 hwu).2
    have h2 := (htr'.2.2.1.1 (by rw [hu']; exact hwu)).2
    unfold held World.render
    simp [h1, h2, planSum]
  | some u =>
    have hu : w.user ≠ none := by simp [hwu]
    have hu2 : w'.user ≠ none := by rw [hu']; exact hu
    rw [synced_held htr'.2.2.1 hu2 hname, synced_held htr.2.2.1 hu hname, hrows,
      creditAll_balance,
      liveRow_map (fun row => { row with balance := row.balance + ledgerSum ps row.id })
        (fun _ => rfl)]
    cases hlive : liveRow w.store.wallets name with
    | none =>
      have hempty : plan.filter (fun ka => ka.1 = key) = [] := by
        rw [List.filter_eq_nil_iff]
        intro ka hka hk
        simp only [decide_eq_true_eq] at hk
        obtain ⟨id, hid⟩ := plan_resolves hent hka
        rw [hk] at hid
        obtain ⟨-, name', row', hname', hlive', -⟩ := walletIdOf_liveRow htr hid
        rw [hname] at hname'
        simp only [Option.some.injEq] at hname'
        subst hname'
        rw [hlive] at hlive'
        simp at hlive'
      simp [planSum, hempty]
    | some row =>
      simp only [Option.map_some', Option.getD_some]
      rw [ledgerSum_of_plan r plan ps row.id hent]
      have hfilter : plan.filter (fun ka => walletIdOf r ka.1 = some row.id)
          = plan.filter (fun ka => ka.1 = key) := by
        apply List.filter_congr
        intro ka hka
        simp only [decide_eq_decide]
        constructor
        · intro hid
          obtain ⟨-, name', row', hname', hlive', hrow'⟩ := walletIdOf_liveRow htr hid
          have hnn : name' = name := liveRow_distinct hnd hlive' hlive hrow'
          subst hnn
          exact WALLET_NAME_MAP_inj hname' hname
        · intro hk
          obtain ⟨id, hid⟩ := plan_resolves hent hka
          rw [hk] at hid
          obtain ⟨-, name', row', hname', hlive', hrow'⟩ := walletIdOf_liveRow htr hid
          rw [hname] at hname'
          simp only [Option.some.injEq] at hname'
          subst hname'
          rw [hlive] at hlive'
          simp only [Option.some.injEq] at hlive'
          subst hlive'
          rw [hk, hid, hrow']
      rw [hfilter]
      rfl

theorem applyPlan_sums (b : Booking) (key other : String)
    (hplat : (b.platform = some PLATFORM.ALHIND ∧ key = WALLET_KEYS.ALHIND ∧
        other = WALLET_KEYS.AKBAR) ∨
      (b.platform = some PLATFORM.AKBAR ∧ key = WALLET_KEYS.AKBAR ∧
        other = WALLET_KEYS.ALHIND))
    (hbase : 0 ≤ b.basePay) (hmarkup : 0 ≤ b.markupAmount) (hcomm : 0 ≤ b.commissionAmount) :
    planSum (applyPlan b) key = b.commissionAmount - b.basePay ∧
    planSum (applyPlan b) WALLET_KEYS.OFFICE = b.basePay + b.markupAmount ∧
    planSum (applyPlan b) other = 0 := by
  rcases hplat with ⟨hp, hk, ho⟩ | ⟨hp, hk, ho⟩ <;> subst hk ho <;>
    by_cases h1 : b.basePay > 0 <;> by_cases h2 : b.commissionAmount > 0 <;>
    by_cases h3 : b.basePay + b.markupAmount > 0 <;>
    simp [planSum, applyPlan, platformKey, hp, h1, h2, h3, PLATFORM.ALHIND, PLATFORM.AKBAR,
      PLATFORM.DIRECT, WALLET_KEYS.ALHIND, WALLET_KEYS.AKBAR, WALLET_KEYS.OFFICE,
      List.filter_cons] <;>
    omega

/-- C13, as stated, fails: when the third reload fails, the apply of Scenario A
on the sample session succeeds and writes its three postings, but the office is
still shown at 30, not at 30 + 1200.  And on the session whose snapshot is
stale (the office shown at 30, the store holding 35), with no failing read, the
apply moves the office shown from 30 to 1235. -/
theorem apply_effect_not_shown :
    (Sample.scenarioA.platform = some PLATFORM.ALHIND ∧
      0 ≤ Sample.scenarioA.basePay ∧ 0 ≤ Sample.scenarioA.markupAmount ∧
      0 ≤ Sample.scenarioA.commissionAmount) ∧
    Synced (Sample.reading [false, false, true]) ∧
    (applyBookingWallet (Sample.reading [false, false, true]).render (some Sample.scenarioA)
      "Confirm Booking" (Sample.reading [false, false, true])).1 = .ok () ∧
    (issued (Sample.reading [false, false, true])
      (applyBookingWallet (Sample.reading [false, false, true]).render (some Sample.scenarioA)
        "Confirm Booking" (Sample.reading [false, false, true])).2).map Posting.entry
      = [(some 1, -1000), (some 1, 150), (some 3, 1200)] ∧
    getWallet (Sample.reading [false, false, true]).render "office" = 30 ∧
    getWallet (applyBookingWallet (Sample.reading [false, false, true]).render
      (some Sample.scenarioA) "Confirm Booking"
      (Sample.reading [false, false, true])).2.render "office" = 30 ∧
    getWallet (applyBookingWallet (Sample.reading [false, false, true]).render
      (some Sample.scenarioA) "Confirm Booking"
      (Sample.reading [false, false, true])).2.render "office"
      ≠ getWallet (Sample.reading [false, false, true]).render "office"
        + ((Sample.scenarioA.basePay + Sample.scenarioA.markupAmount : Int) : Num) ∧
    ¬ Synced Sample.stale ∧ Sample.stale.store.Reads ∧
    (applyBookingWallet Sample.stale.render (some Sample.scenarioA) "Confirm Booking"
      Sample.stale).1 = .ok () ∧
    getWallet Sample.stale.render "office" = 30 ∧
    getWallet (applyBookingWallet Sample.stale.render (some Sample.scenarioA)
      "Confirm Booking" Sample.stale).2.render "office" = 1235 :=
  ⟨by decide, by decide, rfl, by decide, by decide, by decide, by decide, by decide,
    by decide, rfl, by decide, by decide⟩

/-- C13, amended: in a loaded session with unique wallet ids in which no read
of the wallets fails, after a successful apply of a platform-A or platform-B
booking with non-negative fields the balance shown for that platform's wallet
has changed by `commissionAmount - basePay`, the office balance by
`basePay + markupAmount`, and the balance of the other platform's wallet is
unchanged. -/
theorem applyBookingWallet_net_effect (b : Booking) (actor key other : String) (w w' : World)
    (hplat : (b.platform = some PLATFORM.ALHIND ∧ key = WALLET_KEYS.ALHIND ∧
        other = WALLET_KEYS.AKBAR) ∨
      (b.platform = some PLATFORM.AKBAR ∧ key = WALLET_KEYS.AKBAR ∧
        other = WALLET_KEYS.ALHIND))
    (hbase : 0 ≤ b.basePay) (hmarkup : 0 ≤ b.markupAmount) (hcomm : 0 ≤ b.commissionAmount)
    (hsync : Synced w) (hsel : w.store.Reads)
    (hnd : (w.store.wallets.map WalletRow.id).Nodup)
    (hok : applyBookingWallet w.render (some b) actor w = (.ok (), w')) :
    getWallet w'.render key
      = getWallet w.render key + ((b.commissionAmount - b.basePay : Int) : Num) ∧
    getWallet w'.render WALLET_KEYS.OFFICE
      = getWallet w.render WALLET_KEYS.OFFICE + ((b.basePay + b.markupAmount : Int) : Num) ∧
    getWallet w'.render other = getWallet w.render other := by
  have htr : Tracks w.render w := tracks_render hsync hsel
  have htr' : Tracks w.render w' := by
    have := applyBookingWallet_keeps (tracks_stable w.render) (some b) actor w htr
    rwa [hok] at this
  have hp := applyBookingWallet_posts w.render b actor w w' hok
  obtain ⟨hs1, hs2, hs3⟩ := applyPlan_sums b key other hplat hbase hmarkup hcomm
  have hkey : ∃ name, WALLET_NAME_MAP key = some name := by
    rcases hplat with ⟨-, hk, -⟩ | ⟨-, hk, -⟩ <;> subst hk
    · exact ⟨"AlHind", by decide⟩
    · exact ⟨"Akbar", by decide⟩
  have hother : ∃ name, WALLET_NAME_MAP other = some name := by
    rcases hplat with ⟨-, -, ho⟩ | ⟨-, -, ho⟩ <;> subst ho
    · exact ⟨"Akbar", by decide⟩
    · exact ⟨"AlHind", by decide⟩
  have hoffice : WALLET_NAME_MAP WALLET_KEYS.OFFICE = some "Office-Funds" := by decide
  obtain ⟨n1, hn1⟩ := hkey
  obtain ⟨n2, hn2⟩ := hother
  refine ⟨?_, ?_, ?_⟩
  · rw [getWallet_mapped _ hn1, getWallet_mapped _ hn1, Num.finite_add,
      posted_net htr htr' hnd hp hn1, hs1]
  · rw [getWallet_mapped _ hoffice, getWallet_mapped _ hoffice, Num.finite_add,
      posted_net htr htr' hnd hp hoffice, hs2]
  · rw [getWallet_mapped _ hn2, getWallet_mapped _ hn2, posted_net htr htr' hnd hp hn2, hs3,
      add_zero]

/-- Scenario A on the sample session: platform A goes from 5000 to 4150
(-850), the office from 30 to 1230 (+1200), platform B stays at 300. -/
theorem applyBookingWallet_net_effect_witness :
    ((Sample.scenarioA.platform = some PLATFORM.ALHIND ∧ "alhind" = WALLET_KEYS.ALHIND ∧
        "akbar" = WALLET_KEYS.AKBAR) ∨
      (Sample.scenarioA.platform = some PLATFORM.AKBAR ∧ "alhind" = WALLET_KEYS.AKBAR ∧
        "akbar" = WALLET_KEYS.ALHIND)) ∧
    (0 ≤ Sample.scenarioA.basePay ∧ 0 ≤ Sample.scenarioA.markupAmount ∧
      0 ≤ Sample.scenarioA.commissionAmount) ∧
    Synced Sample.world ∧ Sample.world.store.Reads ∧
    (Sample.world.store.wallets.map WalletRow.id).Nodup ∧
    applyBookingWallet Sample.world.render (some Sample.scenarioA) "Confirm Booking"
      Sample.world = (.ok (), Sample.afterA) ∧
    getWallet Sample.world.render "alhind" = 5000 ∧
    getWallet Sample.afterA.render "alhind" = 4150 ∧
    getWallet Sample.afterA.render "office" = 1230 ∧
    (getWallet Sample.afterA.render "alhind"
        = getWallet Sample.world.render "alhind"
          + ((Sample.scenarioA.commissionAmount - Sample.scenarioA.basePay : Int) : Num) ∧
      getWallet Sample.afterA.render WALLET_KEYS.OFFICE
        = getWallet Sample.world.render WALLET_KEYS.OFFICE
          + ((Sample.scenarioA.basePay + Sample.scenarioA.markupAmount : Int) : Num) ∧
      getWallet Sample.afterA.render "akbar" = getWallet Sample.world.render "akbar") :=
  ⟨by decide, by decide, by decide, by decide, by decide, rfl, by decide, by decide, by decide,
    applyBookingWallet_net_effect Sample.scenarioA "Confirm Booking" "alhind" "akbar"
      Sample.world Sample.afterA (by decide) (by decide) (by decide) (by decide) (by decide)
      (by decide) (by decide) rfl⟩

/-! ## The sufficiency check inside a settlement -/

/-- C20 at a failing input: platform A holds 100 and the booking (base pay
1000, commission 500) is un-confirmed.  The base-pay refund is written and the
reload shows 1100 for platform A, yet the commission debit is checked against
the 100 the closure captured and the reversal throws `InsufficientBalance`,
although `100 + 1000 ≥ 500`. -/
theorem refundBookingWallet_checks_stale_balance :
    Synced Sample.lowPlatform ∧
    getWallet Sample.lowPlatform.render "alhind" = 100 ∧
    getWallet Sample.lowPlatform.render "alhind" + Sample.confirmed.basePay
      ≥ Sample.confirmed.commissionAmount ∧
    (refundBookingWallet Sample.lowPlatform.render (some Sample.confirmed) "Unconfirm"
      Sample.lowPlatform).1 = .error (.InsufficientBalance "alhind" 100) ∧
    (issued Sample.lowPlatform
      (refundBookingWallet Sample.lowPlatform.render (some Sample.confirmed) "Unconfirm"
        Sample.lowPlatform).2).map Posting.entry = [(some 1, 1000)] ∧
    getWallet (refundBookingWallet Sample.lowPlatform.render (some Sample.confirmed)
      "Unconfirm" Sample.lowPlatform).2.render "alhind" = 1100 ∧
    (addToWallet Sample.lowPlatform.render "alhind" 1000 "Unconfirm" {}
      Sample.lowPlatform).1 = .ok () ∧
    (deductFromWallet Sample.lowPlatform.render "alhind" 500 "Unconfirm" {}
      (addToWallet Sample.lowPlatform.render "alhind" 1000 "Unconfirm" {}
        Sample.lowPlatform).2).1 = .error (.InsufficientBalance "alhind" 100) ∧
    (deductFromWallet
      (addToWallet Sample.lowPlatform.render "alhind" 1000 "Unconfirm" {}
        Sample.lowPlatform).2.render "alhind" 500 "Unconfirm" {}
      (addToWallet Sample.lowPlatform.render "alhind" 1000 "Unconfirm" {}
        Sample.lowPlatform).2).1 = .ok () :=
  ⟨by decide, by decide, by decide, rfl, by decide, by decide, rfl, rfl, rfl⟩

/-! ## Expense debit beyond the office balance -/

/-- C21 at a failing input: logging the chair expense of 50 against the office
balance of 30.  The debit is refused inside `deductFromWallet` (the toast
"Insufficient balance" is shown and nothing is written), yet
`debitOfficeForExpense` returns normally and shows the success toast
"50 debited from Office Fund". -/
theorem debitOfficeForExpense_reports_success_unposted :
    Sample.chair.amount = some 50 ∧ getWallet Sample.world.render "office" = 30 ∧
    (deductFromWallet Sample.world.render "office" 50 "Expense Logger" {} Sample.world).1
      = .error (.InsufficientBalance "office" 30) ∧
    (debitOfficeForExpense Sample.world.render (some Sample.chair) "Expense Logger"
      Sample.world).1 = .ok () ∧
    (debitOfficeForExpense Sample.world.render (some Sample.chair) "Expense Logger"
      Sample.world).2.toasts
      = [Toast.error (Message.insufficientBalance "office" 30),
         Toast.success (Message.officeDebited 50)] ∧
    (debitOfficeForExpense Sample.world.render (some Sample.chair) "Expense Logger"
      Sample.world).2.store = Sample.world.store :=
  ⟨rfl, by decide, rfl, rfl, rfl, rfl⟩

/-! ## Apply against an underfunded platform wallet -/

/-- C26: for every platform-A or platform-B booking whose base pay is positive
and greater than the balance the render shows for that platform's wallet, apply
throws `InsufficientBalance` at its first step and the store is left as it was:
neither the commission credit nor the office credit is posted. -/
theorem applyBookingWallet_needs_funds (r : Render) (b : Booking) (actor key : String)
    (w : World)
    (hplat : (b.platform = some PLATFORM.ALHIND ∧ key = WALLET_KEYS.ALHIND) ∨
      (b.platform = some PLATFORM.AKBAR ∧ key = WALLET_KEYS.AKBAR))
    (hpos : 0 < b.basePay) (hlow : getWallet r key < b.basePay) :
    applyBookingWallet r (some b) actor w
      = (.error (.InsufficientBalance key (getWallet r key)),
          { w with toasts := w.toasts ++
              [Toast.error (Message.insufficientBalance key (getWallet r key))] }) ∧
    (applyBookingWallet r (some b) actor w).2.store = w.store ∧
    issued w (applyBookingWallet r (some b) actor w).2 = [] := by
  have hres : applyBookingWallet r (some b) actor w
      = (.error (.InsufficientBalance key (getWallet r key)),
          { w with toasts := w.toasts ++
              [Toast.error (Message.insufficientBalance key (getWallet r key))] }) := by
    have hkey : key ≠ "" := by
      rcases hplat with ⟨-, hk⟩ | ⟨-, hk⟩ <;> subst hk <;> decide
    have hg : ¬ (key = "" ∨ b.basePay ≤ 0) := by
      rintro (h | h)
      · exact hkey h
      · omega
    have hb : b.basePay > 0 := hpos
    rcases hplat with ⟨hp, hk⟩ | ⟨hp, hk⟩ <;> subst hk <;>
      simp [applyBookingWallet, platformKey, hp, PLATFORM.ALHIND, PLATFORM.AKBAR,
        PLATFORM.DIRECT, Async.andThen, deductFromWallet, hg, hlow, hb]
  rw [hres]
  exact ⟨rfl, rfl, by simp [issued]⟩

/-- The platform-B booking of base pay 1000 applied against the platform-B
balance of 300. -/
theorem applyBookingWallet_needs_funds_witness :
    ((Sample.bigBase.platform = some PLATFORM.ALHIND ∧ "akbar" = WALLET_KEYS.ALHIND) ∨
      (Sample.bigBase.platform = some PLATFORM.AKBAR ∧ "akbar" = WALLET_KEYS.AKBAR)) ∧
    0 < Sample.bigBase.basePay ∧
    getWallet Sample.world.render "akbar" < Sample.bigBase.basePay ∧
    getWallet Sample.world.render "akbar" = 300 ∧
    (applyBookingWallet Sample.world.render (some Sample.bigBase) "Confirm Booking"
      Sample.world).1 = .error (.InsufficientBalance "akbar" 300) ∧
    (applyBookingWallet Sample.world.render (some Sample.bigBase) "Confirm Booking"
      Sample.world).2.store = Sample.world.store :=
  ⟨by decide, by decide, by decide, by decide, rfl,
    (applyBookingWallet_needs_funds Sample.world.render Sample.bigBase "Confirm Booking"
      "akbar" Sample.world (by decide) (by decide) (by decide)).2.1⟩

/-! ## Debit and credit on a key that does not resolve -/

/-- C30, as stated, fails.  The empty key does not resolve, yet a debit and a
credit of 5 on it return as a success without any error.  The key
"constructor" does not resolve either, but the `wallets` object inherits a
property of that name: the balance is read as `NaN`, not as zero, the
sufficiency check does not fire, and the debit fails with `WalletNotFound`.
And in a loaded session whose platform-B row has no id, the key akbar does not
resolve, the balance is read as 40, and a debit of 5 fails with
`WalletNotFound`. -/
theorem empty_key_returns :
    lookupWallet Sample.world.render "" = none ∧
    deductFromWallet Sample.world.render "" 5 "System" {} Sample.world
      = (.ok (), Sample.world) ∧
    addToWallet Sample.world.render "" 5 "System" {} Sample.world
      = (.ok (), Sample.world) ∧
    lookupWallet Sample.world.render "constructor" = none ∧
    getWallet Sample.world.render "constructor" = Num.NaN ∧
    (deductFromWallet Sample.world.render "constructor" 5 "System" {} Sample.world).1
      = .error (.WalletNotFound "constructor") ∧
    Synced Sample.noId ∧
    lookupWallet Sample.noId.render "akbar" = none ∧
    getWallet Sample.noId.render "akbar" = 40 ∧
    (deductFromWallet Sample.noId.render "akbar" 5 "System" {} Sample.noId).1
      = .error (.WalletNotFound "akbar") :=
  ⟨by decide, rfl, rfl, by decide, by decide, rfl, by decide, by decide, by decide, rfl⟩

/-- C30, amended: for every positive amount and every non-empty key that does
not resolve through the wallet index, `addToWallet` throws `WalletNotFound`
and writes nothing; `deductFromWallet` throws `InsufficientBalance`, before
the wallet is looked up, whenever the balance it reads for the key is below
the amount, and otherwise passes the check and throws `WalletNotFound`; either
way it writes nothing.  The balance is read as zero, so that the debit fails
with `InsufficientBalance`, for every key that is neither a wallet key nor an
inherited property name, for every such key and every wallet key of a provider
that has not loaded, and for every wallet key whose row was absent from the
load; it is read as `NaN`, so that the debit fails with `WalletNotFound`, for
every inherited property name. -/
theorem unresolved_key_error_kinds (r : Render) (key : String) (amount : Int)
    (actor : String) (meta : Meta) (w : World)
    (hkey : key ≠ "") (hpos : 0 < amount) (hun : lookupWallet r key = none) :
    (getWallet r key < amount →
      deductFromWallet r key amount actor meta w
        = (.error (.InsufficientBalance key (getWallet r key)),
            { w with toasts := w.toasts ++
                [Toast.error (Message.insufficientBalance key (getWallet r key))] })) ∧
    (¬ getWallet r key < amount →
      deductFromWallet r key amount actor meta w
        = (.error (.WalletNotFound key),
            { w with toasts := w.toasts ++ [notFoundToast key] })) ∧
    addToWallet r key amount actor meta w
      = (.error (.WalletNotFound key),
          { w with toasts := w.toasts ++ [notFoundToast key] }) ∧
    (getWallet r key = 0 → getWallet r key < amount) ∧
    (key ∉ Object.prototype → WALLET_NAME_MAP key = none → getWallet r key = 0) ∧
    (key ∉ Object.prototype → r.wallets = Wallets.zero → getWallet r key = 0) ∧
    (∀ rows name, r.wallets = (loadWallets.build rows).2 → WALLET_NAME_MAP key = some name →
      liveRow rows name = none → getWallet r key = 0) ∧
    (key ∈ Object.prototype → getWallet r key = Num.NaN ∧ ¬ getWallet r key < amount) := by
  have hg : ¬ (key = "" ∨ amount ≤ 0) := by
    rintro (h | h)
    · exact hkey h
    · omega
  refine ⟨?_, ?_, ?_, ?_, ?_, ?_, ?_, ?_⟩
  · intro hlt
    unfold deductFromWallet
    simp [hg, hlt]
  · intro hnlt
    unfold deductFromWallet Async.andThen recordTransaction
    simp [hg, hnlt, hun, notFoundToast]
  · unfold addToWallet Async.andThen recordTransaction
    simp [hg, hun, notFoundToast]
  · intro hzero
    rw [hzero]
    exact Num.finite_lt.mpr hpos
  · intro hp hname
    exact getWallet_plain r hname hp
  · intro hp hz
    cases hname : WALLET_NAME_MAP key with
    | none => exact getWallet_plain _ hname hp
    | some name =>
      rw [getWallet_mapped _ hname]
      unfold held Wallets.own
      rw [hz]
      simp only [Wallets.zero]
      split
      · rfl
      · split
        · rfl
        · split <;> rfl
  · intro rows name hw hname hlive
    rw [getWallet_mapped _ hname]
    unfold held
    rw [hw, loadWallets.build_own rows key name hname, hlive]
    rfl
  · intro hp
    rw [getWallet_inherited r hp]
    exact ⟨rfl, Num.not_NaN_lt _⟩

/-- A debit and a credit of 5 on the unknown key "savings", on the office key
while the provider has not loaded, and on the inherited name "toString". -/
theorem unresolved_key_error_kinds_witness :
    ("savings" ≠ "" ∧ (0 : Int) < 5 ∧ lookupWallet Sample.world.render "savings" = none ∧
      "savings" ∉ Object.prototype ∧ WALLET_NAME_MAP "savings" = none) ∧
    ("office" ≠ "" ∧ lookupWallet Sample.unloaded.render "office" = none ∧
      "office" ∉ Object.prototype ∧ Sample.unloaded.render.wallets = Wallets.zero) ∧
    ("toString" ≠ "" ∧ lookupWallet Sample.world.render "toString" = none ∧
      "toString" ∈ Object.prototype) ∧
    (deductFromWallet Sample.world.render "savings" 5 "System" {} Sample.world).1
      = .error (.InsufficientBalance "savings" 0) ∧
    (addToWallet Sample.world.render "savings" 5 "System" {} Sample.world).1
      = .error (.WalletNotFound "savings") ∧
    (deductFromWallet Sample.unloaded.render "office" 5 "System" {} Sample.unloaded).1
      = .error (.InsufficientBalance "office" 0) ∧
    (addToWallet Sample.unloaded.render "office" 5 "System" {} Sample.unloaded).1
      = .error (.WalletNotFound "office") ∧
    (addToWallet Sample.unloaded.render "office" 5 "System" {} Sample.unloaded).2.store
      = Sample.unloaded.store ∧
    (deductFromWallet Sample.world.render "toString" 5 "System" {} Sample.world).1
      = .error (.WalletNotFound "toString") ∧
    getWallet Sample.world.render "savings" = 0 ∧
    getWallet Sample.unloaded.render "office" = 0 :=
  ⟨by decide, by decide, by decide, rfl,
    congrArg Prod.fst (unresolved_key_error_kinds Sample.world.render "savings" 5 "System" {}
      Sample.world (by decide) (by decide) (by decide)).2.2.1,
    rfl,
    congrArg Prod.fst (unresolved_key_error_kinds Sample.unloaded.render "office" 5 "System"
      {} Sample.unloaded (by decide) (by decide) (by decide)).2.2.1,
    congrArg (fun x => x.2.store) (unresolved_key_error_kinds Sample.unloaded.render "office"
      5 "System" {} Sample.unloaded (by decide) (by decide) (by decide)).2.2.1,
    congrArg Prod.fst ((unresolved_key_error_kinds Sample.world.render "toString" 5 "System" {}
      Sample.world (by decide) (by decide) (by decide)).2.1
      ((unresolved_key_error_kinds Sample.world.render "toString" 5 "System" {}
        Sample.world (by decide) (by decide) (by decide)).2.2.2.2.2.2.2 (by decide)).2),
    (unresolved_key_error_kinds Sample.world.render "savings" 5 "System" {}
      Sample.world (by decide) (by decide) (by decide)).2.2.2.2.1 (by decide) (by decide),
    (unresolved_key_error_kinds Sample.unloaded.render "office" 5 "System" {}
      Sample.unloaded (by decide) (by decide) (by decide)).2.2.2.2.2.1 (by decide) rfl⟩

/-! ## Unrecognised platform -/

theorem addToWallet_issued_on (r : Render) (key : String) (amount : Int) (actor : String)
    (meta : Meta) (w : World) (p : Posting)
    (hp : p ∈ issued w (addToWallet r key amount actor meta w).2) :
    walletIdOf r key = some p.wallet_id := by
  cases hres : addToWallet r key amount actor meta w with
  | mk res w' =>
    rw [hres] at hp
    cases res with
    | ok u =>
      have hentry := posted_issued (addToWallet_posts r key amount actor meta w w' hres)
      have hmem : p.entry ∈ (issued w w').map Posting.entry := List.mem_map_of_mem _ hp
      rw [hentry] at hmem
      split at hmem
      · simp at hmem
      · simp only [List.map_cons, List.map_nil, List.mem_singleton, keyEntry, Posting.entry,
          Prod.mk.injEq] at hmem
        exact hmem.1.symm
    | error e =>
      rw [untouched_issued (addToWallet_error hres).2] at hp
      simp at hp

theorem deductFromWallet_issued_on (r : Render) (key : String) (amount : Int) (actor : String)
    (meta : Meta) (w : World) (p : Posting)
    (hp : p ∈ issued w (deductFromWallet r key amount actor meta w).2) :
    walletIdOf r key = some p.wallet_id := by
  cases hres : deductFromWallet r key amount actor meta w with
  | mk res w' =>
    rw [hres] at hp
    cases res with
    | ok u =>
      have hentry := posted_issued (deductFromWallet_posts r key amount actor meta w w' hres)
      have hmem : p.entry ∈ (issued w w').map Posting.entry := List.mem_map_of_mem _ hp
      rw [hentry] at hmem
      split at hmem
      · simp at hmem
      · simp only [List.map_cons, List.map_nil, List.mem_singleton, keyEntry, Posting.entry,
          Prod.mk.injEq] at hmem
        exact hmem.1.symm
    | error e =>
      rw [untouched_issued (deductFromWallet_error hres)] at hp
      simp at hp

theorem issued_self (w : World) : issued w w = [] := by
  simp [issued]

/-- For a booking of an unrecognised platform, apply is the guarded office
credit and the un-confirm reversal the guarded office debit, and nothing
else. -/
theorem unrecognised_platform_steps (r : Render) (b : Booking) (actor : String) (w : World)
    (hA : b.platform ≠ some PLATFORM.ALHIND) (hB : b.platform ≠ some PLATFORM.AKBAR)
    (hD : b.platform ≠ some PLATFORM.DIRECT) :
    applyBookingWallet r (some b) actor w
      = (if b.basePay + b.markupAmount > 0 then
          addToWallet r WALLET_KEYS.OFFICE (b.basePay + b.markupAmount) actor
            { bookingId := some b.id, action := some "apply",
              description := some "Office profit: base + markup" }
         else Async.done) w ∧
    refundBookingWallet r (some b) actor w
      = (if b.basePay + b.markupAmount > 0 then
          deductFromWallet r WALLET_KEYS.OFFICE (b.basePay + b.markupAmount) actor
            { bookingId := some b.id, action := some "refund_unconfirm",
              description := some "Refund: base + markup → Office" }
         else Async.done) w := by
  have hpk : platformKey b = none := by simp [platformKey, hA, hB]
  constructor
  · unfold applyBookingWallet
    simp only [hD, if_false, hpk, Async.andThen, Async.done]
  · unfold refundBookingWallet
    simp only [hD, if_false, hpk, Async.andThen, Async.done]

/-- C28: for every booking whose platform is none of Alhind, Akbar, Direct
(a missing platform included), apply throws no error of its own: it returns at
once when `basePay + markupAmount ≤ 0`, and otherwise, when the office key
resolves and the store accepts the insert, it succeeds with the single posting
of `+(basePay + markupAmount)` on the office wallet; whatever the outcome it
writes no posting on another wallet.  The un-confirm reversal symmetrically
issues only the office debit (which needs an office balance of at least the
sum). -/
theorem unrecognised_platform (r : Render) (b : Booking) (actor : String) (w : World)
    (hA : b.platform ≠ some PLATFORM.ALHIND) (hB : b.platform ≠ some PLATFORM.AKBAR)
    (hD : b.platform ≠ some PLATFORM.DIRECT) :
    (b.basePay + b.markupAmount ≤ 0 →
      applyBookingWallet r (some b) actor w = (.ok (), w) ∧
      refundBookingWallet r (some b) actor w = (.ok (), w)) ∧
    (∀ wallet, 0 < b.basePay + b.markupAmount →
      lookupWallet r WALLET_KEYS.OFFICE = some wallet → w.store.Accepting →
      (applyBookingWallet r (some b) actor w).1 = .ok () ∧
      ∃ p, (applyBookingWallet r (some b) actor w).2.store.wallet_transactions
          = w.store.wallet_transactions ++ [p] ∧
        p.wallet_id = wallet.id ∧ p.amount = b.basePay + b.markupAmount) ∧
    (∀ wallet, 0 < b.basePay + b.markupAmount →
      b.basePay + b.markupAmount ≤ getWallet r WALLET_KEYS.OFFICE →
      lookupWallet r WALLET_KEYS.OFFICE = some wallet → w.store.Accepting →
      (refundBookingWallet r (some b) actor w).1 = .ok () ∧
      ∃ p, (refundBookingWallet r (some b) actor w).2.store.wallet_transactions
          = w.store.wallet_transactions ++ [p] ∧
        p.wallet_id = wallet.id ∧ p.amount = -(b.basePay + b.markupAmount)) ∧
    (∀ p ∈ issued w (applyBookingWallet r (some b) actor w).2,
      walletIdOf r WALLET_KEYS.OFFICE = some p.wallet_id) ∧
    (∀ p ∈ issued w (refundBookingWallet r (some b) actor w).2,
      walletIdOf r WALLET_KEYS.OFFICE = some p.wallet_id) := by
  obtain ⟨happly, hrefund⟩ := unrecognised_platform_steps r b actor w hA hB hD
  rw [happly, hrefund]
  refine ⟨?_, ?_, ?_, ?_, ?_⟩
  · intro hle
    have hc : ¬ (b.basePay + b.markupAmount > 0) := by omega
    simp [hc, Async.done]
  · intro wallet hpos hl hacc
    have hc : b.basePay + b.markupAmount > 0 := hpos
    simp only [hc, if_true]
    exact addToWallet_writes actor _ office_ne_empty hpos hl hacc
  · intro wallet hpos hbal hl hacc
    have hc : b.basePay + b.markupAmount > 0 := hpos
    simp only [hc, if_true]
    exact deductFromWallet_writes actor _ office_ne_empty hpos hbal hl hacc
  · intro p hp
    split at hp
    · exact addToWallet_issued_on r _ _ actor _ w p hp
    · simp [Async.done, issued_self] at hp
  · intro p hp
    split at hp
    · exact deductFromWallet_issued_on r _ _ actor _ w p hp
    · simp [Async.done, issued_self] at hp

/-- A booking without platform (base pay 400, markup 100, commission 70) on
the sample session: apply writes the single posting office +500, and the
reversal that follows the single posting office -500. -/
theorem unrecognised_platform_witness :
    (Sample.walkIn.platform ≠ some PLATFORM.ALHIND ∧
      Sample.walkIn.platform ≠ some PLATFORM.AKBAR ∧
      Sample.walkIn.platform ≠ some PLATFORM.DIRECT) ∧
    (0 < Sample.walkIn.basePay + Sample.walkIn.markupAmount ∧
      lookupWallet Sample.world.render WALLET_KEYS.OFFICE
        = some { id := 3, name := "Office-Funds", balance := 30 } ∧
      Sample.world.store.Accepting) ∧
    (issued Sample.world Sample.afterWalkIn).map Posting.entry = [(some 3, 500)] ∧
    (refundBookingWallet Sample.afterWalkIn.render (some Sample.walkIn) "Unconfirm"
      Sample.afterWalkIn).1 = .ok () ∧
    (issued Sample.afterWalkIn
      (refundBookingWallet Sample.afterWalkIn.render (some Sample.walkIn) "Unconfirm"
        Sample.afterWalkIn).2).map Posting.entry = [(some 3, -500)] ∧
    ((applyBookingWallet Sample.world.render (some Sample.walkIn) "Confirm Booking"
        Sample.world).1 = .ok () ∧
      ∃ p, (applyBookingWallet Sample.world.render (some Sample.walkIn) "Confirm Booking"
          Sample.world).2.store.wallet_transactions
          = Sample.world.store.wallet_transactions ++ [p] ∧
        p.wallet_id = 3 ∧ p.amount = Sample.walkIn.basePay + Sample.walkIn.markupAmount) :=
  ⟨by decide, by decide, by decide, rfl, by decide,
    (unrecognised_platform Sample.world.render Sample.walkIn "Confirm Booking" Sample.world
      (by decide) (by decide) (by decide)).2.1
      { id := 3, name := "Office-Funds", balance := 30 } (by decide) (by decide) (by decide)⟩

/-! ## Applying twice -/

theorem creditAll_ids (ps : List Posting) (rows : List WalletRow) :
    (creditAll ps rows).map WalletRow.id = rows.map WalletRow.id := by
  rw [creditAll_balance, List.map_map]
  rfl

theorem applyPlan_office (b : Booking) (hinc : 0 < b.basePay + b.markupAmount) :
    planSum (applyPlan b) WALLET_KEYS.OFFICE = b.basePay + b.markupAmount ∧
    applyPlan b ≠ [] := by
  have hc : b.basePay + b.markupAmount > 0 := hinc
  unfold applyPlan
  by_cases hd : b.platform = some PLATFORM.DIRECT
  · simp [hd, hc, planSum, List.filter_cons]
  · simp only [hd, if_false, hc, if_true]
    cases hpk : platformKey b with
    | none => simp [planSum, List.filter_cons]
    | some pk =>
      have hne : pk ≠ WALLET_KEYS.OFFICE := by
        rcases platformKey_some hpk with h | h <;> subst h <;> decide
      by_cases h1 : b.basePay > 0 <;> by_cases h2 : b.commissionAmount > 0 <;>
        simp [planSum, List.filter_cons, h1, h2, hne]

/-- C22, as stated, fails: when the last reload of the second apply fails,
Scenario A applied twice in a row on the sample session succeeds twice and
writes its postings twice, but the office is shown at 1230, not at
30 + 2 * 1200.  And on the session whose snapshot is stale (the office shown
at 30, the store holding 35), with no failing read, the two applies move the
office shown from 30 to 2435. -/
theorem second_apply_not_shown :
    0 < Sample.scenarioA.basePay + Sample.scenarioA.markupAmount ∧
    Synced Sample.lateFailure ∧
    (applyBookingWallet Sample.lateFailure.render (some Sample.scenarioA) "Confirm Booking"
      Sample.lateFailure).1 = .ok () ∧
    (applyBookingWallet Sample.lateApplied.render (some Sample.scenarioA) "Confirm Booking"
      Sample.lateApplied).1 = .ok () ∧
    (issued Sample.lateApplied
      (applyBookingWallet Sample.lateApplied.render (some Sample.scenarioA) "Confirm Booking"
        Sample.lateApplied).2).map Posting.entry
      = [(some 1, -1000), (some 1, 150), (some 3, 1200)] ∧
    getWallet Sample.lateFailure.render "office" = 30 ∧
    getWallet (applyBookingWallet Sample.lateApplied.render (some Sample.scenarioA)
      "Confirm Booking" Sample.lateApplied).2.render "office" = 1230 ∧
    getWallet (applyBookingWallet Sample.lateApplied.render (some Sample.scenarioA)
      "Confirm Booking" Sample.lateApplied).2.render "office"
      ≠ getWallet Sample.lateFailure.render "office"
        + ((2 * (Sample.scenarioA.basePay + Sample.scenarioA.markupAmount) : Int) : Num) ∧
    ¬ Synced Sample.stale ∧ Sample.stale.store.Reads ∧
    (runAll [.applyBookingWallet (some Sample.scenarioA) "Confirm Booking",
      .applyBookingWallet (some Sample.scenarioA) "Confirm Booking"]
      Sample.stale).isSome = true ∧
    getWallet Sample.stale.render "office" = 30 ∧
    getWallet (runEach [.applyBookingWallet (some Sample.scenarioA) "Confirm Booking",
      .applyBookingWallet (some Sample.scenarioA) "Confirm Booking"]
      Sample.stale).render "office" = 2435 :=
  ⟨by decide, by decide, rfl, rfl, by decide⟩

/-- C22, amended: the engine keeps no record of an earlier apply.  For every
booking with `basePay + markupAmount > 0`, in a loaded session with unique
wallet ids in which no read of the wallets fails, two successful applies in a
row each write the settlement's postings (the second writes the same list
again, and the list is not empty), and the office balance ends
`2 * (basePay + markupAmount)` above its value before the first apply. -/
theorem applyBookingWallet_twice (b : Booking) (actor actor' : String) (w w1 w2 : World)
    (hinc : 0 < b.basePay + b.markupAmount)
    (hsync : Synced w) (hsel : w.store.Reads)
    (hnd : (w.store.wallets.map WalletRow.id).Nodup)
    (h1 : applyBookingWallet w.render (some b) actor w = (.ok (), w1))
    (h2 : applyBookingWallet w1.render (some b) actor' w1 = (.ok (), w2)) :
    issued w w1 ≠ [] ∧
    (issued w1 w2).map Posting.entry = (issued w w1).map Posting.entry ∧
    w2.store.wallet_transactions
      = w.store.wallet_transactions ++ issued w w1 ++ issued w1 w2 ∧
    getWallet w2.render WALLET_KEYS.OFFICE
      = getWallet w.render WALLET_KEYS.OFFICE
        + ((2 * (b.basePay + b.markupAmount) : Int) : Num) := by
  have ht0 : Tracks w.render w := tracks_render hsync hsel
  have ht1 : Tracks w.render w1 := by
    have := applyBookingWallet_keeps (tracks_stable w.render) (some b) actor w ht0
    rwa [h1] at this
  have ht1' : Tracks w1.render w1 := tracks_render ht1.2.2.1 ht1.2.2.2
  have ht2 : Tracks w1.render w2 := by
    have := applyBookingWallet_keeps (tracks_stable w1.render) (some b) actor' w1 ht1'
    rwa [h2] at this
  have hp1 := applyBookingWallet_posts w.render b actor w w1 h1
  have hp2 := applyBookingWallet_posts w1.render b actor' w1 w2 h2
  have hnd1 : (w1.store.wallets.map WalletRow.id).Nodup := by
    obtain ⟨ps, -, hrows, -⟩ := hp1
    rw [hrows, creditAll_ids]
    exact hnd
  obtain ⟨hsum, hne⟩ := applyPlan_office b hinc
  have hoffice : WALLET_NAME_MAP WALLET_KEYS.OFFICE = some "Office-Funds" := by decide
  have hkey : keyEntry w1.render = keyEntry w.render := by
    funext ka
    simp [keyEntry, walletIdOf_of_tracks ht1]
  refine ⟨?_, ?_, ?_, ?_⟩
  · intro hnil
    have := posted_issued hp1
    rw [hnil] at this
    simp only [List.map_nil] at this
    exact hne (List.map_eq_nil_iff.mp this.symm)
  · rw [posted_issued hp1, posted_issued hp2, hkey]
  · rw [posted_ledger hp2, posted_ledger hp1]
  · rw [getWallet_mapped _ hoffice, getWallet_mapped _ hoffice, Num.finite_add,
      posted_net ht1' ht2 hnd1 hp2 hoffice, posted_net ht0 ht1 hnd hp1 hoffice, hsum]
    congr 1
    omega

/-- Scenario A applied twice on the sample session: the same three postings
are written again and the office goes from 30 to 2430. -/
theorem applyBookingWallet_twice_witness :
    0 < Sample.scenarioA.basePay + Sample.scenarioA.markupAmount ∧
    Synced Sample.world ∧ Sample.world.store.Reads ∧
    (Sample.world.store.wallets.map WalletRow.id).Nodup ∧
    applyBookingWallet Sample.world.render (some Sample.scenarioA) "Confirm Booking"
      Sample.world = (.ok (), Sample.afterA) ∧
    applyBookingWallet Sample.afterA.render (some Sample.scenarioA) "Confirm Booking"
      Sample.afterA = (.ok (), Sample.afterAA) ∧
    (issued Sample.afterA Sample.afterAA).map Posting.entry
      = [(some 1, -1000), (some 1, 150), (some 3, 1200)] ∧
    getWallet Sample.world.render "office" = 30 ∧
    getWallet Sample.afterAA.render "office" = 2430 ∧
    getWallet Sample.afterAA.render WALLET_KEYS.OFFICE
      = getWallet Sample.world.render WALLET_KEYS.OFFICE
        + ((2 * (Sample.scenarioA.basePay + Sample.scenarioA.markupAmount) : Int) : Num) :=
  ⟨by decide, by decide, by decide, by decide, rfl, rfl, by decide, by decide, by decide,
    (applyBookingWallet_twice Sample.scenarioA "Confirm Booking" "Confirm Booking"
      Sample.world Sample.afterA Sample.afterAA (by decide) (by decide) (by decide)
      (by decide) rfl rfl).2.2.2⟩

/-! ## Expense round trip -/

theorem debitOfficeForExpense_posted {r : Render} {e : Expense} {amount : Int} (user : String)
    {w : World} {wallet : WalletRow} (ha : e.amount = some amount) (hpos : 0 < amount)
    (hbal : (amount : Num) ≤ getWallet r WALLET_KEYS.OFFICE)
    (hl : lookupWallet r WALLET_KEYS.OFFICE = some wallet) (hacc : w.store.Accepting) :
    Posted r w (debitOfficeForExpense r (some e) user w).2 [(WALLET_KEYS.OFFICE, -amount)] := by
  have hw := deductFromWallet_writes user
    { expenseId := some e.id, description := some e.description,
      category := some e.category, action := some "expense_debit" }
    office_ne_empty hpos hbal hl hacc
  have hposts := deductFromWallet_posts r WALLET_KEYS.OFFICE amount user
    { expenseId := some e.id, description := some e.description,
      category := some e.category, action := some "expense_debit" } w _
    (Prod.ext hw.1 rfl)
  have hg : ¬ (WALLET_KEYS.OFFICE = "" ∨ amount ≤ 0) := by
    rintro (h | h)
    · exact office_ne_empty h
    · omega
  simp only [hg, if_false] at hposts
  unfold debitOfficeForExpense
  rw [validExpenseAmount_valid ha hpos]
  exact hposts

theorem refundExpenseToOffice_posted {r : Render} {e : Expense} {amount : Int} (user : String)
    {w : World} {wallet : WalletRow} (ha : e.amount = some amount) (hpos : 0 < amount)
    (hl : lookupWallet r WALLET_KEYS.OFFICE = some wallet) (hacc : w.store.Accepting) :
    Posted r w (refundExpenseToOffice r (some e) user w).2 [(WALLET_KEYS.OFFICE, amount)] := by
  have hw := addToWallet_writes user
    { expenseId := some e.id, description := some ("Refund: " ++ e.description),
      category := some e.category, action := some "expense_refund_on_delete" }
    office_ne_empty hpos hl hacc
  have hposts := addToWallet_posts r WALLET_KEYS.OFFICE amount user
    { expenseId := some e.id, description := some ("Refund: " ++ e.description),
      category := some e.category, action := some "expense_refund_on_delete" } w _
    (Prod.ext hw.1 rfl)
  have hg : ¬ (WALLET_KEYS.OFFICE = "" ∨ amount ≤ 0) := by
    rintro (h | h)
    · exact office_ne_empty h
    · omega
  simp only [hg, if_false] at hposts
  unfold refundExpenseToOffice
  rw [validExpenseAmount_valid ha hpos]
  exact hposts

/-- C29, as stated, fails.  When the reload after the refund fails, the paper
expense of 20 logged and then deleted on the sample session (office 30) writes
office -20 and office +20, but the office is shown at 10, not at 30.  And when
the store refuses the second insert, the refund writes nothing: the office
stays at 10 in the store too.  And on the session whose snapshot is stale (the
office shown at 30, the store holding 35), with no failing read or insert, the
round trip leaves the office shown at 35. -/
theorem expense_round_trip_not_shown :
    (Sample.paper.amount = some 20 ∧ (0 : Int) < 20 ∧
      (20 : Int) ≤ getWallet (Sample.reading [false, true]).render WALLET_KEYS.OFFICE) ∧
    getWallet (Sample.reading [false, true]).render "office" = 30 ∧
    (issued (Sample.reading [false, true])
      (runEach [.debitOfficeForExpense (some Sample.paper) "Expense Logger",
        .refundExpenseToOffice (some Sample.paper) "Expense Deleted"]
        (Sample.reading [false, true]))).map Posting.entry = [(some 3, -20), (some 3, 20)] ∧
    getWallet (runEach [.debitOfficeForExpense (some Sample.paper) "Expense Logger",
        .refundExpenseToOffice (some Sample.paper) "Expense Deleted"]
        (Sample.reading [false, true])).render "office" = 10 ∧
    getWallet (runEach [.debitOfficeForExpense (some Sample.paper) "Expense Logger",
        .refundExpenseToOffice (some Sample.paper) "Expense Deleted"]
        (Sample.reading [false, true])).render "office"
      ≠ getWallet (Sample.reading [false, true]).render "office" ∧
    (20 : Int) ≤ getWallet Sample.flaky.render WALLET_KEYS.OFFICE ∧
    (issued Sample.flaky
      (runEach [.debitOfficeForExpense (some Sample.paper) "Expense Logger",
        .refundExpenseToOffice (some Sample.paper) "Expense Deleted"]
        Sample.flaky)).map Posting.entry = [(some 3, -20)] ∧
    getWallet (runEach [.debitOfficeForExpense (some Sample.paper) "Expense Logger",
        .refundExpenseToOffice (some Sample.paper) "Expense Deleted"]
        Sample.flaky).render "office" = 10 ∧
    ¬ Synced Sample.stale ∧ Sample.stale.store.Reads ∧
    getWallet Sample.stale.render "office" = 30 ∧
    (issued Sample.stale
      (runEach [.debitOfficeForExpense (some Sample.paper) "Expense Logger",
        .refundExpenseToOffice (some Sample.paper) "Expense Deleted"]
        Sample.stale)).map Posting.entry = [(some 3, -20), (some 3, 20)] ∧
    getWallet (runEach [.debitOfficeForExpense (some Sample.paper) "Expense Logger",
        .refundExpenseToOffice (some Sample.paper) "Expense Deleted"]
        Sample.stale).render "office" = 35 := by
  decide

/-- C29, amended: in a loaded session in which no read of the wallets fails
and whose office key resolves, for every expense with `amount > 0` and an
office balance of at least `amount`, when the store accepts the two inserts,
`debitOfficeForExpense` followed by `refundExpenseToOffice` writes the posting
office `-amount` and then the posting office `+amount`, and leaves every cached
balance of the store and the balance shown for every key (office and both
platforms) equal to its value before the debit. -/
theorem expense_round_trip (e : Expense) (amount : Int) (user user' : String)
    (w w1 w2 : World) (wallet : WalletRow)
    (ha : e.amount = some amount) (hpos : 0 < amount)
    (hbal : amount ≤ getWallet w.render WALLET_KEYS.OFFICE)
    (hsync : Synced w) (hsel : w.store.Reads)
    (hacc : w.store.Accepting) (hacc1 : w1.store.Accepting)
    (hl : lookupWallet w.render WALLET_KEYS.OFFICE = some wallet)
    (h1 : w1 = (debitOfficeForExpense w.render (some e) user w).2)
    (h2 : w2 = (refundExpenseToOffice w1.render (some e) user' w1).2) :
    (issued w w1).map Posting.entry = [(some wallet.id, -amount)] ∧
    (issued w1 w2).map Posting.entry = [(some wallet.id, amount)] ∧
    w2.store.wallet_transactions
      = w.store.wallet_transactions ++ issued w w1 ++ issued w1 w2 ∧
    w2.store.wallets = w.store.wallets ∧
    ∀ key, getWallet w2.render key = getWallet w.render key := by
  have hid : walletIdOf w.render WALLET_KEYS.OFFICE = some wallet.id := by
    simp [walletIdOf, hl]
  have ht0 : Tracks w.render w := tracks_render hsync hsel
  have ht1 : Tracks w.render w1 := by
    rw [h1]
    exact debitOfficeForExpense_keeps (tracks_stable w.render) (some e) user w ht0
  have ht1' : Tracks w1.render w1 := tracks_render ht1.2.2.1 ht1.2.2.2
  have ht2 : Tracks w1.render w2 := by
    rw [h2]
    exact refundExpenseToOffice_keeps (tracks_stable w1.render) (some e) user' w1 ht1'
  have hid1 : walletIdOf w1.render WALLET_KEYS.OFFICE = some wallet.id := by
    rw [walletIdOf_of_tracks ht1]
    exact hid
  have hl1 : ∃ wallet1, lookupWallet w1.render WALLET_KEYS.OFFICE = some wallet1 := by
    cases hlook : lookupWallet w1.render WALLET_KEYS.OFFICE with
    | none => simp [walletIdOf, hlook] at hid1
    | some wallet1 => exact ⟨wallet1, rfl⟩
  obtain ⟨wallet1, hl1⟩ := hl1
  have hp1 : Posted w.render w w1 [(WALLET_KEYS.OFFICE, -amount)] := by
    rw [h1]
    exact debitOfficeForExpense_posted user ha hpos hbal hl hacc
  have hp2 : Posted w1.render w1 w2 [(WALLET_KEYS.OFFICE, amount)] := by
    have hacc2 := hacc1
    rw [h2]
    exact refundExpenseToOffice_posted user' ha hpos hl1 hacc2
  have he1 : (issued w w1).map Posting.entry = [(some wallet.id, -amount)] := by
    rw [posted_issued hp1]
    simp [keyEntry, hid]
  have he2 : (issued w1 w2).map Posting.entry = [(some wallet.id, amount)] := by
    rw [posted_issued hp2]
    simp [keyEntry, hid1]
  have hrows : w2.store.wallets = w.store.wallets := by
    have hl1' := posted_ledger hp1
    have hl2' := posted_ledger hp2
    obtain ⟨ps, hps, hr1, -⟩ := hp1
    obtain ⟨qs, hqs, hr2, -⟩ := hp2
    have hps' : issued w w1 = ps := by
      unfold issued
      rw [hps, List.drop_left]
    have hqs' : issued w1 w2 = qs := by
      unfold issued
      rw [hqs, List.drop_left]
    rw [hr2, hr1]
    apply creditAll_mirror
    rw [← hps', ← hqs', he1, he2]
    simp
  refine ⟨he1, he2, ?_, hrows, ?_⟩
  · rw [posted_ledger hp2, posted_ledger hp1]
  · have hu : w2.user = w.user := by
      rw [tracks_user ht2]
      exact tracks_user ht1
    have hsame := synced_same hsync ht2.2.2.1 hu hrows
    intro key
    exact getWallet_congr hsame.1 key

/-- The paper expense of 20 logged and then deleted on the sample session: the
postings office -20 and office +20, and the office back at 30. -/
theorem expense_round_trip_witness :
    (Sample.paper.amount = some 20 ∧ (0 : Int) < 20 ∧
      (20 : Int) ≤ getWallet Sample.world.render WALLET_KEYS.OFFICE) ∧
    (Synced Sample.world ∧ Sample.world.store.Reads ∧
      Sample.world.store.Accepting ∧ Sample.afterPaper.store.Accepting) ∧
    lookupWallet Sample.world.render WALLET_KEYS.OFFICE
      = some { id := 3, name := "Office-Funds", balance := 30 } ∧
    getWallet Sample.afterPaper.render "office" = 10 ∧
    ((issued Sample.world Sample.afterPaper).map Posting.entry = [(some 3, -20)] ∧
      (issued Sample.afterPaper Sample.paperDeleted).map Posting.entry = [(some 3, 20)] ∧
      Sample.paperDeleted.store.wallet_transactions
        = Sample.world.store.wallet_transactions ++ issued Sample.world Sample.afterPaper
          ++ issued Sample.afterPaper Sample.paperDeleted ∧
      Sample.paperDeleted.store.wallets = Sample.world.store.wallets ∧
      ∀ key, getWallet Sample.paperDeleted.render key = getWallet Sample.world.render key) :=
  ⟨by decide, by decide, by decide, by decide,
    expense_round_trip Sample.paper 20 "Expense Logger" "Expense Deleted" Sample.world
      Sample.afterPaper Sample.paperDeleted { id := 3, name := "Office-Funds", balance := 30 }
      rfl (by decide) (by decide) (by decide) (by decide) (by decide) (by decide) (by decide)
      rfl rfl⟩

/-! ## The posting record -/

theorem writes_issued {Q : Posting → Prop} {a : Async} (h : Async.WritesOnly Q a) (w : World)
    (p : Posting) (hp : p ∈ issued w (a w).2) : Q p := by
  obtain ⟨ps, hl, hq⟩ := h w
  unfold issued at hp
  rw [hl, List.drop_left] at hp
  exact hq p hp

theorem writes_done (Q : Posting → Prop) : Async.WritesOnly Q Async.done :=
  fun w => ⟨[], by simp [Async.done], by simp⟩

theorem writes_toast (Q : Posting → Prop) (t : Toast) : Async.WritesOnly Q (Async.toast t) :=
  fun w => ⟨[], by simp [Async.toast], by simp⟩

theorem writes_mono {Q Q' : Posting → Prop} {a : Async} (h : Async.WritesOnly Q a)
    (hq : ∀ p, Q p → Q' p) : Async.WritesOnly Q' a := by
  intro w
  obtain ⟨ps, hl, hps⟩ := h w
  exact ⟨ps, hl, fun p hp => hq p (hps p hp)⟩

theorem writes_andThen {Q : Posting → Prop} {a b : Async} (ha : Async.WritesOnly Q a)
    (hb : Async.WritesOnly Q b) : Async.WritesOnly Q (Async.andThen a b) := by
  intro w
  obtain ⟨ps, hl, hps⟩ := ha w
  unfold Async.andThen
  cases hres : a w with
  | mk res w1 =>
    rw [hres] at hl
    cases res with
    | ok u =>
      obtain ⟨qs, hl2, hqs⟩ := hb w1
      refine ⟨ps ++ qs, ?_, ?_⟩
      · simp only []
        rw [hl2, hl, List.append_assoc]
      · intro p hp
        rcases List.mem_append.mp hp with h | h
        · exact hps p h
        · exact hqs p h
    | error e => exact ⟨ps, hl, hps⟩

theorem writes_ite {Q : Posting → Prop} {a b : Async} (c : Prop) [Decidable c]
    (ha : Async.WritesOnly Q a) (hb : Async.WritesOnly Q b) :
    Async.WritesOnly Q (if c then a else b) := by
  split
  · exact ha
  · exact hb

/-- What `recordTransaction` adds to the ledger is at most its `payload`. -/
theorem recordTransaction_writesOnly (r : Render) (key : String) (delta : Int) (meta : Meta)
    (actor : String) :
    Async.WritesOnly (Payload r delta meta) (recordTransaction r key delta meta actor) := by
  intro w
  unfold recordTransaction
  cases lookupWallet r key with
  | none => exact ⟨[], by simp, by simp⟩
  | some wallet =>
    simp only []
    by_cases hd : delta = 0
    · simp only [hd, if_true]
      exact ⟨[], by simp, by simp⟩
    · simp only [hd, if_false]
      have hpay : Payload r delta meta
          { wallet_id := wallet.id, booking_id := orNull meta.bookingId, amount := delta,
            description := (orElse (orElse meta.description meta.action)
              (some "Wallet transaction")).getD "",
            created_by := orElse (r.user.map User.id) none } := ⟨rfl, rfl, rfl, rfl⟩
      revert hpay
      generalize
        ({ wallet_id := wallet.id, booking_id := orNull meta.bookingId, amount := delta,
           description := (orElse (orElse meta.description meta.action)
             (some "Wallet transaction")).getD "",
           created_by := orElse (r.user.map User.id) none } : Posting) = payload
      intro hpay
      unfold Store.insert
      cases hs : w.store.insertErrors with
      | nil =>
        simp only []
        refine ⟨[payload], ?_, ?_⟩
        · rw [(loadWallets_tables r _).2]
          rfl
        · intro p hp
          rw [List.mem_singleton.mp hp]
          exact hpay
      | cons x rest =>
        cases x with
        | none =>
          simp only []
          refine ⟨[payload], ?_, ?_⟩
          · rw [(loadWallets_tables r _).2]
            rfl
          · intro p hp
            rw [List.mem_singleton.mp hp]
            exact hpay
        | some msg =>
          simp only []
          exact ⟨[], by simp, by simp⟩

theorem addToWallet_writesOnly (r : Render) (key : String) (amount : Int) (actor : String)
    (meta : Meta) :
    Async.WritesOnly (Payload r amount meta) (addToWallet r key amount actor meta) := by
  intro w
  unfold addToWallet
  by_cases hg : key = "" ∨ amount ≤ 0
  · simp only [hg, if_true]
    exact ⟨[], by simp, by simp⟩
  · simp only [hg, if_false]
    have habs : Math.abs amount = amount := Math.abs_of_pos (fun h => hg (Or.inr h))
    have h := writes_andThen (recordTransaction_writesOnly r key (Math.abs amount) meta actor)
      (writes_toast _ (Toast.success (Message.credited amount key)))
    rw [habs] at h
    rw [habs]
    exact h w

theorem deductFromWallet_writesOnly (r : Render) (key : String) (amount : Int)
    (actor : String) (meta : Meta) :
    Async.WritesOnly (Payload r (-amount) meta) (deductFromWallet r key amount actor meta) := by
  intro w
  unfold deductFromWallet
  by_cases hg : key = "" ∨ amount ≤ 0
  · simp only [hg, if_true]
    exact ⟨[], by simp, by simp⟩
  · simp only [hg, if_false]
    by_cases hc : getWallet r key < amount
    · simp only [hc, if_true]
      exact ⟨[], by simp, by simp⟩
    · simp only [hc, if_false]
      have habs : Math.abs amount = amount := Math.abs_of_pos (fun h => hg (Or.inr h))
      have h := writes_andThen
        (recordTransaction_writesOnly r key (-(Math.abs amount)) meta actor)
        (writes_toast _ (Toast.success (Message.debited amount key)))
      rw [habs] at h
      rw [habs]
      exact h w

theorem applyBookingWallet_writesOnly (r : Render) (b : Booking) (actor : String) :
    Async.WritesOnly
      (SettlementRecord r b "apply" "Office profit: base + markup"
        "Direct: base + markup → Office" (-b.basePay) (b.commissionAmount)
        (b.basePay + b.markupAmount))
      (applyBookingWallet r (some b) actor) := by
  unfold applyBookingWallet
  simp only []
  split
  · refine writes_ite _ (writes_mono (addToWallet_writesOnly r _ _ actor _) ?_) (writes_done _)
    intro p hp
    exact ⟨hp.2.2.2, hp.2.1, Or.inr (Or.inr ⟨hp.1, Or.inr (by rw [hp.2.2.1]; rfl)⟩)⟩
  · refine writes_andThen ?_
      (writes_ite _ (writes_mono (addToWallet_writesOnly r _ _ actor _) ?_) (writes_done _))
    · cases platformKey b with
      | none => exact writes_done _
      | some pk =>
        refine writes_andThen
          (writes_ite _ (writes_mono (deductFromWallet_writesOnly r _ _ actor _) ?_) (writes_done _))
          (writes_ite _ (writes_mono (addToWallet_writesOnly r _ _ actor _) ?_) (writes_done _))
        · intro p hp
          exact ⟨hp.2.2.2, hp.2.1, Or.inl ⟨hp.1, by rw [hp.2.2.1]; rfl⟩⟩
        · intro p hp
          exact ⟨hp.2.2.2, hp.2.1, Or.inr (Or.inl ⟨hp.1, by rw [hp.2.2.1]; rfl⟩)⟩
    · intro p hp
      exact ⟨hp.2.2.2, hp.2.1, Or.inr (Or.inr ⟨hp.1, Or.inl (by rw [hp.2.2.1]; rfl)⟩)⟩

theorem refundBookingWallet_writesOnly (r : Render) (b : Booking) (actor : String) :
    Async.WritesOnly
      (SettlementRecord r b "refund_unconfirm" "Refund: base + markup → Office"
        "Refund: base + markup → Office" (b.basePay) (-b.commissionAmount)
        (-(b.basePay + b.markupAmount)))
      (refundBookingWallet r (some b) actor) := by
  unfold refundBookingWallet
  simp only []
  split
  · refine writes_ite _ (writes_mono (deductFromWallet_writesOnly r _ _ actor _) ?_) (writes_done _)
    intro p hp
    exact ⟨hp.2.2.2, hp.2.1, Or.inr (Or.inr ⟨hp.1, Or.inr (by rw [hp.2.2.1]; rfl)⟩)⟩
  · refine writes_andThen ?_
      (writes_ite _ (writes_mono (deductFromWallet_writesOnly r _ _ actor _) ?_) (writes_done _))
    · cases platformKey b with
      | none => exact writes_done _
      | some pk =>
        refine writes_andThen
          (writes_ite _ (writes_mono (addToWallet_writesOnly r _ _ actor _) ?_) (writes_done _))
          (writes_ite _ (writes_mono (deductFromWallet_writesOnly r _ _ actor _) ?_) (writes_done _))
        · intro p hp
          exact ⟨hp.2.2.2, hp.2.1, Or.inl ⟨hp.1, by rw [hp.2.2.1]; rfl⟩⟩
        · intro p hp
          exact ⟨hp.2.2.2, hp.2.1, Or.inr (Or.inl ⟨hp.1, by rw [hp.2.2.1]; rfl⟩)⟩
    · intro p hp
      exact ⟨hp.2.2.2, hp.2.1, Or.inr (Or.inr ⟨hp.1, Or.inl (by rw [hp.2.2.1]; rfl)⟩)⟩

theorem refundBookingOnDelete_writesOnly (r : Render) (b : Booking) (actor : String) :
    Async.WritesOnly
      (SettlementRecord r b "refund_on_delete" "Delete refund: base + markup"
        "Delete refund: base + markup" (b.basePay) (-b.commissionAmount)
        (-(b.basePay + b.markupAmount)))
      (refundBookingOnDelete r (some b) actor) := by
  unfold refundBookingOnDelete
  simp only []
  split
  · refine writes_ite _ (writes_mono (deductFromWallet_writesOnly r _ _ actor _) ?_) (writes_done _)
    intro p hp
    exact ⟨hp.2.2.2, hp.2.1, Or.inr (Or.inr ⟨hp.1, Or.inr (by rw [hp.2.2.1]; rfl)⟩)⟩
  · refine writes_andThen ?_
      (writes_ite _ (writes_mono (deductFromWallet_writesOnly r _ _ actor _) ?_) (writes_done _))
    · cases platformKey b with
      | none => exact writes_done _
      | some pk =>
        refine writes_andThen
          (writes_ite _ (writes_mono (addToWallet_writesOnly r _ _ actor _) ?_) (writes_done _))
          (writes_ite _ (writes_mono (deductFromWallet_writesOnly r _ _ actor _) ?_) (writes_done _))
        · intro p hp
          exact ⟨hp.2.2.2, hp.2.1, Or.inl ⟨hp.1, by rw [hp.2.2.1]; rfl⟩⟩
        · intro p hp
          exact ⟨hp.2.2.2, hp.2.1, Or.inr (Or.inl ⟨hp.1, by rw [hp.2.2.1]; rfl⟩)⟩
    · intro p hp
      exact ⟨hp.2.2.2, hp.2.1, Or.inr (Or.inr ⟨hp.1, Or.inl (by rw [hp.2.2.1]; rfl)⟩)⟩

theorem validExpenseAmount_some {e : Expense} {amount : Int}
    (h : validExpenseAmount (some e) = some amount) : e.amount = some amount ∧ 0 < amount := by
  unfold validExpenseAmount at h
  cases ha : e.amount with
  | none => simp [ha] at h
  | some a =>
    simp only [ha] at h
    split at h
    · simp at h
    · rename_i hc
      simp only [Option.some.injEq] at h
      subst h
      exact ⟨rfl, by omega⟩

theorem refund_text_ne_empty (d : String) : "Refund: " ++ d ≠ "" := by
  intro h
  have hlen := congrArg String.length h
  simp only [String.length_append] at hlen
  have h2 : "Refund: ".length = 8 := by decide
  have h3 : "".length = 0 := rfl
  omega

/-- The posting of an expense debit: no booking id, the expense's description
(or the action text when it is empty). -/
theorem debitOfficeForExpense_writesOnly (r : Render) (e : Expense) (user : String) :
    Async.WritesOnly
      (fun p => p.created_by = creator r ∧ p.booking_id = none ∧
        e.amount = some (-p.amount) ∧
        p.description = (if e.description = "" then "expense_debit" else e.description))
      (debitOfficeForExpense r (some e) user) := by
  intro w
  unfold debitOfficeForExpense
  cases hv : validExpenseAmount (some e) with
  | none => exact ⟨[], by simp, by simp⟩
  | some amount =>
    obtain ⟨ha, -⟩ := validExpenseAmount_some hv
    obtain ⟨ps, hl, hps⟩ := deductFromWallet_writesOnly r WALLET_KEYS.OFFICE amount user
      { expenseId := some e.id, description := some e.description,
        category := some e.category, action := some "expense_debit" } w
    refine ⟨ps, hl, ?_⟩
    intro p hp
    obtain ⟨hamt, hbid, hdesc, hby⟩ := hps p hp
    refine ⟨hby, hbid, ?_, ?_⟩
    · rw [ha, hamt]
      simp
    · rw [hdesc]
      unfold describe orElse
      by_cases hd : e.description = ""
      · simp [hd]
      · simp [hd]

/-- The posting of an expense refund: no booking id, the expense's description
after "Refund: ". -/
theorem refundExpenseToOffice_writesOnly (r : Render) (e : Expense) (user : String) :
    Async.WritesOnly
      (fun p => p.created_by = creator r ∧ p.booking_id = none ∧
        e.amount = some p.amount ∧ p.description = "Refund: " ++ e.description)
      (refundExpenseToOffice r (some e) user) := by
  intro w
  unfold refundExpenseToOffice
  cases hv : validExpenseAmount (some e) with
  | none => exact ⟨[], by simp, by simp⟩
  | some amount =>
    obtain ⟨ha, -⟩ := validExpenseAmount_some hv
    obtain ⟨ps, hl, hps⟩ := addToWallet_writesOnly r WALLET_KEYS.OFFICE amount user
      { expenseId := some e.id, description := some ("Refund: " ++ e.description),
        category := some e.category, action := some "expense_refund_on_delete" } w
    refine ⟨ps, hl, ?_⟩
    intro p hp
    obtain ⟨hamt, hbid, hdesc, hby⟩ := hps p hp
    refine ⟨hby, hbid, ?_, ?_⟩
    · rw [ha, hamt]
    · rw [hdesc]
      unfold describe orElse
      simp [refund_text_ne_empty]

/-! ## Attribution, description and correlation of postings -/

theorem signedSince_stable (r : Render) (ledger : List Posting) :
    Stable r (SignedSince (creator r) ledger) := by
  refine ⟨?_, fun _ _ h => h⟩
  intro key delta meta actor w h
  obtain ⟨ps, hl, hps⟩ := h
  obtain ⟨qs, hl2, hqs⟩ := recordTransaction_writesOnly r key delta meta actor w
  refine ⟨ps ++ qs, ?_, ?_⟩
  · rw [hl2, hl, List.append_assoc]
  · intro p hp
    rcases List.mem_append.mp hp with h1 | h1
    · exact hps p h1
    · exact (hqs p h1).2.2.2

/-- C23, as stated, fails: Scenario A applied by the actor "Alice" and by the
actor "Bob" leaves the very same state, and each of its three postings carries
the id "u1" of the signed-in user, not the actor string. -/
theorem actor_not_recorded :
    applyBookingWallet Sample.world.render (some Sample.scenarioA) "Alice" Sample.world
      = applyBookingWallet Sample.world.render (some Sample.scenarioA) "Bob" Sample.world ∧
    (issued Sample.world (applyBookingWallet Sample.world.render (some Sample.scenarioA)
      "Alice" Sample.world).2).map Posting.created_by
      = [some "u1", some "u1", some "u1"] ∧
    Sample.world.user = some { id := "u1" } :=
  ⟨rfl, by decide, rfl⟩

/-- C23, amended: the identity recorded on every posting that a mutating call
writes (credit, debit, apply, the two reversals, expense debit, expense
refund) is `created_by`, the id of the user signed in at the render the call
was made from, and null when nobody is signed in or the id is empty; the actor
string passed to the call is not recorded, and the call does the same whatever
actor it is given. -/
theorem postings_signed_by_user (r : Render) (op : Op) (w : World) (actor actor' : String) :
    (∀ p ∈ issued w (op.call r w).2, p.created_by = creator r) ∧
    (∀ key delta meta,
      recordTransaction r key delta meta actor = recordTransaction r key delta meta actor') ∧
    (∀ key amount meta,
      addToWallet r key amount actor meta = addToWallet r key amount actor' meta) ∧
    (∀ key amount meta,
      deductFromWallet r key amount actor meta = deductFromWallet r key amount actor' meta) ∧
    (∀ booking, applyBookingWallet r booking actor = applyBookingWallet r booking actor') ∧
    (∀ booking, refundBookingWallet r booking actor = refundBookingWallet r booking actor') ∧
    (∀ booking,
      refundBookingOnDelete r booking actor = refundBookingOnDelete r booking actor') ∧
    (∀ expenseData,
      debitOfficeForExpense r expenseData actor = debitOfficeForExpense r expenseData actor') ∧
    (∀ expenseData,
      refundExpenseToOffice r expenseData actor = refundExpenseToOffice r expenseData actor') := by
  refine ⟨?_, fun _ _ _ => rfl, fun _ _ _ => rfl, fun _ _ _ => rfl, ?_, ?_, ?_,
    fun _ => rfl, fun _ => rfl⟩
  · intro p hp
    have h0 : SignedSince (creator r) w.store.wallet_transactions w := ⟨[], by simp, by simp⟩
    obtain ⟨ps, hl, hps⟩ := Op.call_keeps (signedSince_stable r _) op w h0
    unfold issued at hp
    rw [hl, List.drop_left] at hp
    exact hps p hp
  · intro booking
    cases booking <;> rfl
  · intro booking
    cases booking <;> rfl
  · intro booking
    cases booking <;> rfl

/-- Scenario A applied on the sample session by the actor "Confirm Booking":
every posting is signed "u1". -/
theorem postings_signed_by_user_witness :
    creator Sample.world.render = some "u1" ∧
    ∀ p ∈ issued Sample.world
        ((Op.applyBookingWallet (some Sample.scenarioA) "Confirm Booking").call
          Sample.world.render Sample.world).2,
      p.created_by = creator Sample.world.render :=
  ⟨by decide,
    (postings_signed_by_user Sample.world.render
      (Op.applyBookingWallet (some Sample.scenarioA) "Confirm Booking") Sample.world
      "Confirm Booking" "Confirm Booking").1⟩

/-- C24, as stated, fails: the three postings of Scenario A carry the
descriptions "apply", "apply" and "Office profit: base + markup"; the tags
`base_pay` and `commission` of the steps are nowhere in the records, and a post
does the same with and without a `type` in its meta. -/
theorem tags_not_recorded :
    (issued Sample.world Sample.afterA).map Posting.description
      = ["apply", "apply", "Office profit: base + markup"] ∧
    (issued Sample.world Sample.afterA).map Posting.entry
      = [(some 1, -1000), (some 1, 150), (some 3, 1200)] ∧
    recordTransaction Sample.world.render "alhind" (-1000)
        { bookingId := some 7, action := some "apply", type := some "base_pay" } "System"
        Sample.world
      = recordTransaction Sample.world.render "alhind" (-1000)
        { bookingId := some 7, action := some "apply" } "System" Sample.world :=
  ⟨by decide, by decide, rfl⟩

/-- C24, amended: the posting record has no sub-type tag: a post writes the
same record whatever `type` its meta carries, and the only descriptive field is
`description`, which is `meta.description || meta.action || "Wallet
transaction"`.  So the base-pay debit and the commission credit of apply are
described "apply", the corresponding postings of the reversals
"refund_unconfirm" and "refund_on_delete", the office postings by their own
texts, the expense debit by the expense's description (by "expense_debit" when
that is empty) and the expense refund by "Refund: " and the expense's
description. -/
theorem posting_descriptions (r : Render) (b : Booking) (e : Expense) (actor : String)
    (w : World) :
    (∀ key delta meta tag,
      recordTransaction r key delta { meta with type := tag } actor
        = recordTransaction r key delta meta actor) ∧
    (∀ p ∈ issued w (applyBookingWallet r (some b) actor w).2,
      (p.amount = -b.basePay ∧ p.description = "apply") ∨
      (p.amount = b.commissionAmount ∧ p.description = "apply") ∨
      (p.amount = b.basePay + b.markupAmount ∧
        (p.description = "Office profit: base + markup" ∨
          p.description = "Direct: base + markup → Office"))) ∧
    (∀ p ∈ issued w (refundBookingWallet r (some b) actor w).2,
      (p.amount = b.basePay ∧ p.description = "refund_unconfirm") ∨
      (p.amount = -b.commissionAmount ∧ p.description = "refund_unconfirm") ∨
      (p.amount = -(b.basePay + b.markupAmount) ∧
        p.description = "Refund: base + markup → Office")) ∧
    (∀ p ∈ issued w (refundBookingOnDelete r (some b) actor w).2,
      (p.amount = b.basePay ∧ p.description = "refund_on_delete") ∨
      (p.amount = -b.commissionAmount ∧ p.description = "refund_on_delete") ∨
      (p.amount = -(b.basePay + b.markupAmount) ∧
        p.description = "Delete refund: base + markup")) ∧
    (∀ p ∈ issued w (debitOfficeForExpense r (some e) actor w).2,
      e.amount = some (-p.amount) ∧
      p.description = (if e.description = "" then "expense_debit" else e.description)) ∧
    (∀ p ∈ issued w (refundExpenseToOffice r (some e) actor w).2,
      e.amount = some p.amount ∧ p.description = "Refund: " ++ e.description) := by
  refine ⟨fun _ _ _ _ => rfl, ?_, ?_, ?_, ?_, ?_⟩
  · intro p hp
    exact (writes_issued (applyBookingWallet_writesOnly r b actor) w p hp).2.2
  · intro p hp
    rcases (writes_issued (refundBookingWallet_writesOnly r b actor) w p hp).2.2 with
      h | h | ⟨h1, h2⟩
    · exact Or.inl h
    · exact Or.inr (Or.inl h)
    · exact Or.inr (Or.inr ⟨h1, by rcases h2 with h2 | h2 <;> exact h2⟩)
  · intro p hp
    rcases (writes_issued (refundBookingOnDelete_writesOnly r b actor) w p hp).2.2 with
      h | h | ⟨h1, h2⟩
    · exact Or.inl h
    · exact Or.inr (Or.inl h)
    · exact Or.inr (Or.inr ⟨h1, by rcases h2 with h2 | h2 <;> exact h2⟩)
  · intro p hp
    exact (writes_issued (debitOfficeForExpense_writesOnly r e actor) w p hp).2.2
  · intro p hp
    exact (writes_issued (refundExpenseToOffice_writesOnly r e actor) w p hp).2.2

/-- Scenario A applied and the paper expense logged on the sample session. -/
theorem posting_descriptions_witness :
    (issued Sample.world (debitOfficeForExpense Sample.world.render (some Sample.paper)
      "Expense Logger" Sample.world).2).map Posting.description = ["Paper"] ∧
    ∀ p ∈ issued Sample.world (applyBookingWallet Sample.world.render (some Sample.scenarioA)
        "Confirm Booking" Sample.world).2,
      (p.amount = -Sample.scenarioA.basePay ∧ p.description = "apply") ∨
      (p.amount = Sample.scenarioA.commissionAmount ∧ p.description = "apply") ∨
      (p.amount = Sample.scenarioA.basePay + Sample.scenarioA.markupAmount ∧
        (p.description = "Office profit: base + markup" ∨
          p.description = "Direct: base + markup → Office")) :=
  ⟨by decide,
    (posting_descriptions Sample.world.render Sample.scenarioA Sample.paper "Confirm Booking"
      Sample.world).2.1⟩

/-- C25, as stated, fails for expenses: the posting of the paper expense
(id 4) has no correlation key at all, and the same expense under the id 99
writes the very same record. -/
theorem expense_id_not_recorded :
    Sample.paper.id = 4 ∧
    (issued Sample.world Sample.afterPaper).map Posting.booking_id = [none] ∧
    (issued Sample.world Sample.afterPaper).length = 1 ∧
    Sample.paperAgain.id = 99 ∧
    debitOfficeForExpense Sample.world.render (some Sample.paperAgain) "Expense Logger"
        Sample.world
      = debitOfficeForExpense Sample.world.render (some Sample.paper) "Expense Logger"
        Sample.world :=
  ⟨rfl, by decide, by decide, rfl, rfl⟩

/-- C25, amended: every posting written by apply or by a reversal of a booking
carries `booking_id = booking.id || null`, that is the booking's id unless the
id is falsy, so the postings of one booking settlement can be found as a unit;
the postings written by an expense debit or an expense refund carry no
correlation key (`booking_id` is null and the expense id is not recorded). -/
theorem posting_correlation (r : Render) (b : Booking) (e : Expense) (actor : String)
    (w : World) :
    (∀ p ∈ issued w (applyBookingWallet r (some b) actor w).2,
      p.booking_id = orNull (some b.id)) ∧
    (∀ p ∈ issued w (refundBookingWallet r (some b) actor w).2,
      p.booking_id = orNull (some b.id)) ∧
    (∀ p ∈ issued w (refundBookingOnDelete r (some b) actor w).2,
      p.booking_id = orNull (some b.id)) ∧
    (b.id ≠ 0 → orNull (some b.id) = some b.id) ∧
    (∀ p ∈ issued w (debitOfficeForExpense r (some e) actor w).2, p.booking_id = none) ∧
    (∀ p ∈ issued w (refundExpenseToOffice r (some e) actor w).2, p.booking_id = none) := by
  refine ⟨?_, ?_, ?_, ?_, ?_, ?_⟩
  · intro p hp
    exact (writes_issued (applyBookingWallet_writesOnly r b actor) w p hp).2.1
  · intro p hp
    exact (writes_issued (refundBookingWallet_writesOnly r b actor) w p hp).2.1
  · intro p hp
    exact (writes_issued (refundBookingOnDelete_writesOnly r b actor) w p hp).2.1
  · intro hid
    simp [orNull, hid]
  · intro p hp
    exact (writes_issued (debitOfficeForExpense_writesOnly r e actor) w p hp).2.1
  · intro p hp
    exact (writes_issued (refundExpenseToOffice_writesOnly r e actor) w p hp).2.1

/-- Scenario A (booking id 7) applied on the sample session: its three
postings carry booking id 7. -/
theorem posting_correlation_witness :
    Sample.scenarioA.id ≠ 0 ∧
    (issued Sample.world Sample.afterA).map Posting.booking_id = [some 7, some 7, some 7] ∧
    orNull (some Sample.scenarioA.id) = some Sample.scenarioA.id ∧
    ∀ p ∈ issued Sample.world (applyBookingWallet Sample.world.render (some Sample.scenarioA)
        "Confirm Booking" Sample.world).2,
      p.booking_id = orNull (some Sample.scenarioA.id) :=
  ⟨by decide, by decide,
    (posting_correlation Sample.world.render Sample.scenarioA Sample.paper "Confirm Booking"
      Sample.world).2.2.2.1 (by decide),
    (posting_correlation Sample.world.render Sample.scenarioA Sample.paper "Confirm Booking"
      Sample.world).1⟩

/-! ## No overdraft -/

theorem nodup_stable (r : Render) :
    Stable r (fun w => (w.store.wallets.map WalletRow.id).Nodup) := by
  refine ⟨?_, fun _ _ h => h⟩
  intro key delta meta actor w h
  rcases recordTransaction_cases r key delta meta actor w with
    ⟨-, hr⟩ | ⟨-, -, hr⟩ | ⟨p, msg, s, -, -, hins, hr⟩ | ⟨p, s, -, -, -, hins, hr⟩
  · rw [hr]
    exact h
  · rw [hr]
    exact h
  · rw [hr]
    obtain ⟨-, hw, -⟩ := Store.insert_refused hins
    simpa [hw] using h
  · rw [hr, (loadWallets_tables r _).1]
    obtain ⟨-, hw, -⟩ := Store.insert_accepted hins
    simp only [hw, List.map_map]
    have : WalletRow.id ∘ Store.creditRow p = WalletRow.id := by
      funext row
      simp [Store.creditRow_id]
    rw [this]
    exact h

/-- The balances shown after a single posting of `delta` on `key`. -/
theorem posted_one_net {r : Render} {w w' : World} {key : String} {delta : Int}
    (htr : Tracks r w) (htr' : Tracks r w') (hnd : (w.store.wallets.map WalletRow.id).Nodup)
    (hp : Posted r w w' [(key, delta)]) (k : String) :
    held w'.render k = held w.render k + (if k = key then delta else 0) := by
  cases hname : WALLET_NAME_MAP k with
  | none =>
    have hne : k ≠ key := by
      intro hk
      obtain ⟨ps, -, -, hent⟩ := hp
      obtain ⟨id, hid⟩ := plan_resolves hent (List.mem_singleton.mpr rfl)
      simp only [] at hid
      cases hl : lookupWallet r key with
      | none => simp [walletIdOf, hl] at hid
      | some wallet =>
        obtain ⟨name, hn, -⟩ := lookupWallet_some hl
        rw [← hk, hname] at hn
        simp at hn
    rw [held_unmapped _ hname, held_unmapped _ hname]
    simp [hne]
  | some name =>
    rw [posted_net htr htr' hnd hp hname]
    by_cases hk : k = key
    · simp [planSum, List.filter_cons, hk]
    · have hk' : ¬ key = k := fun h => hk h.symm
      simp [planSum, List.filter_cons, hk, hk']

theorem untouched_held {w w' : World} (h : Untouched w w') (k : String) :
    held w'.render k = held w.render k := by
  unfold held World.render
  simp only [h.2.2.1]

/-- A credit never lowers a balance. -/
theorem addToWallet_balance {r : Render} {w : World} (key : String) (amount : Int)
    (actor : String) (meta : Meta) (htr : Tracks r w)
    (hnd : (w.store.wallets.map WalletRow.id).Nodup) (k : String) :
    held w.render k ≤ held (addToWallet r key amount actor meta w).2.render k := by
  have htr' := addToWallet_keeps (tracks_stable r) key amount actor meta w htr
  cases hres : addToWallet r key amount actor meta w with
  | mk res w' =>
    rw [hres] at htr'
    cases res with
    | ok u =>
      have hp := addToWallet_posts r key amount actor meta w w' hres
      by_cases hg : key = "" ∨ amount ≤ 0
      · simp only [hg, if_true] at hp
        obtain ⟨ps, hl, hrows, hent⟩ := hp
        simp only [List.map_nil, List.map_eq_nil_iff] at hent
        subst hent
        have hrows' : w'.store.wallets = w.store.wallets := by simpa [creditAll] using hrows
        have hu : w'.user = w.user := by rw [tracks_user htr', ← tracks_user htr]
        have hsame : w'.wallets = w.wallets := (synced_same htr.2.2.1 htr'.2.2.1 hu hrows').1
        unfold held World.render
        simp only [hsame]
        omega
      · simp only [hg, if_false] at hp
        rw [posted_one_net htr htr' hnd hp k]
        split <;> omega
    | error e =>
      rw [untouched_held (addToWallet_error hres).2 k]

/-- A debit lowers only the balance of its key, by at most what the render
showed for it. -/
theorem deductFromWallet_balance {r : Render} {w : World} (key : String) (amount : Int)
    (actor : String) (meta : Meta) (htr : Tracks r w)
    (hnd : (w.store.wallets.map WalletRow.id).Nodup) (k : String) :
    (k ≠ key → held (deductFromWallet r key amount actor meta w).2.render k
      = held w.render k) ∧
    (held (deductFromWallet r key amount actor meta w).2.render k = held w.render k ∨
      (0 < amount ∧ amount ≤ held r key ∧
        held (deductFromWallet r key amount actor meta w).2.render k
          = held w.render k - amount)) := by
  have htr' := deductFromWallet_keeps (tracks_stable r) key amount actor meta w htr
  cases hres : deductFromWallet r key amount actor meta w with
  | mk res w' =>
    rw [hres] at htr'
    cases res with
    | ok u =>
      have hp := deductFromWallet_posts r key amount actor meta w w' hres
      by_cases hg : key = "" ∨ amount ≤ 0
      · simp only [hg, if_true] at hp
        obtain ⟨ps, hl, hrows, hent⟩ := hp
        simp only [List.map_nil, List.map_eq_nil_iff] at hent
        subst hent
        have hrows' : w'.store.wallets = w.store.wallets := by simpa [creditAll] using hrows
        have hu : w'.user = w.user := by rw [tracks_user htr', ← tracks_user htr]
        have hsame : w'.wallets = w.wallets := (synced_same htr.2.2.1 htr'.2.2.1 hu hrows').1
        have heq : held w'.render k = held w.render k := by
          unfold held World.render
          simp only [hsame]
        exact ⟨fun _ => heq, Or.inl heq⟩
      · simp only [hg, if_false] at hp
        have hpos : 0 < amount := by
          by_contra hle
          exact hg (Or.inr (by omega))
        have hcheck : amount ≤ held r key := by
          by_contra hlt
          obtain ⟨ps, -, -, hent⟩ := hp
          obtain ⟨id, hid⟩ := plan_resolves hent (List.mem_singleton.mpr rfl)
          simp only [] at hid
          cases hl : lookupWallet r key with
          | none => simp [walletIdOf, hl] at hid
          | some wallet =>
            obtain ⟨name, hn, -⟩ := lookupWallet_some hl
            have hlt' : getWallet r key < amount := by
              rw [getWallet_mapped r hn]
              exact Num.finite_lt.mpr (by omega)
            unfold deductFromWallet at hres
            simp [hg, hlt'] at hres
        have hnet := posted_one_net htr htr' hnd hp k
        constructor
        · intro hk
          rw [hnet]
          simp [hk]
        · by_cases hk : k = key
          · right
            refine ⟨hpos, hcheck, ?_⟩
            rw [hnet]
            simp only [hk, if_true]
            omega
          · left
            rw [hnet]
            simp [hk]
    | error e =>
      have heq := untouched_held (deductFromWallet_error hres) k
      exact ⟨fun _ => heq, Or.inl heq⟩

theorem safe_weaken {r : Render} {K K' : String → Prop} {w : World} (h : Safe r K w)
    (hK : ∀ k, K' k → K k) : Safe r K' w :=
  ⟨h.1, h.2.1, h.2.2.1, fun k hk => h.2.2.2 k (hK k hk)⟩

theorem triple_done {P Q : World → Prop} (h : ∀ w, P w → Q w) : Async.Triple P Async.done Q :=
  fun w hw => h w hw

theorem triple_ite {P Q : World → Prop} {a : Async} (c : Prop) [Decidable c]
    (ha : Async.Triple P a Q) (h : ∀ w, P w → Q w) :
    Async.Triple P (if c then a else Async.done) Q := by
  split
  · exact ha
  · exact triple_done h

theorem triple_andThen {P Q R : World → Prop} {a b : Async} (ha : Async.Triple P a Q)
    (hb : Async.Triple Q b R) (h : ∀ w, Q w → R w) : Async.Triple P (Async.andThen a b) R := by
  intro w hw
  have h1 := ha w hw
  unfold Async.andThen
  cases hres : a w with
  | mk res w1 =>
    rw [hres] at h1
    cases res with
    | ok u => exact hb w1 h1
    | error e => exact h w1 h1

theorem triple_weaken {P Q Q' : World → Prop} {a : Async} (ha : Async.Triple P a Q)
    (h : ∀ w, Q w → Q' w) : Async.Triple P a Q' :=
  fun w hw => h _ (ha w hw)

/-- A credit keeps a settlement safe. -/
theorem addToWallet_safe (r : Render) (K : String → Prop) (key : String) (amount : Int)
    (actor : String) (meta : Meta) :
    Async.Triple (Safe r K) (addToWallet r key amount actor meta) (Safe r K) := by
  intro w h
  obtain ⟨htr, hnd, hnn, hK⟩ := h
  refine ⟨addToWallet_keeps (tracks_stable r) key amount actor meta w htr,
    addToWallet_keeps (nodup_stable r) key amount actor meta w hnd, ?_, ?_⟩
  · intro k
    have := addToWallet_balance key amount actor meta htr hnd k
    have := hnn k
    omega
  · intro k hk
    have := addToWallet_balance key amount actor meta htr hnd k
    have := hK k hk
    omega

/-- A debit on a key not debited before in the settlement keeps it safe, for
the other keys. -/
theorem deductFromWallet_safe (r : Render) (K : String → Prop) (key : String) (amount : Int)
    (actor : String) (meta : Meta) (hkey : K key) :
    Async.Triple (Safe r K) (deductFromWallet r key amount actor meta)
      (Safe r (fun k => K k ∧ k ≠ key)) := by
  intro w h
  obtain ⟨htr, hnd, hnn, hK⟩ := h
  refine ⟨deductFromWallet_keeps (tracks_stable r) key amount actor meta w htr,
    deductFromWallet_keeps (nodup_stable r) key amount actor meta w hnd, ?_, ?_⟩
  · intro k
    obtain ⟨hother, hself⟩ := deductFromWallet_balance key amount actor meta htr hnd k
    by_cases hk : k = key
    · rcases hself with hs | ⟨hpos, hle, hs⟩
      · rw [hs]
        exact hnn k
      · rw [hs, hk]
        have := hK key hkey
        omega
    · rw [hother hk]
      exact hnn k
  · intro k hk
    obtain ⟨hother, -⟩ := deductFromWallet_balance key amount actor meta htr hnd k
    rw [hother hk.2]
    exact hK k hk.1

theorem platformKey_ne_office {b : Booking} {pk : String} (h : platformKey b = some pk) :
    WALLET_KEYS.OFFICE ≠ pk := by
  rcases platformKey_some h with h | h <;> subst h <;> decide

theorem applyBookingWallet_safe (r : Render) (booking : Option Booking) (actor : String) :
    Async.Triple (Safe r (fun _ => True)) (applyBookingWallet r booking actor)
      (Safe r (fun _ => False)) := by
  have hweak : ∀ (K : String → Prop) w, Safe r K w → Safe r (fun _ => False) w :=
    fun K w h => safe_weaken h (fun _ hf => hf.elim)
  unfold applyBookingWallet
  cases booking with
  | none => exact triple_done (hweak _)
  | some b =>
    simp only []
    split
    · exact triple_weaken (triple_ite _ (addToWallet_safe r _ _ _ _ _) (fun _ h => h))
        (hweak _)
    · refine triple_andThen ?_
        (triple_ite _ (addToWallet_safe r (fun _ => False) _ _ _ _) (fun _ h => h))
        (fun _ h => h)
      cases hpk : platformKey b with
      | none => exact triple_done (hweak _)
      | some pk =>
        exact triple_andThen
          (triple_weaken
            (triple_ite _ (deductFromWallet_safe r (fun _ => True) pk _ _ _ trivial)
              (fun w h => safe_weaken h (fun _ _ => trivial)))
            (hweak _))
          (triple_ite _ (addToWallet_safe r (fun _ => False) _ _ _ _) (fun _ h => h))
          (fun _ h => h)

theorem refundBookingWallet_safe (r : Render) (booking : Option Booking) (actor : String) :
    Async.Triple (Safe r (fun _ => True)) (refundBookingWallet r booking actor)
      (Safe r (fun _ => False)) := by
  have hweak : ∀ (K : String → Prop) w, Safe r K w → Safe r (fun _ => False) w :=
    fun K w h => safe_weaken h (fun _ hf => hf.elim)
  have hoffice : ∀ w, Safe r (fun _ => True) w → Safe r (fun k => k = WALLET_KEYS.OFFICE) w :=
    fun w h => safe_weaken h (fun _ _ => trivial)
  unfold refundBookingWallet
  cases booking with
  | none => exact triple_done (hweak _)
  | some b =>
    simp only []
    split
    · exact triple_weaken
        (triple_ite _ (deductFromWallet_safe r (fun _ => True) _ _ _ _ trivial)
          (fun w h => safe_weaken h (fun _ _ => trivial)))
        (hweak _)
    · refine triple_andThen (Q := Safe r (fun k => k = WALLET_KEYS.OFFICE)) ?_
        (triple_weaken
          (triple_ite _
            (deductFromWallet_safe r (fun k => k = WALLET_KEYS.OFFICE) _ _ _ _ rfl)
            (fun w h => safe_weaken h (fun _ hk => hk.1)))
          (hweak _))
        (hweak _)
      cases hpk : platformKey b with
      | none => exact triple_done hoffice
      | some pk =>
        have hne := platformKey_ne_office hpk
        exact triple_andThen
          (triple_ite _ (addToWallet_safe r (fun _ => True) _ _ _ _) (fun _ h => h))
          (triple_ite _
            (triple_weaken (deductFromWallet_safe r (fun _ => True) pk _ _ _ trivial)
              (fun w h => safe_weaken h (fun k hk => ⟨trivial, by rw [hk]; exact hne⟩)))
            hoffice)
          hoffice

theorem refundBookingOnDelete_safe (r : Render) (booking : Option Booking) (actor : String) :
    Async.Triple (Safe r (fun _ => True)) (refundBookingOnDelete r booking actor)
      (Safe r (fun _ => False)) := by
  have hweak : ∀ (K : String → Prop) w, Safe r K w → Safe r (fun _ => False) w :=
    fun K w h => safe_weaken h (fun _ hf => hf.elim)
  have hoffice : ∀ w, Safe r (fun _ => True) w → Safe r (fun k => k = WALLET_KEYS.OFFICE) w :=
    fun w h => safe_weaken h (fun _ _ => trivial)
  unfold refundBookingOnDelete
  cases booking with
  | none => exact triple_done (hweak _)
  | some b =>
    simp only []
    split
    · exact triple_weaken
        (triple_ite _ (deductFromWallet_safe r (fun _ => True) _ _ _ _ trivial)
          (fun w h => safe_weaken h (fun _ _ => trivial)))
        (hweak _)
    · refine triple_andThen (Q := Safe r (fun k => k = WALLET_KEYS.OFFICE)) ?_
        (triple_weaken
          (triple_ite _
            (deductFromWallet_safe r (fun k => k = WALLET_KEYS.OFFICE) _ _ _ _ rfl)
            (fun w h => safe_weaken h (fun _ hk => hk.1)))
          (hweak _))
        (hweak _)
      cases hpk : platformKey b with
      | none => exact triple_done hoffice
      | some pk =>
        have hne := platformKey_ne_office hpk
        exact triple_andThen
          (triple_ite _ (addToWallet_safe r (fun _ => True) _ _ _ _) (fun _ h => h))
          (triple_ite _
            (triple_weaken (deductFromWallet_safe r (fun _ => True) pk _ _ _ trivial)
              (fun w h => safe_weaken h (fun k hk => ⟨trivial, by rw [hk]; exact hne⟩)))
            hoffice)
          hoffice

theorem debitOfficeForExpense_safe (r : Render) (expenseData : Option Expense)
    (user : String) :
    Async.Triple (Safe r (fun _ => True)) (debitOfficeForExpense r expenseData user)
      (Safe r (fun _ => False)) := by
  intro w h
  unfold debitOfficeForExpense
  split
  · exact safe_weaken
      (deductFromWallet_safe r (fun _ => True) WALLET_KEYS.OFFICE _ user _ trivial w h)
      (fun _ hf => hf.elim)
  · exact safe_weaken h (fun _ hf => hf.elim)

theorem refundExpenseToOffice_safe (r : Render) (expenseData : Option Expense)
    (user : String) :
    Async.Triple (Safe r (fun _ => True)) (refundExpenseToOffice r expenseData user)
      (Safe r (fun _ => False)) := by
  intro w h
  unfold refundExpenseToOffice
  split
  · exact safe_weaken (addToWallet_safe r (fun _ => True) WALLET_KEYS.OFFICE _ user _ w h)
      (fun _ hf => hf.elim)
  · exact safe_weaken h (fun _ hf => hf.elim)

theorem Op.call_safe (r : Render) (op : Op) :
    Async.Triple (Safe r (fun _ => True)) (op.call r) (Safe r (fun _ => False)) := by
  cases op with
  | addToWallet k amount actor meta =>
    exact triple_weaken (addToWallet_safe r _ k amount actor meta)
      (fun w h => safe_weaken h (fun _ hf => hf.elim))
  | deductFromWallet k amount actor meta =>
    exact triple_weaken (deductFromWallet_safe r (fun _ => True) k amount actor meta trivial)
      (fun w h => safe_weaken h (fun _ hf => hf.elim))
  | applyBookingWallet booking actor => exact applyBookingWallet_safe r booking actor
  | refundBookingWallet booking actor => exact refundBookingWallet_safe r booking actor
  | refundBookingOnDelete booking actor => exact refundBookingOnDelete_safe r booking actor
  | debitOfficeForExpense expenseData user =>
    exact debitOfficeForExpense_safe r expenseData user
  | refundExpenseToOffice expenseData user =>
    exact refundExpenseToOffice_safe r expenseData user

theorem runEach_safe (ops : List Op) (w : World) (hsync : Synced w)
    (hsel : w.store.Reads) (hnd : (w.store.wallets.map WalletRow.id).Nodup)
    (hnn : NonNegative w) :
    Synced (runEach ops w) ∧ (runEach ops w).store.Reads ∧
    ((runEach ops w).store.wallets.map WalletRow.id).Nodup ∧ NonNegative (runEach ops w) := by
  induction ops generalizing w with
  | nil => exact ⟨hsync, hsel, hnd, hnn⟩
  | cons op ops ih =>
    have h0 : Safe w.render (fun _ => True) w :=
      ⟨tracks_render hsync hsel, hnd, hnn, fun _ _ => Int.le_refl _⟩
    have h1 := Op.call_safe w.render op w h0
    rw [← Op.run_eq_call] at h1
    obtain ⟨htr, hnd1, hnn1, -⟩ := h1
    exact ih (op.run w).2 htr.2.2.1 htr.2.2.2 hnd1 hnn1

theorem mem_walletKeys {key : String} :
    key ∈ walletKeys ↔ ∃ name, WALLET_NAME_MAP key = some name := by
  constructor
  · intro h
    simp only [walletKeys, WALLET_KEYS.ALHIND, WALLET_KEYS.AKBAR, WALLET_KEYS.OFFICE,
      List.mem_cons, List.mem_singleton, List.not_mem_nil, or_false] at h
    rcases h with h | h | h <;> subst h
    · exact ⟨"AlHind", by decide⟩
    · exact ⟨"Akbar", by decide⟩
    · exact ⟨"Office-Funds", by decide⟩
  · rintro ⟨name, h⟩
    rcases WALLET_NAME_MAP_some h with ⟨hk, -⟩ | ⟨hk, -⟩ | ⟨hk, -⟩ <;> subst hk <;> decide

/-- The three balances shown are non-negative exactly when every amount the
snapshot holds is. -/
theorem nonNegative_iff (w : World) :
    NonNegative w ↔ ∀ key ∈ walletKeys, 0 ≤ getWallet w.render key := by
  constructor
  · intro h key hkey
    obtain ⟨name, hname⟩ := mem_walletKeys.mp hkey
    rw [getWallet_mapped _ hname]
    exact Num.finite_le.mpr (h key)
  · intro h key
    cases hname : WALLET_NAME_MAP key with
    | none =>
      rw [held_unmapped _ hname]
    | some name =>
      have := h key (mem_walletKeys.mpr ⟨name, hname⟩)
      rw [getWallet_mapped _ hname] at this
      exact Num.finite_le.mp this

/-- C27, as stated, fails: on the sample session, loaded and with every balance
non-negative, the office holds 30; when the reload after the first debit
fails, two debits of 30 on the office made one after the other both succeed,
and the office ends at -30, in the store and in what the provider shows. -/
theorem overdraft_after_failed_reload :
    Synced (Sample.reading [true]) ∧
    (∀ key ∈ walletKeys, 0 ≤ getWallet (Sample.reading [true]).render key) ∧
    getWallet (Sample.reading [true]).render "office" = 30 ∧
    (runAll [.deductFromWallet "office" 30 "System" {}, .deductFromWallet "office" 30 "System" {}]
      (Sample.reading [true])).isSome = true ∧
    getWallet (runEach
      [.deductFromWallet "office" 30 "System" {}, .deductFromWallet "office" 30 "System" {}]
      (Sample.reading [true])).render "office" = -30 ∧
    ¬ (0 ≤ getWallet (runEach
      [.deductFromWallet "office" 30 "System" {}, .deductFromWallet "office" 30 "System" {}]
      (Sample.reading [true])).render "office") ∧
    (runEach
      [.deductFromWallet "office" 30 "System" {}, .deductFromWallet "office" 30 "System" {}]
      (Sample.reading [true])).store.wallets
      = [{ id := 1, name := "AlHind", balance := 5000 },
         { id := 2, name := "Akbar", balance := 300 },
         { id := 3, name := "Office-Funds", balance := -30 }] := by
  decide

/-- C27, amended: starting from a loaded session (the snapshot equals the
cached balances of the store) with unique wallet ids, in which no read of the
wallets fails and every wallet balance is non-negative, after any sequence of
calls made one after the other (credit, debit, apply, the two reversals,
expense debit, expense refund), each succeeding or failing, every wallet
balance is still non-negative, and the snapshot still equals the cached
balances of the store. -/
theorem no_overdraft_in_sequence (ops : List Op) (w : World) (hsync : Synced w)
    (hsel : w.store.Reads) (hnd : (w.store.wallets.map WalletRow.id).Nodup)
    (hnn : ∀ key ∈ walletKeys, 0 ≤ getWallet w.render key) :
    (∀ key ∈ walletKeys, 0 ≤ getWallet (runEach ops w).render key) ∧
    Synced (runEach ops w) := by
  obtain ⟨hs, -, -, hn⟩ := runEach_safe ops w hsync hsel hnd ((nonNegative_iff w).mpr hnn)
  exact ⟨(nonNegative_iff _).mp hn, hs⟩

/-- The rough session on the sample session: it ends with platform A at 5100,
platform B at 0 and the office at 30. -/
theorem no_overdraft_in_sequence_witness :
    Synced Sample.world ∧ Sample.world.store.Reads ∧
    (Sample.world.store.wallets.map WalletRow.id).Nodup ∧
    (∀ key ∈ walletKeys, 0 ≤ getWallet Sample.world.render key) ∧
    (runEach Sample.rough Sample.world).wallets = { alhind := 5100, akbar := 0, office := 30 } ∧
    (Sample.rough.map (fun op => (op.run Sample.world).1)).head?
      = some (.error (.InsufficientBalance "akbar" 300)) ∧
    ((∀ key ∈ walletKeys, 0 ≤ getWallet (runEach Sample.rough Sample.world).render key) ∧
      Synced (runEach Sample.rough Sample.world)) :=
  ⟨by decide, by decide, by decide, by decide, by decide, rfl,
    no_overdraft_in_sequence Sample.rough Sample.world (by decide) (by decide) (by decide)
      (by decide)⟩

end BookingTrack
